import Mathlib

/-!
# OGL4Core2 host runtime (`src/core/Core.cpp`, `src/core/Core.h`)

A shallow embedding of the class `OGL4Core2::Core::Core` (built with
`OGL4CORE2_ENABLE_PWROWG`), followed by theorems about it.

Conventions of the embedding

* The object is a record `Core` whose fields carry the names of the C++ members.
  Calls into external collaborators (plugin callbacks, the registered camera, GLFW,
  the PNG writer, the power sampler) are appended to `Core.log` in call order.
* Everything the host reads from outside during one frame (what the ImGui widgets
  report, what plugin code does inside its callbacks, which window events GLFW
  delivers) is an explicit input record (`DrawInput`, `FrameInput`).
* A `double` is the rational number it denotes, or `Double.nonFinite` for an infinity or a
  NaN; the results of `*`, `-` and `/` are rounded as IEEE 754 binary64 does, to the nearest
  double with ties to even. A `float` that is only stored and copied is the rational number it
  denotes.
* A C++ exception leaving a function is the result `Outcome.threw`, which carries the
  state at the throw.
* `uint64_t frameNumber_` wraps modulo `2 ^ 64`.
-/

namespace OGL4Core2

/-! ## Screenshot frame list normalisation (constructor, `Core.cpp` 311-319) -/

/-- The call `std::sort(v.begin(), v.end())` on a vector of unsigned integers: the ascending
rearrangement of the elements. -/
def stdSort (v : List Nat) : List Nat :=
  v.insertionSort (· ≤ ·)

/-- The calls `std::unique` followed by `erase(last, end)`: of every run of equal adjacent
elements one element is kept. -/
def stdUnique : List Nat → List Nat
  | [] => []
  | [x] => [x]
  | x :: y :: rest => if x = y then stdUnique (y :: rest) else x :: stdUnique (y :: rest)

/-- The loop `while (!v.empty() && v.front() < 1) v.erase(v.begin());`. -/
def eraseFrontBelowOne : List Nat → List Nat
  | [] => []
  | x :: rest => if x < 1 then eraseFrontBelowOne rest else x :: rest

/-- The block "Sort and filter screenshot frame list" of the constructor. -/
def normalizeScreenshotFrames (frames : List Nat) : List Nat :=
  if frames.isEmpty then frames
  else eraseFrontBelowOne (stdUnique (stdSort frames))

/-! ## Data model -/

/-- The enumeration `AbstractCamera::MouseControlMode`. -/
inductive MouseControlMode where
  | None
  | Left
  | Middle
  | Right
  deriving DecidableEq, Repr

/-- The enumeration `MouseButton` of `Input.h`, after `static_cast<MouseButton>(button)`;
`Other` stands for the remaining GLFW buttons. -/
inductive MouseButton where
  | Left
  | Right
  | Middle
  | Other (n : Nat)
  deriving DecidableEq, Repr

/-- The enumeration `MouseButtonAction` of `Input.h`, after the `static_cast`. -/
inductive MouseButtonAction where
  | Release
  | Press
  deriving DecidableEq, Repr

/-- Modelled from the spec: the class `Mods` of `Input.h` (not part of the sources at hand) is the
set of modifier bits of an event. -/
structure Mods where
  bits : Nat
  deriving DecidableEq, Repr

/-- Modelled from the spec: `Mods::none()` holds when no modifier key is active, that is when no
modifier bit is set. -/
def Mods.none (m : Mods) : Bool :=
  m.bits == 0

/-- A C++ `double` (IEEE 754 binary64): the rational number it denotes, or `nonFinite` for an
infinity or a NaN. The sign of a zero is left out. -/
inductive Double where
  | finite (q : ℚ)
  | nonFinite
  deriving DecidableEq, Repr

/-- A literal such as `2.0`. -/
instance (n : Nat) : OfNat Double n := ⟨.finite (n : ℚ)⟩

/-- The conversion `static_cast<double>(i)` of an `int`, which is exact. -/
def Double.ofInt (i : Int) : Double := .finite (i : ℚ)

/-- The integer nearest to `x`, the even one of the two when `x` lies half-way. -/
def roundHalfEven (x : ℚ) : ℤ :=
  if x - ⌊x⌋ < 1 / 2 then ⌊x⌋
  else if 1 / 2 < x - ⌊x⌋ then ⌊x⌋ + 1
  else if ⌊x⌋ % 2 = 0 then ⌊x⌋ else ⌊x⌋ + 1

/-- The exponent of the last mantissa bit of the doubles around `q`: 52 below the exponent of
`q` for a normal number, `-1074` for a subnormal one. -/
def ulpExp (q : ℚ) : ℤ := max (Int.log 2 |q| - 52) (-1074)

/-- The double nearest to `q` if the exponent range had no upper end: `q` rounded to a
multiple of `2 ^ ulpExp q`, ties to even. -/
def nearestDouble (q : ℚ) : ℚ := (roundHalfEven (q / 2 ^ ulpExp q) : ℚ) * 2 ^ ulpExp q

/-- The rounding that IEEE 754 applies to the exact result `q` of an arithmetic operation
(round to nearest, ties to even): the nearest double, or an infinity when that is out of
range. -/
def Double.round (q : ℚ) : Double :=
  if |nearestDouble q| < 2 ^ 1024 then .finite (nearestDouble q) else .nonFinite

/-- The product of two doubles; a non-finite factor gives a non-finite product. -/
def Double.mul : Double → Double → Double
  | .finite a, .finite b => Double.round (a * b)
  | _, _ => .nonFinite

/-- The difference of two doubles; a non-finite operand gives a non-finite difference. -/
def Double.sub : Double → Double → Double
  | .finite a, .finite b => Double.round (a - b)
  | _, _ => .nonFinite

/-- The quotient of two doubles. A division by zero gives an infinity or a NaN, and so does a
non-finite dividend; the divisors of this program are converted integers, never non-finite. -/
def Double.div : Double → Double → Double
  | .finite a, .finite b => if b = 0 then .nonFinite else Double.round (a / b)
  | _, _ => .nonFinite

instance : Mul Double := ⟨Double.mul⟩

instance : Sub Double := ⟨Double.sub⟩

instance : Div Double := ⟨Double.div⟩

/-- The struct `Core::cam_control_entry`. -/
structure cam_control_entry where
  mode : MouseControlMode
  oldX : Double
  oldY : Double
  newX : Double
  newY : Double
  xoffset : Double
  yoffset : Double
  deriving DecidableEq, Repr

/-- A gaze point, `std::array<float, 2>`. -/
abbrev GazePoint := ℚ × ℚ

/-- The initialiser `{0.5f, 0.5f}`. -/
def defaultGazePoint : GazePoint := (1 / 2, 1 / 2)

/-- The struct `Core::Config`. -/
structure Config where
  defaultPluginName : String := ""
  screenshotFrames : List Nat := []
  screenshotFilename : String := ""
  autoQuit : Bool := false
  deriving DecidableEq, Repr

/-- A plugin object made by `PluginDescriptor::create`: the index of its descriptor in the
plugin register and a serial number telling successive instances apart. -/
structure PluginInstance where
  descriptor : Int
  serial : Nat
  deriving DecidableEq, Repr

/-- One element of `pwr_owg_config_t::sensor_buffers`: the samples held and the capacity that
`reserve` has set aside. -/
structure SampleBuffer where
  samples : List (Nat × ℚ) := []
  capacity : Nat := 0
  deriving DecidableEq, Repr

/-- The object representation of a trivially copyable type: `size` is `sizeof(T)`, `toBytes`
the bytes that `write(reinterpret_cast<char const*>(data), ...)` emits for one element and
`ofBytes` the element that a vector slot holds after `read` has overwritten it. -/
structure ObjectLayout (α : Type) where
  size : Nat
  toBytes : α → List UInt8
  ofBytes : List UInt8 → α

/-- The object representations of the two record types written to trace files. -/
structure Layouts where
  entry : ObjectLayout cam_control_entry
  gaze : ObjectLayout GazePoint

/-- The files reachable through `std::filesystem`. `names` tells which file each spelling of a
path leads to (two spellings may lead to the same file; a spelling that is not listed leads to
no file, and none can be created under it), `files` holds the bytes of the files that exist
(the first binding of a file counts), and `noRead`, `noWrite` list the files on which a stream
cannot be opened for reading, for writing. Every file is a regular file. -/
structure FileSystem where
  names : List (String × Nat) := []
  files : List (Nat × List UInt8) := []
  noRead : List Nat := []
  noWrite : List Nat := []
  deriving DecidableEq, Repr

/-- Calls to external collaborators, in the order the host makes them. -/
inductive Event where
  | pluginReleased (p : PluginInstance)
  | pluginCreated (p : PluginInstance)
  | pluginResize (p : PluginInstance) (width height : Int)
  | pluginRender (p : PluginInstance)
  | pluginKeyboard (p : PluginInstance) (key action mods : Int)
  | pluginCharInput (p : PluginInstance) (codepoint : Nat)
  | pluginMouseButton (p : PluginInstance) (b : MouseButton) (a : MouseButtonAction) (m : Mods)
  | pluginMouseMove (p : PluginInstance) (xpos ypos : Double)
  | pluginMouseScroll (p : PluginInstance) (xoffset yoffset : Double)
  | cameraMouseMoveControl (cam : Nat) (mode : MouseControlMode) (oldX oldY newX newY : Double)
  | cameraMouseScrollControl (cam : Nat) (xoffset yoffset : Double)
  | savePngImage (filenameStem : String) (frameNumber : Nat) (width height : Int)
  | setWindowShouldClose
  | setWindowSize (width height : Int)
  | swapBuffers
  | sensorsStart
  | sensorsStop
  deriving DecidableEq, Repr

/-- The members of `Core` (with `pwr_owg_config_t` flattened to the sensor count and the sample
buffers), the file system, and the log of external calls. Three fields are there for
bookkeeping only and are read by no function of the host: `nextSerial` numbers the plugin
objects, `pushedGaze` lists every gaze point that plugin code has handed to `push_gaze_point` so
far, in call order, and `readOverrun` is raised once `read` has been told to store more bytes
than the vector receiving them holds, which is undefined behaviour in the source: from then on
the model no longer describes the program. -/
structure Core where
  cfg_ : Config := {}
  windowShouldClose : Bool := false
  frameNumber_ : Nat := 0
  currentPlugin_ : Option PluginInstance := none
  currentPluginResourcesPath_ : String := ""
  currentPluginResourcesPathException_ : String := ""
  currentPluginIdx_ : Int := -1
  pluginSelectionIdx_ : Int := 0
  windowWidth_ : Int := -1
  windowHeight_ : Int := -1
  framebufferWidth_ : Int := -1
  framebufferHeight_ : Int := -1
  mouseX_ : Double := 0
  mouseY_ : Double := 0
  cameraControlMode_ : MouseControlMode := MouseControlMode.None
  camera_ : Option Nat := none
  run_benchmark_ : Bool := false
  num_frames_ : Int := 100
  expected_samples_num_ : Int := 1
  sample_interval_ : Int := 10
  sensorCount : Nat := 0
  sensor_buffers : List SampleBuffer := []
  output_file_ : String := "./pwr.csv"
  camera_path_file_ : String := "./cam.path"
  eye_path_file_ : String := "./eye.path"
  replay_paths_ : Bool := false
  replay_eyes_ : Bool := false
  recording_paths_ : Bool := false
  window_size_ : Int × Int := (1280, 800)
  old_window_size_ : Int × Int := (0, 0)
  frame_cap_ms_ : Int := 30
  use_frame_cap_ : Bool := false
  current_entry_ : cam_control_entry := ⟨MouseControlMode.None, 0, 0, 0, 0, 0, 0⟩
  recorded_entries_ : List cam_control_entry := []
  recorded_gaze_points_ : List GazePoint := []
  current_gaze_point_ : GazePoint := defaultGazePoint
  nextSerial : Nat := 0
  pushedGaze : List GazePoint := []
  fs : FileSystem := {}
  readOverrun : Bool := false
  log : List Event := []

/-- How a call ended: it returned, or an exception left it; both carry the state reached. -/
inductive Outcome where
  | returned (c : Core)
  | threw (c : Core)

/-- The state an outcome carries. -/
def Outcome.core : Outcome → Core
  | .returned c => c
  | .threw c => c

/-- Sequencing: the continuation runs only after a normal return. -/
def Outcome.andThen (o : Outcome) (k : Core → Outcome) : Outcome :=
  match o with
  | .returned c => k c
  | .threw c => .threw c

/-- Append one external call to the log. -/
def Core.emit (c : Core) (e : Event) : Core :=
  { c with log := c.log ++ [e] }

/-! ## Inputs from outside the host -/

/-- A call that plugin code makes on the host while one of its callbacks runs. -/
inductive PluginCall where
  | registerCamera (cam : Nat)
  | removeCamera
  | push_gaze_point (gp : GazePoint)

/-- What the ImGui widgets of `draw` report in one frame: whether each collapsing header
("Plugins", "PwrOwg", and "Automation" inside it) is open, and the result of each widget, where
`none` and `false` mean that the widget was not activated. -/
structure UiInput where
  pluginsOpen : Bool := true
  pwrOwgOpen : Bool := true
  automationOpen : Bool := true
  pluginCombo : Option Int := none
  windowSize : Option (Int × Int) := none
  frameCapMs : Option Int := none
  useFrameCapClicked : Bool := false
  numFrames : Option Int := none
  outputPath : Option String := none
  startBenchmarkClicked : Bool := false
  camPath : Option String := none
  eyePath : Option String := none
  replayClicked : Bool := false
  replayEyesClicked : Bool := false
  recordClicked : Bool := false
  recordingClicked : Bool := false

/-- Everything one call of `draw` takes from outside: the widget results, the result of
`FileUtil::findPluginResourcesPath` (an exception is `Except.error`), whether the plugin factory
or `render` throws, and the host calls the plugin makes from its destructor, constructor and
`render`. -/
structure DrawInput where
  ui : UiInput := {}
  resourcesPath : Except String String := .ok "resources"
  createThrows : Bool := false
  renderThrows : Bool := false
  releaseCalls : List PluginCall := []
  createCalls : List PluginCall := []
  renderCalls : List PluginCall := []

/-- A window-system event delivered by `glfwPollEvents`, with the values that the handler reads
from ImGui and GLFW while it runs (`wantCapture...`, the result of `GLFWUtil::fixKeyboardMods`,
the result of `GLFWUtil::anyModKeyPressed`). -/
inductive WindowEvent where
  | windowSize (width height : Int)
  | framebufferSize (width height : Int)
  | key (key scancode action mods : Int) (fixedMods : Int) (wantCaptureKeyboard : Bool)
  | char (codepoint : Nat) (wantTextInput : Bool)
  | mouseButton (button : MouseButton) (action : MouseButtonAction) (mods : Mods)
      (wantCaptureMouse : Bool)
  | mouseMove (xpos ypos : Double) (wantCaptureMouse : Bool)
  | mouseScroll (xoffset yoffset : Double) (wantCaptureMouse : Bool) (anyModKeyPressed : Bool)
  | refresh (d : DrawInput)

/-- Everything one call of `render_frame` takes from outside. -/
structure FrameInput where
  draw : DrawInput := {}
  events : List WindowEvent := []

/-! ## File access -/

/-- The first value bound to `k` in an association list. -/
def assocFind {α β : Type} [DecidableEq α] : List (α × β) → α → Option β
  | [], _ => none
  | (a, b) :: rest, k => if a = k then some b else assocFind rest k

/-- The file that `path` leads to, if any. -/
def FileSystem.fileOf (fs : FileSystem) (path : String) : Option Nat :=
  assocFind fs.names path

/-- The bytes of the file at `path` (`none` when `std::filesystem::exists` is false). -/
def FileSystem.content (fs : FileSystem) (path : String) : Option (List UInt8) :=
  match fs.fileOf path with
  | some f => assocFind fs.files f
  | none => none

/-- Whether `std::ifstream(path, std::ios::binary)` opens. -/
def FileSystem.canRead (fs : FileSystem) (path : String) : Bool :=
  match fs.fileOf path with
  | some f => !fs.noRead.contains f
  | none => false

/-- Opening `std::ofstream(path, std::ios::binary)`, writing `bytes` and closing. When the
stream opens, the file that `path` leads to holds exactly `bytes` afterwards (a stream that
opens is taken to write all its bytes); when it does not open, nothing is written and nothing is
reported. -/
def FileSystem.write (fs : FileSystem) (path : String) (bytes : List UInt8) : FileSystem :=
  match fs.fileOf path with
  | some f => if fs.noWrite.contains f then fs else { fs with files := (f, bytes) :: fs.files }
  | none => fs

/-- The bytes of `write(reinterpret_cast<char const*>(v.data()), v.size() * sizeof(T))`: the
object representations of the elements, one after the other. -/
def writeRecords {α : Type} (L : ObjectLayout α) : List α → List UInt8
  | [] => []
  | x :: xs => L.toBytes x ++ writeRecords L xs

/-- A vector resized to `n` elements and then overwritten by `read` from the start of `bytes`:
slot `j` takes the `sizeof(T)` bytes from offset `j * sizeof(T)`. -/
def readRecords {α : Type} (L : ObjectLayout α) : Nat → List UInt8 → List α
  | 0, _ => []
  | n + 1, bytes => L.ofBytes (bytes.take L.size) :: readRecords L n (bytes.drop L.size)

/-- The statements `v.resize(file_size / sizeof(T)); file.read(v.data(), file_size);` on a file
holding `bytes`. When the stream is open the slots take the bytes of the file (a stream that
opens is taken to deliver the whole file); when it could not be opened `read` stores nothing
and the slots stay value-initialised, all bytes zero. -/
def loadRecords {α : Type} (L : ObjectLayout α) (opened : Bool) (bytes : List UInt8) : List α :=
  if opened then readRecords L (bytes.length / L.size) bytes
  else List.replicate (bytes.length / L.size) (L.ofBytes (List.replicate L.size 0))

/-- Whether those statements store past the end of the vector: `read` is given `file_size`
bytes to store, the vector holds `file_size / sizeof(T)` whole elements, so an open stream on a
file whose size is not a multiple of `sizeof(T)` runs over. -/
def loadOverruns {α : Type} (L : ObjectLayout α) (opened : Bool) (bytes : List UInt8) : Bool :=
  opened && decide (bytes.length % L.size ≠ 0)

/-! ## Host interface used by plugins -/

/-- The method `Core::getPluginResourcesPath`. -/
def getPluginResourcesPath (c : Core) : Except String String :=
  if c.currentPluginResourcesPath_.isEmpty then .error c.currentPluginResourcesPathException_
  else .ok c.currentPluginResourcesPath_

/-- The method `Core::registerCamera`; `camera_` is `some cam` while the weak reference can be
locked. -/
def registerCamera (cam : Nat) (c : Core) : Core :=
  { c with camera_ := some cam }

/-- The method `Core::removeCamera`. -/
def removeCamera (c : Core) : Core :=
  { c with camera_ := none }

/-- The method `Core::push_gaze_point`; the call is also noted in `pushedGaze`. -/
def push_gaze_point (gp : GazePoint) (c : Core) : Core :=
  { c with
    recorded_gaze_points_ := c.recorded_gaze_points_ ++ [gp]
    pushedGaze := c.pushedGaze ++ [gp] }

/-- The method `Core::pull_gaze_point`. -/
def pull_gaze_point (c : Core) : GazePoint :=
  c.current_gaze_point_

/-- The method `Core::record_gaze_point`. -/
def record_gaze_point (c : Core) : Bool :=
  c.recording_paths_

/-- The method `Core::replay_gaze_point`. -/
def replay_gaze_point (c : Core) : Bool :=
  c.run_benchmark_ && c.replay_eyes_

/-- One host call made by plugin code. -/
def applyPluginCall (k : PluginCall) (c : Core) : Core :=
  match k with
  | .registerCamera cam => registerCamera cam c
  | .removeCamera => removeCamera c
  | .push_gaze_point gp => push_gaze_point gp c

/-- The host calls made during one plugin callback, in order. -/
def applyPluginCalls : List PluginCall → Core → Core
  | [], c => c
  | k :: ks, c => applyPluginCalls ks (applyPluginCall k c)

/-! ## `Core::draw` -/

/-- The combo box "Plugin". -/
def pluginComboWidget (ui : UiInput) (c : Core) : Core :=
  match ui.pluginCombo with
  | some i => { c with pluginSelectionIdx_ := i }
  | none => c

/-- The section "Plugins" of `draw`: the combo box is reached when the header is open. -/
def uiPluginCombo (ui : UiInput) (c : Core) : Core :=
  if ui.pluginsOpen then pluginComboWidget ui c else c

/-- The widget "Window Size" and the call `setWindowSize` that follows a change. -/
def uiWindowSize (ui : UiInput) (c : Core) : Core :=
  let c1 : Core :=
    match ui.windowSize with
    | some ws => { c with window_size_ := ws }
    | none => c
  if c1.window_size_.1 ≠ c1.old_window_size_.1 ∨ c1.window_size_.2 ≠ c1.old_window_size_.2 then
    { c1.emit (.setWindowSize c1.window_size_.1 c1.window_size_.2) with
      old_window_size_ := c1.window_size_ }
  else c1

/-- The widgets "Frame Cap [ms]", "Use Frame Cap", "Num Frames" and "Output Path". -/
def uiBenchmarkSettings (ui : UiInput) (c : Core) : Core :=
  let c1 : Core :=
    match ui.frameCapMs with
    | some v => { c with frame_cap_ms_ := v }
    | none => c
  let c2 : Core :=
    if ui.useFrameCapClicked then { c1 with use_frame_cap_ := !c1.use_frame_cap_ } else c1
  let c3 : Core :=
    match ui.numFrames with
    | some v => { c2 with num_frames_ := v }
    | none => c2
  match ui.outputPath with
  | some v => { c3 with output_file_ := v }
  | none => c3

/-- The body of `if (ImGui::Button("Start Benchmark"))`. The C++ `int` division truncates. -/
def startBenchmarkButton (c : Core) : Core :=
  let expected : Int := Int.tdiv (c.num_frames_ * 2) c.sample_interval_
  { c with
    expected_samples_num_ := expected
    sensor_buffers := List.replicate c.sensorCount { samples := [], capacity := expected.toNat }
    run_benchmark_ := true }

/-- The text fields "Cam Path" and "Eye Path". -/
def uiTracePaths (ui : UiInput) (c : Core) : Core :=
  let c1 : Core :=
    match ui.camPath with
    | some v => { c with camera_path_file_ := v }
    | none => c
  match ui.eyePath with
  | some v => { c1 with eye_path_file_ := v }
  | none => c1

/-- The body of `if (ImGui::Checkbox("Replay", &replay_paths_))`, entered on a click; the
checkbox has flipped `replay_paths_` before the body runs. -/
def replayCheckbox (L : Layouts) (c : Core) : Core :=
  let c1 : Core := { c with replay_paths_ := !c.replay_paths_ }
  match c1.fs.content c1.camera_path_file_ with
  | some camBytes =>
    let entries := loadRecords L.entry (c1.fs.canRead c1.camera_path_file_) camBytes
    let c2 : Core :=
      { c1 with
        recorded_entries_ := entries
        recorded_gaze_points_ := []
        readOverrun :=
          c1.readOverrun || loadOverruns L.entry (c1.fs.canRead c1.camera_path_file_) camBytes }
    match c2.fs.content c2.eye_path_file_ with
    | some eyeBytes =>
      let gaze := loadRecords L.gaze (c2.fs.canRead c2.eye_path_file_) eyeBytes
      let c3 : Core :=
        { c2 with
          readOverrun :=
            c2.readOverrun || loadOverruns L.gaze (c2.fs.canRead c2.eye_path_file_) eyeBytes }
      if gaze.length ≠ entries.length then
        { c3 with recorded_gaze_points_ := [], current_gaze_point_ := defaultGazePoint }
      else
        { c3 with recorded_gaze_points_ := gaze }
    | none => c2
  | none =>
    { c1 with replay_paths_ := false, current_gaze_point_ := defaultGazePoint }

/-- The body of `if (ImGui::Button("Record"))`. -/
def recordButton (L : Layouts) (c : Core) : Core :=
  let c1 : Core := { c with recording_paths_ := !c.recording_paths_ }
  if c1.recording_paths_ then
    { c1 with recorded_entries_ := [], recorded_gaze_points_ := [] }
  else
    let fs1 := c1.fs.write c1.camera_path_file_ (writeRecords L.entry c1.recorded_entries_)
    let fs2 := fs1.write c1.eye_path_file_ (writeRecords L.gaze c1.recorded_gaze_points_)
    { c1 with fs := fs2 }

/-- The widgets under the header "Automation": the path fields, "Replay", "Replay Eyes",
"Record" and "Recording", in source order. -/
def automationWidgets (L : Layouts) (ui : UiInput) (c : Core) : Core :=
  let c1 := uiTracePaths ui c
  let c2 := if ui.replayClicked then replayCheckbox L c1 else c1
  let c3 : Core := if ui.replayEyesClicked then { c2 with replay_eyes_ := !c2.replay_eyes_ } else c2
  let c4 := if ui.recordClicked then recordButton L c3 else c3
  if ui.recordingClicked then { c4 with recording_paths_ := !c4.recording_paths_ } else c4

/-- The section "Automation" of `draw`: its widgets are reached when the header is open. -/
def uiAutomation (L : Layouts) (ui : UiInput) (c : Core) : Core :=
  if ui.automationOpen then automationWidgets L ui c else c

/-- The widgets under the header "PwrOwg", the section "Automation" last. -/
def pwrOwgWidgets (L : Layouts) (ui : UiInput) (c : Core) : Core :=
  let c1 := uiBenchmarkSettings ui (uiWindowSize ui c)
  let c2 := if ui.startBenchmarkClicked then startBenchmarkButton c1 else c1
  uiAutomation L ui c2

/-- The section "PwrOwg" of `draw`: its widgets are reached when the header is open. -/
def uiPwrOwg (L : Layouts) (ui : UiInput) (c : Core) : Core :=
  if ui.pwrOwgOpen then pwrOwgWidgets L ui c else c

/-- The statement `currentPlugin_ = nullptr;`: the host gives up the plugin it holds, whose
destructor runs. -/
def releasePlugin (d : DrawInput) (c : Core) : Core :=
  match c.currentPlugin_ with
  | some p => { applyPluginCalls d.releaseCalls (c.emit (.pluginReleased p)) with currentPlugin_ := none }
  | none => c

/-- The `try`/`catch` around `FileUtil::findPluginResourcesPath`. -/
def resolveResourcesPath (d : DrawInput) (c : Core) : Core :=
  match d.resourcesPath with
  | .ok path => { c with currentPluginResourcesPath_ := path }
  | .error ex =>
    { c with currentPluginResourcesPathException_ := ex, currentPluginResourcesPath_ := "" }

/-- The block `if (currentPluginIdx_ != pluginSelectionIdx_) ...` of `draw`. -/
def pluginSwap (d : DrawInput) (c : Core) : Outcome :=
  if c.currentPluginIdx_ ≠ c.pluginSelectionIdx_ then
    let c1 : Core := { c with currentPluginIdx_ := c.pluginSelectionIdx_ }
    let c2 := resolveResourcesPath d (releasePlugin d c1)
    if d.createThrows then .threw c2
    else
      let p : PluginInstance := { descriptor := c2.currentPluginIdx_, serial := c2.nextSerial }
      let c3 : Core := { c2 with nextSerial := c2.nextSerial + 1 }
      let c4 := applyPluginCalls d.createCalls (c3.emit (.pluginCreated p))
      let c5 : Core := { c4 with currentPlugin_ := some p }
      .returned (c5.emit (.pluginResize p c5.framebufferWidth_ c5.framebufferHeight_))
  else .returned c

/-- The block `if (currentPlugin_ != nullptr) currentPlugin_->render();` of `draw`. -/
def renderPlugin (d : DrawInput) (c : Core) : Outcome :=
  match c.currentPlugin_ with
  | some p =>
    let c1 := applyPluginCalls d.renderCalls (c.emit (.pluginRender p))
    if d.renderThrows then .threw c1 else .returned c1
  | none => .returned c

/-- The method `Core::draw`: the widgets in source order, the plugin swap, then `render`. -/
def draw (L : Layouts) (d : DrawInput) (c : Core) : Outcome :=
  (pluginSwap d (uiPwrOwg L d.ui (uiPluginCombo d.ui c))).andThen (renderPlugin d)

/-! ## `Core::screenshot` -/

/-- The method `Core::screenshot`. The saved file is named from `filenameStem` and the frame
number, zero-padded to five digits. -/
def screenshot (c : Core) : Core :=
  match c.cfg_.screenshotFrames with
  | [] => c
  | front :: rest =>
    if front ≠ c.frameNumber_ then c
    else
      let c1 : Core := { c with cfg_ := { c.cfg_ with screenshotFrames := rest } }
      let stem := if c1.cfg_.screenshotFilename.isEmpty then "screenshot" else c1.cfg_.screenshotFilename
      let c2 := c1.emit (.savePngImage stem c1.frameNumber_ c1.framebufferWidth_ c1.framebufferHeight_)
      if c2.cfg_.autoQuit && c2.cfg_.screenshotFrames.isEmpty then
        { c2.emit .setWindowShouldClose with windowShouldClose := true }
      else c2

/-! ## Window event handlers -/

/-- The method `Core::windowSizeEvent`. -/
def windowSizeEvent (width height : Int) (c : Core) : Core :=
  { c with windowWidth_ := width, windowHeight_ := height }

/-- The method `Core::framebufferSizeEvent`. -/
def framebufferSizeEvent (width height : Int) (c : Core) : Core :=
  let c1 : Core := { c with framebufferWidth_ := width, framebufferHeight_ := height }
  match c.currentPlugin_ with
  | some p => c1.emit (.pluginResize p width height)
  | none => c1

/-- The method `Core::keyEvent`; `fixedMods` is the value of `GLFWUtil::fixKeyboardMods`. -/
def keyEvent (key action fixedMods : Int) (wantCaptureKeyboard : Bool) (c : Core) : Core :=
  match wantCaptureKeyboard, c.currentPlugin_ with
  | false, some p => c.emit (.pluginKeyboard p key action fixedMods)
  | _, _ => c

/-- The method `Core::charEvent`. -/
def charEvent (codepoint : Nat) (wantTextInput : Bool) (c : Core) : Core :=
  match wantTextInput, c.currentPlugin_ with
  | false, some p => c.emit (.pluginCharInput p codepoint)
  | _, _ => c

/-- The camera-control mode that `Core::mouseButtonEvent` assigns. -/
def cameraControlModeFor (b : MouseButton) (a : MouseButtonAction) (m : Mods) : MouseControlMode :=
  if a = MouseButtonAction.Press ∧ m.none = true then
    if b = MouseButton.Left then MouseControlMode.Left
    else if b = MouseButton.Middle then MouseControlMode.Middle
    else if b = MouseButton.Right then MouseControlMode.Right
    else MouseControlMode.None
  else MouseControlMode.None

/-- The method `Core::mouseButtonEvent`. -/
def mouseButtonEvent (b : MouseButton) (a : MouseButtonAction) (m : Mods)
    (wantCaptureMouse : Bool) (c : Core) : Core :=
  let c1 : Core := { c with cameraControlMode_ := cameraControlModeFor b a m }
  match wantCaptureMouse, c.currentPlugin_ with
  | false, some p => c1.emit (.pluginMouseButton p b a m)
  | _, _ => c1

/-- The method `Core::scaleWindowPosToFramebufferPos`, returning the scaled pair. The source
divides by the window size without a test. -/
def scaleWindowPosToFramebufferPos (c : Core) (xpos ypos : Double) : Double × Double :=
  (xpos * (Double.ofInt c.framebufferWidth_ / Double.ofInt c.windowWidth_),
   ypos * (Double.ofInt c.framebufferHeight_ / Double.ofInt c.windowHeight_))

/-- The camera part of `Core::mouseMoveEvent`, reached when the UI does not capture the mouse
and a plugin is loaded; `xpos`, `ypos` are in framebuffer space. -/
def mouseMoveCamera (xpos ypos : Double) (c : Core) : Core :=
  if c.cameraControlMode_ ≠ MouseControlMode.None then
    match c.camera_ with
    | some cam =>
      let oldX : Double := 2 * c.mouseX_ / Double.ofInt c.framebufferWidth_ - 1
      let oldY : Double := 1 - 2 * c.mouseY_ / Double.ofInt c.framebufferHeight_
      let newX : Double := 2 * xpos / Double.ofInt c.framebufferWidth_ - 1
      let newY : Double := 1 - 2 * ypos / Double.ofInt c.framebufferHeight_
      let c1 := c.emit (.cameraMouseMoveControl cam c.cameraControlMode_ oldX oldY newX newY)
      if c1.recording_paths_ then
        { c1 with
          current_entry_ :=
            { c1.current_entry_ with
              mode := c1.cameraControlMode_, oldX := oldX, oldY := oldY, newX := newX, newY := newY } }
      else c1
    | none => c
  else c

/-- The method `Core::mouseMoveEvent`. -/
def mouseMoveEvent (xpos ypos : Double) (wantCaptureMouse : Bool) (c : Core) : Core :=
  let pos := scaleWindowPosToFramebufferPos c xpos ypos
  let c1 : Core :=
    match wantCaptureMouse, c.currentPlugin_ with
    | false, some p => (mouseMoveCamera pos.1 pos.2 c).emit (.pluginMouseMove p pos.1 pos.2)
    | _, _ => c
  { c1 with mouseX_ := pos.1, mouseY_ := pos.2 }

/-- The camera part of `Core::mouseScrollEvent`. -/
def mouseScrollCamera (xoffset yoffset : Double) (anyModKeyPressed : Bool) (c : Core) : Core :=
  if anyModKeyPressed then c
  else
    match c.camera_ with
    | some cam =>
      let c1 := c.emit (.cameraMouseScrollControl cam xoffset yoffset)
      if c1.recording_paths_ then
        { c1 with current_entry_ := { c1.current_entry_ with xoffset := xoffset, yoffset := yoffset } }
      else c1
    | none => c

/-- The method `Core::mouseScrollEvent`. -/
def mouseScrollEvent (xoffset yoffset : Double) (wantCaptureMouse anyModKeyPressed : Bool)
    (c : Core) : Core :=
  match wantCaptureMouse, c.currentPlugin_ with
  | false, some p =>
    (mouseScrollCamera xoffset yoffset anyModKeyPressed c).emit (.pluginMouseScroll p xoffset yoffset)
  | _, _ => c

/-- The callback registered for one window event. The refresh callback calls `draw` and swaps
the buffers. -/
def handleEvent (L : Layouts) (e : WindowEvent) (c : Core) : Outcome :=
  match e with
  | .windowSize w h => .returned (windowSizeEvent w h c)
  | .framebufferSize w h => .returned (framebufferSizeEvent w h c)
  | .key key _ action _ fixedMods want => .returned (keyEvent key action fixedMods want c)
  | .char codepoint want => .returned (charEvent codepoint want c)
  | .mouseButton b a m want => .returned (mouseButtonEvent b a m want c)
  | .mouseMove x y want => .returned (mouseMoveEvent x y want c)
  | .mouseScroll x y want anyMod => .returned (mouseScrollEvent x y want anyMod c)
  | .refresh d => (draw L d c).andThen (fun c1 => .returned (c1.emit .swapBuffers))

/-- The call `glfwPollEvents()`: the pending events are handled in order. -/
def pollEvents (L : Layouts) : List WindowEvent → Core → Outcome
  | [], c => .returned c
  | e :: es, c => (handleEvent L e c).andThen (pollEvents L es)

/-! ## `Core::run` -/

/-- The lambda `render_frame` of `Core::run`: one frame tick. The frame-rate counter only feeds
the window title and is left out. -/
def render_frame (L : Layouts) (inp : FrameInput) (c : Core) : Outcome :=
  let c1 : Core := { c with frameNumber_ := (c.frameNumber_ + 1) % 2 ^ 64 }
  (draw L inp.draw c1).andThen fun c2 =>
    pollEvents L inp.events ((screenshot c2).emit .swapBuffers)

/-- The block `if (recording_paths_) ...` at the head of the main loop body. -/
def recordingTick (c : Core) : Core :=
  if c.recording_paths_ then
    { c with
      recorded_entries_ := c.recorded_entries_ ++ [c.current_entry_]
      current_entry_ :=
        { c.current_entry_ with
          newX := c.current_entry_.oldX, newY := c.current_entry_.oldY, xoffset := 0, yoffset := 0 } }
  else c

/-- How a loop over frame ticks ended: it ran to its end (`rest` are the frame inputs not yet
used), an exception left it, or the given frame inputs were used up while the loop was still
running (`starved`, carrying the state before the tick that found no input). -/
inductive LoopResult where
  | finished (c : Core) (rest : List FrameInput)
  | threw (c : Core) (rest : List FrameInput)
  | starved (c : Core)

/-- The state a loop result carries. -/
def LoopResult.core : LoopResult → Core
  | .finished c _ => c
  | .threw c _ => c
  | .starved c => c

/-- The frame inputs a loop result leaves unused. -/
def LoopResult.rest : LoopResult → List FrameInput
  | .finished _ rest => rest
  | .threw _ rest => rest
  | .starved _ => []

/-- The loop `for (int i = 0; i < num_frames_; ++i) render_frame();` from index `i` on
(the frame-cap sleep takes time only). -/
def framesLoop (L : Layouts) : List FrameInput → Nat → Core → LoopResult
  | [], i, c => if (i : Int) < c.num_frames_ then .starved c else .finished c []
  | inp :: rest, i, c =>
    if (i : Int) < c.num_frames_ then
      match render_frame L inp c with
      | .returned c1 => framesLoop L rest (i + 1) c1
      | .threw c1 => .threw c1 rest
    else .finished c (inp :: rest)

/-- The statements of one replay iteration that precede `render_frame()`: the gaze point and
the camera calls for `recorded_entries_[i]`. Reading `recorded_gaze_points_[i]` past the end is
undefined in the source; the model leaves the gaze point as it is there. -/
def replayApply (i : Nat) (ce : cam_control_entry) (c : Core) : Core :=
  let c1 : Core :=
    if c.recorded_gaze_points_.isEmpty then c
    else { c with current_gaze_point_ := c.recorded_gaze_points_.getD i c.current_gaze_point_ }
  match c.camera_ with
  | some cam =>
    (c1.emit (.cameraMouseMoveControl cam ce.mode ce.oldX ce.oldY ce.newX ce.newY)).emit
      (.cameraMouseScrollControl cam ce.xoffset ce.yoffset)
  | none => c1

/-- The loop `for (std::size_t i = 0; i < recorded_entries_.size(); ++i) ...` from index `i`
on. -/
def replayLoop (L : Layouts) : List FrameInput → Nat → Core → LoopResult
  | [], i, c => if i < c.recorded_entries_.length then .starved c else .finished c []
  | inp :: rest, i, c =>
    match c.recorded_entries_.get? i with
    | some ce =>
      match render_frame L inp (replayApply i ce c) with
      | .returned c1 => replayLoop L rest (i + 1) c1
      | .threw c1 => .threw c1 rest
    | none => .finished c (inp :: rest)

/-- The block `if (run_benchmark_) { try { ... } catch (...) { ... } }` of the main loop. Of the
sampler and its CSV sink only the calls `start` and `stop` are recorded; the clock readings and
the console output are left out. -/
def benchmark (L : Layouts) (inputs : List FrameInput) (c : Core) : LoopResult :=
  let c1 := c.emit .sensorsStart
  let looped : LoopResult :=
    if c1.replay_paths_ then
      match replayLoop L inputs 0 c1 with
      | .finished c2 rest => .finished { c2 with replay_paths_ := false } rest
      | other => other
    else framesLoop L inputs 0 c1
  match looped with
  | .finished c2 rest => .finished { c2.emit .sensorsStop with run_benchmark_ := false } rest
  | .threw c2 rest => .finished { c2 with run_benchmark_ := false } rest
  | .starved c2 => .starved c2

/-- One pass through the body of `while (!glfwWindowShouldClose(window_))`. -/
def mainLoopBody (L : Layouts) (inputs : List FrameInput) (c : Core) : LoopResult :=
  let c1 := recordingTick c
  let benched : LoopResult := if c1.run_benchmark_ then benchmark L inputs c1 else .finished c1 inputs
  match benched with
  | .finished c2 [] => .starved c2
  | .finished c2 (inp :: rest) =>
    match render_frame L inp c2 with
    | .returned c3 => .finished c3 rest
    | .threw c3 => .threw c3 rest
  | other => other

/-- A run of `n` successive frame ticks, as long as none throws. -/
def runFrames (L : Layouts) : List FrameInput → Core → Outcome
  | [], c => .returned c
  | inp :: rest, c => (render_frame L inp c).andThen (runFrames L rest)

/-- What the constructor obtains from GLFW and the plugin register: whether the window and the
OpenGL context could be made, the sizes queried, the registered plugin names and the number of
power sensors. -/
structure Startup where
  windowCreated : Bool := true
  openGLReady : Bool := true
  windowWidth : Int := 1280
  windowHeight : Int := 800
  framebufferWidth : Int := 1280
  framebufferHeight : Int := 800
  pluginNames : List String := ["ExamplePlugin"]
  sensorCount : Nat := 0

/-- The search "Find default plugin by name" of the constructor. -/
def findDefaultPlugin (names : List String) (name : String) : Int :=
  if name.isEmpty then 0
  else
    match names.indexOf? name with
    | some i => (i : Int)
    | none => 0

/-- The constructor `Core::Core(Config cfg)`; an error is the exception it throws. -/
def Core.construct (env : Startup) (cfg : Config) : Except String Core :=
  if !env.windowCreated then .error "GLFW window creation failed!"
  else if !env.openGLReady then .error "Failed to initialize OpenGL context!"
  else if env.pluginNames.isEmpty then .error "No plugins found!"
  else
    .ok
      { cfg_ := { cfg with screenshotFrames := normalizeScreenshotFrames cfg.screenshotFrames }
        windowWidth_ := env.windowWidth
        windowHeight_ := env.windowHeight
        framebufferWidth_ := env.framebufferWidth
        framebufferHeight_ := env.framebufferHeight
        pluginSelectionIdx_ := findDefaultPlugin env.pluginNames cfg.defaultPluginName
        sensorCount := env.sensorCount }

/-! ## Sample data -/

/-- A sample byte code for the camera-control mode. -/
def sampleModeByte : MouseControlMode → UInt8
  | .None => 0
  | .Left => 1
  | .Middle => 2
  | .Right => 3

/-- The mode a sample byte stands for. -/
def sampleByteMode (b : UInt8) : MouseControlMode :=
  if b = 1 then .Left else if b = 2 then .Middle else if b = 3 then .Right else .None

/-- A sample one-byte code for a number: small naturals are kept. -/
def sampleNumByte (q : ℚ) : UInt8 :=
  UInt8.ofNat q.num.toNat

/-- The number a sample byte stands for. -/
def sampleByteNum (b : UInt8) : ℚ :=
  (b.toNat : ℚ)

/-- A sample one-byte code for a `double`: small naturals are kept. -/
def sampleDoubleByte : Double → UInt8
  | .finite q => sampleNumByte q
  | .nonFinite => 255

/-- The `double` a sample byte stands for. -/
def sampleByteDouble (b : UInt8) : Double :=
  .finite (sampleByteNum b)

/-- A sample object representation of `cam_control_entry` with one byte per member. -/
def sampleEntryLayout : ObjectLayout cam_control_entry where
  size := 7
  toBytes e :=
    [sampleModeByte e.mode, sampleDoubleByte e.oldX, sampleDoubleByte e.oldY, sampleDoubleByte e.newX,
      sampleDoubleByte e.newY, sampleDoubleByte e.xoffset, sampleDoubleByte e.yoffset]
  ofBytes bs :=
    { mode := sampleByteMode (bs.getD 0 0)
      oldX := sampleByteDouble (bs.getD 1 0)
      oldY := sampleByteDouble (bs.getD 2 0)
      newX := sampleByteDouble (bs.getD 3 0)
      newY := sampleByteDouble (bs.getD 4 0)
      xoffset := sampleByteDouble (bs.getD 5 0)
      yoffset := sampleByteDouble (bs.getD 6 0) }

/-- A sample object representation of a gaze point with one byte per coordinate. -/
def sampleGazeLayout : ObjectLayout GazePoint where
  size := 2
  toBytes g := [sampleNumByte g.1, sampleNumByte g.2]
  ofBytes bs := (sampleByteNum (bs.getD 0 0), sampleByteNum (bs.getD 1 0))

/-- The two sample object representations. -/
def sampleLayouts : Layouts where
  entry := sampleEntryLayout
  gaze := sampleGazeLayout

/-- The host as constructed from the default configuration in the default environment. -/
def sampleFreshCore : Core :=
  { windowWidth_ := 1280, windowHeight_ := 800
    framebufferWidth_ := 1280, framebufferHeight_ := 800 }

/-- A host with the screenshot queue 1, 3, 5 and `autoQuit` set, before its first frame. -/
def sampleShotCore : Core :=
  { cfg_ := { screenshotFrames := [1, 3, 5], autoQuit := true } }

/-- Six frames in which nothing arrives from outside. -/
def sampleQuietFrames : List FrameInput :=
  [{}, {}, {}, {}, {}, {}]

/-- A host that is recording, with two entries and one gaze point recorded. -/
def sampleRecordingCore : Core :=
  { fs := { names := [("./cam.path", 0), ("./eye.path", 1)] }
    recording_paths_ := true
    recorded_entries_ :=
      [⟨MouseControlMode.Left, 0, 0, 1, 2, 0, 0⟩, ⟨MouseControlMode.None, 1, 2, 1, 2, 0, 3⟩]
    recorded_gaze_points_ := [(1, 1)] }

/-- A host that is recording, with one entry recorded, whose two path fields are two spellings
of the path of one file. -/
def sampleAliasCore : Core :=
  { fs := { names := [("./trace.path", 0), ("trace.path", 0)] }
    recording_paths_ := true
    camera_path_file_ := "./trace.path"
    eye_path_file_ := "trace.path"
    recorded_entries_ := [⟨MouseControlMode.Left, 0, 0, 1, 2, 0, 0⟩] }

/-- A host that finds on disk a camera trace of one whole record (7 bytes in the sample
representation) and a gaze trace of one byte, half a record. -/
def sampleShortGazeCore : Core :=
  { fs :=
      { names := [("./cam.path", 0), ("./eye.path", 1)]
        files := [(0, [1, 0, 0, 1, 2, 0, 0]), (1, [9])] } }

/-- A host that finds an empty camera trace and no gaze trace on disk, while its current gaze
point is the one left by an earlier replay. -/
def sampleStaleGazeCore : Core :=
  { fs := { names := [("./cam.path", 0), ("./eye.path", 1)], files := [(0, [])] }
    current_gaze_point_ := (1 / 4, 3 / 4) }

/-! ## Observations on the log -/

/-- What `screenshot` does to the outside: it saves the image of a frame, or asks the window to
close. -/
inductive ShotEvent where
  | capture (frameNumber : Nat)
  | close
  deriving DecidableEq, Repr

/-- The screenshot-related reading of one external call. -/
def shotOf : Event → Option ShotEvent
  | .savePngImage _ n _ _ => some (.capture n)
  | .setWindowShouldClose => some .close
  | _ => none

/-- The captures and close requests of a log, in order. -/
def shots (log : List Event) : List ShotEvent :=
  log.filterMap shotOf

/-- The frame numbers captured, in order. -/
def capturedFrames (log : List Event) : List Nat :=
  (shots log).filterMap fun s =>
    match s with
    | .capture n => some n
    | .close => none

/-- The part of the state that `screenshot` reads or writes, with the screenshot-related part of
the log. -/
def Core.shotState (c : Core) : Nat × Config × Bool × List ShotEvent :=
  (c.frameNumber_, c.cfg_, c.windowShouldClose, shots c.log)

/-- The screenshot schedule after `t` ticks of a run that started at frame number 0 with queue
`Q`: `done` has been captured, the rest is still queued, and a close request has been made
once the queue ran empty under `autoQuit`. -/
def ShotInv (Q : List Nat) (base : List ShotEvent) (t : Nat) (c : Core) : Prop :=
  c.frameNumber_ = t % 2 ^ 64 ∧
    ∃ done : List Nat, Q = done ++ c.cfg_.screenshotFrames ∧ (∀ x ∈ done, x ≤ t) ∧
      (∀ x ∈ c.cfg_.screenshotFrames, t < x) ∧
      shots c.log = base ++ done.map ShotEvent.capture ++
        (if c.cfg_.autoQuit = true ∧ c.cfg_.screenshotFrames = [] ∧ Q ≠ [] then [ShotEvent.close]
          else [])

/-- Whether an external call is a call on a plugin object (its release, its creation or one of
its callbacks). -/
def Event.onPlugin : Event → Bool
  | .pluginReleased _ => true
  | .pluginCreated _ => true
  | .pluginResize _ _ _ => true
  | .pluginRender _ => true
  | .pluginKeyboard _ _ _ _ => true
  | .pluginCharInput _ _ => true
  | .pluginMouseButton _ _ _ _ => true
  | .pluginMouseMove _ _ _ => true
  | .pluginMouseScroll _ _ _ => true
  | _ => false

/-- The calls on plugin objects of a log, in order. -/
def pluginTrace (log : List Event) : List Event :=
  log.filter Event.onPlugin

/-- The part of the state that decides a plugin swap, with the plugin calls of the log. -/
def Core.swapState (c : Core) :
    Option PluginInstance × Int × Int × Int × Nat × List Event :=
  (c.currentPlugin_, c.currentPluginIdx_, c.framebufferWidth_, c.framebufferHeight_, c.nextSerial,
    pluginTrace c.log)

/-- Whether a loop ended because an exception left it. -/
def LoopResult.threwException : LoopResult → Bool
  | .threw _ _ => true
  | _ => false

/-- A `draw` in which the "Num Frames" slider is not moved. -/
def DrawInput.keepsNumFrames (d : DrawInput) : Prop :=
  d.ui.numFrames = none

/-- A window event whose handling does not move the "Num Frames" slider: every event other than
a refresh, and a refresh whose `draw` does not. -/
def WindowEvent.keepsNumFrames : WindowEvent → Prop
  | .refresh d => d.keepsNumFrames
  | _ => True

/-- A frame tick in which the "Num Frames" slider is not moved; everything else may arrive from
outside. -/
def FrameInput.keepsNumFrames (inp : FrameInput) : Prop :=
  inp.draw.keepsNumFrames ∧ ∀ e ∈ inp.events, e.keepsNumFrames

/-- A `draw` in which neither "Replay" nor "Record" is clicked. -/
def DrawInput.keepsTrace (d : DrawInput) : Prop :=
  d.ui.replayClicked = false ∧ d.ui.recordClicked = false

/-- A window event whose handling clicks neither "Replay" nor "Record": every event other than
a refresh, and a refresh whose `draw` clicks neither. -/
def WindowEvent.keepsTrace : WindowEvent → Prop
  | .refresh d => d.keepsTrace
  | _ => True

/-- A frame tick in which the trace is neither reloaded nor recorded anew; everything else may
arrive from outside. -/
def FrameInput.keepsTrace (inp : FrameInput) : Prop :=
  inp.draw.keepsTrace ∧ ∀ e ∈ inp.events, e.keepsTrace

/-- The expressions of `Core::mouseMoveEvent` that turn a position in framebuffer space into
normalised device coordinates: `2.0 * x / static_cast<double>(framebufferWidth_) - 1.0` and
`1.0 - 2.0 * y / static_cast<double>(framebufferHeight_)`. -/
def ndcOfFramebufferPos (c : Core) (x y : Double) : Double × Double :=
  (2 * x / Double.ofInt c.framebufferWidth_ - 1, 1 - 2 * y / Double.ofInt c.framebufferHeight_)

/-- A host whose window is 0 by 0 (as GLFW reports for a minimised window) with a framebuffer
of 1280 by 800. -/
def sampleZeroWindowCore : Core :=
  { windowWidth_ := 0, windowHeight_ := 0, framebufferWidth_ := 1280, framebufferHeight_ := 800 }

/-- Whether an external call is a call on the registered camera. -/
def Event.onCamera : Event → Bool
  | .cameraMouseMoveControl _ _ _ _ _ _ => true
  | .cameraMouseScrollControl _ _ _ => true
  | _ => false

/-- A host with plugin object 0 loaded, camera 7 registered, the camera-control mode `Left`,
a window of 640 by 400, a framebuffer of 1280 by 800 and the pointer last seen at the
framebuffer position (640, 400). -/
def sampleDragCore : Core :=
  { currentPlugin_ := some ⟨0, 0⟩
    currentPluginIdx_ := 0
    camera_ := some 7
    cameraControlMode_ := MouseControlMode.Left
    windowWidth_ := 640, windowHeight_ := 400
    framebufferWidth_ := 1280, framebufferHeight_ := 800
    mouseX_ := 640, mouseY_ := 400 }

/-- The host of `sampleDragCore` while recording is active. -/
def sampleDragRecordingCore : Core :=
  { sampleDragCore with recording_paths_ := true }

/-- The cached result of the resource-directory search: the path and the exception. -/
def Core.resourcesView (c : Core) : String × String :=
  (c.currentPluginResourcesPath_, c.currentPluginResourcesPathException_)

/-- Whether an external call is a call on the power sampler. -/
def Event.onSensor : Event → Bool
  | .sensorsStart => true
  | .sensorsStop => true
  | _ => false

/-- The calls on the power sampler in a log, in order. -/
def sensorTrace (log : List Event) : List Event :=
  log.filter Event.onSensor

/-- The calls on the power sampler so far are `s`. -/
def SensorKept (s : List Event) (c : Core) : Prop :=
  sensorTrace c.log = s

/-- One frame in which `render` of the plugin throws. -/
def sampleThrowingFrames : List FrameInput :=
  [{ draw := { renderThrows := true } }, {}, {}, {}]

/-- A host with plugin object 0 loaded and a benchmark of four frames triggered. -/
def sampleBenchCore : Core :=
  { currentPlugin_ := some ⟨0, 0⟩
    currentPluginIdx_ := 0
    run_benchmark_ := true
    num_frames_ := 4
    old_window_size_ := (1280, 800) }

/-- A `draw` in which neither "Record" nor "Recording" is clicked. -/
def DrawInput.keepsRecording (d : DrawInput) : Prop :=
  d.ui.recordClicked = false ∧ d.ui.recordingClicked = false

/-- A window event whose handling clicks neither "Record" nor "Recording". -/
def WindowEvent.keepsRecording : WindowEvent → Prop
  | .refresh d => d.keepsRecording
  | _ => True

/-- A frame tick in which neither "Record" nor "Recording" is clicked; everything else may
arrive from outside. -/
def FrameInput.keepsRecording (inp : FrameInput) : Prop :=
  inp.draw.keepsRecording ∧ ∀ e ∈ inp.events, e.keepsRecording

/-- A window event that is neither a pointer move nor a scroll. -/
def WindowEvent.noPointer : WindowEvent → Prop
  | .mouseMove _ _ _ => False
  | .mouseScroll _ _ _ _ => False
  | _ => True

/-- A frame tick in which the pointer neither moves nor scrolls. -/
def FrameInput.noPointer (inp : FrameInput) : Prop :=
  ∀ e ∈ inp.events, e.noPointer

/-- Since some earlier moment, at which `base` had been pushed, the gaze trace has taken up
exactly the gaze points that plugin code handed to `push_gaze_point`, in call order. -/
def GazeLogged (base : List GazePoint) (c : Core) : Prop :=
  c.pushedGaze = base ++ c.recorded_gaze_points_

/-- What "Start Benchmark" sets up: the expected sample count, the per-sensor buffers and the
trigger flag. -/
def Core.benchSetup (c : Core) : Int × List SampleBuffer × Bool :=
  (c.expected_samples_num_, c.sensor_buffers, c.run_benchmark_)

/-- In a log, every `render` of a plugin object comes after a `resize` of that object. -/
def RenderedAfterResize (log : List Event) : Prop :=
  ∀ (pre post : List Event) (p : PluginInstance), log = pre ++ Event.pluginRender p :: post →
    ∃ w h, Event.pluginResize p w h ∈ pre

/-- The size an external call hands to plugin object `p`, when the call is a `resize` of `p`. -/
def resizeOf (p : PluginInstance) : Event → Option (Int × Int)
  | .pluginResize q w h => if q = p then some (w, h) else none
  | _ => none

/-- The size of the last `resize` that plugin object `p` received in a log, if there is one. -/
def lastResize (p : PluginInstance) : List Event → Option (Int × Int)
  | [] => none
  | e :: es =>
    match lastResize p es with
    | some s => some s
    | none => resizeOf p e

/-- Whether an external call is a `resize` or a `render` of a plugin object. -/
def Event.rendering : Event → Bool
  | .pluginResize _ _ _ => true
  | .pluginRender _ => true
  | _ => false

/-- Every `render` so far came after a `resize` of the same object, and the last `resize` the
current plugin received carried the cached framebuffer size. -/
def ResizedInv (c : Core) : Prop :=
  RenderedAfterResize c.log ∧
    ∀ p, c.currentPlugin_ = some p →
      lastResize p c.log = some (c.framebufferWidth_, c.framebufferHeight_)

/-- Whether plugin code leaves the gaze recording alone: none of its host calls is
`push_gaze_point`. -/
def noGazePush : List PluginCall → Prop
  | [] => True
  | .push_gaze_point _ :: _ => False
  | _ :: ks => noGazePush ks

/-- A `draw` in which the "Replay" checkbox is not clicked and plugin code pushes no gaze
point. -/
def DrawInput.keepsGaze (d : DrawInput) : Prop :=
  d.ui.replayClicked = false ∧ noGazePush d.releaseCalls ∧ noGazePush d.createCalls ∧
    noGazePush d.renderCalls

/-- A window event whose handling does not click "Replay" or push a gaze point: every event
other than a refresh, and a refresh whose `draw` does neither. -/
def WindowEvent.keepsGaze : WindowEvent → Prop
  | .refresh d => d.keepsGaze
  | _ => True

/-- A frame tick in which the "Replay" checkbox is not clicked and plugin code pushes no gaze
point; everything else may arrive from outside. -/
def FrameInput.keepsGaze (inp : FrameInput) : Prop :=
  inp.draw.keepsGaze ∧ ∀ e ∈ inp.events, e.keepsGaze

/-- The gaze stream is empty and the current gaze point is `g`. -/
def GazeIdle (g : GazePoint) (c : Core) : Prop :=
  c.recorded_gaze_points_ = [] ∧ c.current_gaze_point_ = g

/-! ## Lemmas: normalisation of the screenshot frame list -/

theorem stdSort_sorted (v : List Nat) : List.Sorted (· ≤ ·) (stdSort v) :=
  List.sorted_insertionSort (· ≤ ·) v

theorem mem_stdSort (v : List Nat) (x : Nat) : x ∈ stdSort v ↔ x ∈ v :=
  (List.perm_insertionSort (· ≤ ·) v).mem_iff

theorem mem_stdUnique : ∀ (l : List Nat) (x : Nat), x ∈ stdUnique l ↔ x ∈ l
  | [], x => by simp [stdUnique]
  | [a], x => by simp [stdUnique]
  | a :: b :: rest, x => by
    have ih := mem_stdUnique (b :: rest) x
    by_cases hab : a = b
    · subst hab
      simp only [stdUnique, if_true, ih]
      simp
    · simp only [stdUnique, if_neg hab, List.mem_cons, ih]

theorem stdUnique_sorted : ∀ (l : List Nat), List.Sorted (· ≤ ·) l → List.Sorted (· < ·) (stdUnique l)
  | [], _ => by simp [stdUnique]
  | [a], _ => by simp [stdUnique]
  | a :: b :: rest, h => by
    have hs : List.Sorted (· ≤ ·) (b :: rest) := (List.sorted_cons.mp h).2
    have hle : ∀ y ∈ b :: rest, a ≤ y := (List.sorted_cons.mp h).1
    have hb : ∀ y ∈ b :: rest, b ≤ y := by
      intro y hy
      rcases List.mem_cons.mp hy with rfl | hy
      · exact le_rfl
      · exact (List.sorted_cons.mp hs).1 y hy
    have ih := stdUnique_sorted (b :: rest) hs
    by_cases hab : a = b
    · simp only [stdUnique, if_pos hab]
      exact ih
    · simp only [stdUnique, if_neg hab]
      refine List.sorted_cons.mpr ⟨?_, ih⟩
      intro y hy
      have hy2 : y ∈ b :: rest := (mem_stdUnique _ _).mp hy
      have h1 : a ≤ b := hle b (List.mem_cons_self _ _)
      have h2 : b ≤ y := hb y hy2
      omega

theorem eraseFrontBelowOne_sorted : ∀ (l : List Nat),
    List.Sorted (· < ·) l → List.Sorted (· < ·) (eraseFrontBelowOne l)
  | [], _ => by simp [eraseFrontBelowOne]
  | a :: rest, h => by
    by_cases ha : a < 1
    · simp only [eraseFrontBelowOne, if_pos ha]
      exact eraseFrontBelowOne_sorted rest (List.sorted_cons.mp h).2
    · simp only [eraseFrontBelowOne, if_neg ha]
      exact h

theorem mem_eraseFrontBelowOne : ∀ (l : List Nat), List.Sorted (· < ·) l →
    ∀ x, x ∈ eraseFrontBelowOne l ↔ (x ∈ l ∧ 1 ≤ x)
  | [], _, x => by simp [eraseFrontBelowOne]
  | a :: rest, h, x => by
    have hgt : ∀ y ∈ rest, a < y := (List.sorted_cons.mp h).1
    by_cases ha : a < 1
    · simp only [eraseFrontBelowOne, if_pos ha]
      rw [mem_eraseFrontBelowOne rest (List.sorted_cons.mp h).2 x]
      constructor
      · rintro ⟨h1, h2⟩
        exact ⟨List.mem_cons_of_mem _ h1, h2⟩
      · rintro ⟨h1, h2⟩
        rcases List.mem_cons.mp h1 with rfl | h1
        · omega
        · exact ⟨h1, h2⟩
    · simp only [eraseFrontBelowOne, if_neg ha]
      constructor
      · intro hx
        refine ⟨hx, ?_⟩
        rcases List.mem_cons.mp hx with rfl | hx
        · omega
        · have := hgt x hx
          omega
      · exact fun hx => hx.1

theorem normalizeScreenshotFrames_sorted (frames : List Nat) :
    List.Sorted (· < ·) (normalizeScreenshotFrames frames) := by
  unfold normalizeScreenshotFrames
  split
  · rename_i h
    have : frames = [] := by simpa using h
    subst this
    simp
  · exact eraseFrontBelowOne_sorted _ (stdUnique_sorted _ (stdSort_sorted _))

theorem mem_normalizeScreenshotFrames (frames : List Nat) (x : Nat) :
    x ∈ normalizeScreenshotFrames frames ↔ (x ∈ frames ∧ 1 ≤ x) := by
  unfold normalizeScreenshotFrames
  split
  · rename_i h
    have : frames = [] := by simpa using h
    subst this
    simp
  · rw [mem_eraseFrontBelowOne _ (stdUnique_sorted _ (stdSort_sorted _)), mem_stdUnique,
      mem_stdSort]

theorem construct_screenshotFrames (env : Startup) (cfg : Config) (c : Core)
    (h : Core.construct env cfg = .ok c) :
    c.cfg_.screenshotFrames = normalizeScreenshotFrames cfg.screenshotFrames := by
  unfold Core.construct at h
  split at h
  · cases h
  · split at h
    · cases h
    · split at h
      · cases h
      · cases h
        rfl

/-! ## Lemmas: what leaves the screenshot state alone -/

theorem shotState_emit (c : Core) (e : Event) (h : shotOf e = none) :
    (c.emit e).shotState = c.shotState := by
  simp [Core.shotState, Core.emit, shots, List.filterMap_append, h]

theorem shotState_applyPluginCalls : ∀ (ks : List PluginCall) (c : Core),
    (applyPluginCalls ks c).shotState = c.shotState
  | [], c => rfl
  | k :: ks, c => by
    rw [applyPluginCalls, shotState_applyPluginCalls ks]
    cases k <;> rfl

theorem shotState_pluginComboWidget (ui : UiInput) (c : Core) :
    (pluginComboWidget ui c).shotState = c.shotState := by
  unfold pluginComboWidget
  split <;> rfl

theorem shotState_uiPluginCombo (ui : UiInput) (c : Core) :
    (uiPluginCombo ui c).shotState = c.shotState := by
  unfold uiPluginCombo
  split
  · exact shotState_pluginComboWidget ui c
  · rfl

theorem shotState_uiWindowSize (ui : UiInput) (c : Core) :
    (uiWindowSize ui c).shotState = c.shotState := by
  unfold uiWindowSize
  cases ui.windowSize <;> (simp only []; split) <;>
    simp [Core.shotState, Core.emit, shots, List.filterMap_append, shotOf]

theorem shotState_uiBenchmarkSettings (ui : UiInput) (c : Core) :
    (uiBenchmarkSettings ui c).shotState = c.shotState := by
  unfold uiBenchmarkSettings
  cases ui.frameCapMs <;> cases ui.useFrameCapClicked <;> cases ui.numFrames <;>
    cases ui.outputPath <;> rfl

theorem shotState_startBenchmarkButton (c : Core) :
    (startBenchmarkButton c).shotState = c.shotState := rfl

theorem shotState_uiTracePaths (ui : UiInput) (c : Core) :
    (uiTracePaths ui c).shotState = c.shotState := by
  unfold uiTracePaths
  cases ui.camPath <;> cases ui.eyePath <;> rfl

theorem shotState_replayCheckbox (L : Layouts) (c : Core) :
    (replayCheckbox L c).shotState = c.shotState := by
  unfold replayCheckbox
  simp only []
  split
  · split
    · split <;> rfl
    · rfl
  · rfl

theorem shotState_recordButton (L : Layouts) (c : Core) :
    (recordButton L c).shotState = c.shotState := by
  unfold recordButton
  simp only []
  split <;> rfl

theorem shotState_automationWidgets (L : Layouts) (ui : UiInput) (c : Core) :
    (automationWidgets L ui c).shotState = c.shotState := by
  have h1 := shotState_uiTracePaths ui c
  have h2 : ∀ c, (if ui.replayClicked then replayCheckbox L c else c).shotState = c.shotState := by
    intro c; split
    · exact shotState_replayCheckbox L c
    · rfl
  have h3 : ∀ c : Core, (if ui.replayEyesClicked then { c with replay_eyes_ := !c.replay_eyes_ }
      else c).shotState = c.shotState := by
    intro c; split <;> rfl
  have h4 : ∀ c, (if ui.recordClicked then recordButton L c else c).shotState = c.shotState := by
    intro c; split
    · exact shotState_recordButton L c
    · rfl
  have h5 : ∀ c : Core, (if ui.recordingClicked then { c with recording_paths_ := !c.recording_paths_ }
      else c).shotState = c.shotState := by
    intro c; split <;> rfl
  unfold automationWidgets
  simp only []
  rw [h5, h4, h3, h2, h1]

theorem shotState_uiAutomation (L : Layouts) (ui : UiInput) (c : Core) :
    (uiAutomation L ui c).shotState = c.shotState := by
  unfold uiAutomation
  split
  · exact shotState_automationWidgets L ui c
  · rfl

theorem shotState_pwrOwgWidgets (L : Layouts) (ui : UiInput) (c : Core) :
    (pwrOwgWidgets L ui c).shotState = c.shotState := by
  unfold pwrOwgWidgets
  simp only []
  rw [shotState_uiAutomation]
  split
  · rw [shotState_startBenchmarkButton, shotState_uiBenchmarkSettings, shotState_uiWindowSize]
  · rw [shotState_uiBenchmarkSettings, shotState_uiWindowSize]

theorem shotState_uiPwrOwg (L : Layouts) (ui : UiInput) (c : Core) :
    (uiPwrOwg L ui c).shotState = c.shotState := by
  unfold uiPwrOwg
  split
  · exact shotState_pwrOwgWidgets L ui c
  · rfl

theorem shotState_releasePlugin (d : DrawInput) (c : Core) :
    (releasePlugin d c).shotState = c.shotState := by
  unfold releasePlugin
  split
  · rename_i p _
    have := shotState_applyPluginCalls d.releaseCalls (c.emit (.pluginReleased p))
    rw [shotState_emit c (.pluginReleased p) rfl] at this
    rw [← this]
    rfl
  · rfl

theorem shotState_resolveResourcesPath (d : DrawInput) (c : Core) :
    (resolveResourcesPath d c).shotState = c.shotState := by
  unfold resolveResourcesPath
  split <;> rfl

theorem shotState_pluginSwap (d : DrawInput) (c : Core) :
    (pluginSwap d c).core.shotState = c.shotState := by
  unfold pluginSwap
  split
  · simp only []
    split
    · simp only [Outcome.core]
      rw [shotState_resolveResourcesPath, shotState_releasePlugin]
      rfl
    · simp only [Outcome.core]
      rw [shotState_emit _ (.pluginResize _ _ _) rfl]
      show (applyPluginCalls d.createCalls _).shotState = _
      rw [shotState_applyPluginCalls, shotState_emit _ (.pluginCreated _) rfl]
      show (resolveResourcesPath d _).shotState = _
      rw [shotState_resolveResourcesPath, shotState_releasePlugin]
      rfl
  · rfl

theorem shotState_renderPlugin (d : DrawInput) (c : Core) :
    (renderPlugin d c).core.shotState = c.shotState := by
  unfold renderPlugin
  split
  · simp only []
    split <;> simp only [Outcome.core] <;>
      rw [shotState_applyPluginCalls, shotState_emit _ (.pluginRender _) rfl]
  · rfl

theorem Outcome.core_andThen_shotState (o : Outcome) (k : Core → Outcome)
    (s : Nat × Config × Bool × List ShotEvent)
    (ho : o.core.shotState = s) (hk : ∀ c, (k c).core.shotState = c.shotState) :
    (o.andThen k).core.shotState = s := by
  cases o with
  | returned c => simp only [Outcome.andThen]; rw [hk]; exact ho
  | threw c => exact ho

theorem shotState_draw (L : Layouts) (d : DrawInput) (c : Core) :
    (draw L d c).core.shotState = c.shotState := by
  unfold draw
  apply Outcome.core_andThen_shotState
  · rw [shotState_pluginSwap, shotState_uiPwrOwg, shotState_uiPluginCombo]
  · exact shotState_renderPlugin d

theorem shotState_framebufferSizeEvent (w h : Int) (c : Core) :
    (framebufferSizeEvent w h c).shotState = c.shotState := by
  unfold framebufferSizeEvent
  simp only []
  split
  · rw [shotState_emit _ (.pluginResize _ _ _) rfl]; rfl
  · rfl

theorem shotState_keyEvent (k a m : Int) (want : Bool) (c : Core) :
    (keyEvent k a m want c).shotState = c.shotState := by
  unfold keyEvent
  split
  · rw [shotState_emit _ (.pluginKeyboard _ _ _ _) rfl]
  · rfl

theorem shotState_charEvent (cp : Nat) (want : Bool) (c : Core) :
    (charEvent cp want c).shotState = c.shotState := by
  unfold charEvent
  split
  · rw [shotState_emit _ (.pluginCharInput _ _) rfl]
  · rfl

theorem shotState_mouseButtonEvent (b : MouseButton) (a : MouseButtonAction) (m : Mods)
    (want : Bool) (c : Core) : (mouseButtonEvent b a m want c).shotState = c.shotState := by
  unfold mouseButtonEvent
  simp only []
  split
  · rw [shotState_emit _ (.pluginMouseButton _ _ _ _) rfl]; rfl
  · rfl

theorem shotState_mouseMoveCamera (x y : Double) (c : Core) :
    (mouseMoveCamera x y c).shotState = c.shotState := by
  unfold mouseMoveCamera
  split
  · split
    · simp only []
      split
      · exact shotState_emit c (.cameraMouseMoveControl _ _ _ _ _ _) rfl
      · exact shotState_emit c (.cameraMouseMoveControl _ _ _ _ _ _) rfl
    · rfl
  · rfl

theorem shotState_mouseMoveEvent (x y : Double) (want : Bool) (c : Core) :
    (mouseMoveEvent x y want c).shotState = c.shotState := by
  unfold mouseMoveEvent
  simp only []
  split
  · rename_i p _
    exact Eq.trans rfl (Eq.trans
      (shotState_emit (mouseMoveCamera _ _ c) (.pluginMouseMove p _ _) rfl)
      (shotState_mouseMoveCamera _ _ c))
  · rfl

theorem shotState_mouseScrollCamera (x y : Double) (anyMod : Bool) (c : Core) :
    (mouseScrollCamera x y anyMod c).shotState = c.shotState := by
  unfold mouseScrollCamera
  split
  · rfl
  · split
    · simp only []
      split
      · exact shotState_emit c (.cameraMouseScrollControl _ _ _) rfl
      · exact shotState_emit c (.cameraMouseScrollControl _ _ _) rfl
    · rfl

theorem shotState_mouseScrollEvent (x y : Double) (want anyMod : Bool) (c : Core) :
    (mouseScrollEvent x y want anyMod c).shotState = c.shotState := by
  unfold mouseScrollEvent
  split
  · rw [shotState_emit _ (.pluginMouseScroll _ _ _) rfl, shotState_mouseScrollCamera]
  · rfl

theorem shotState_handleEvent (L : Layouts) (e : WindowEvent) (c : Core) :
    (handleEvent L e c).core.shotState = c.shotState := by
  cases e with
  | windowSize w h => rfl
  | framebufferSize w h => exact shotState_framebufferSizeEvent w h c
  | key k sc a m fm want => exact shotState_keyEvent k a fm want c
  | char cp want => exact shotState_charEvent cp want c
  | mouseButton b a m want => exact shotState_mouseButtonEvent b a m want c
  | mouseMove x y want => exact shotState_mouseMoveEvent x y want c
  | mouseScroll x y want anyMod => exact shotState_mouseScrollEvent x y want anyMod c
  | refresh d =>
    simp only [handleEvent]
    apply Outcome.core_andThen_shotState
    · exact shotState_draw L d c
    · intro c1
      exact shotState_emit c1 .swapBuffers rfl

theorem shotState_pollEvents (L : Layouts) : ∀ (es : List WindowEvent) (c : Core),
    (pollEvents L es c).core.shotState = c.shotState
  | [], c => rfl
  | e :: es, c => by
    rw [pollEvents]
    apply Outcome.core_andThen_shotState
    · exact shotState_handleEvent L e c
    · exact shotState_pollEvents L es

/-! ## Lemmas: the screenshot schedule over a run of frame ticks -/

theorem render_frame_shotState (L : Layouts) (inp : FrameInput) (c c1 : Core)
    (h : render_frame L inp c = .returned c1) :
    ∃ c2 : Core, c2.shotState = ((c.frameNumber_ + 1) % 2 ^ 64, c.cfg_, c.windowShouldClose, shots c.log)
      ∧ c1.shotState = (screenshot c2).shotState := by
  unfold render_frame at h
  simp only [] at h
  cases hd : draw L inp.draw { c with frameNumber_ := (c.frameNumber_ + 1) % 2 ^ 64 } with
  | threw c2 => rw [hd] at h; cases h
  | returned c2 =>
    rw [hd] at h
    simp only [Outcome.andThen] at h
    refine ⟨c2, ?_, ?_⟩
    · have := shotState_draw L inp.draw { c with frameNumber_ := (c.frameNumber_ + 1) % 2 ^ 64 }
      rw [hd] at this
      exact this
    · have := shotState_pollEvents L inp.events ((screenshot c2).emit .swapBuffers)
      rw [h] at this
      exact this.trans (shotState_emit _ .swapBuffers rfl)

theorem shotInv_step (L : Layouts) (Q : List Nat) (base : List ShotEvent)
    (hQ : List.Sorted (· < ·) Q) (h32 : ∀ q ∈ Q, q < 2 ^ 32)
    (t : Nat) (c c1 : Core) (inp : FrameInput)
    (hinv : ShotInv Q base t c) (h : render_frame L inp c = .returned c1) :
    ShotInv Q base (t + 1) c1 ∧ c1.cfg_.autoQuit = c.cfg_.autoQuit := by
  obtain ⟨c2, h2, h1⟩ := render_frame_shotState L inp c c1 h
  obtain ⟨hfn, done, hsplit, hdone, hqueue, hshots⟩ := hinv
  simp only [Core.shotState, Prod.mk.injEq] at h2 h1
  obtain ⟨h2fn, h2cfg, h2w, h2log⟩ := h2
  obtain ⟨h1fn, h1cfg, h1w, h1log⟩ := h1
  have hfn2 : c2.frameNumber_ = (t + 1) % 2 ^ 64 := by
    rw [h2fn, hfn]; omega
  cases hq : c.cfg_.screenshotFrames with
  | nil =>
    have hs : screenshot c2 = c2 := by
      unfold screenshot
      rw [h2cfg, hq]
    rw [hs] at h1fn h1cfg h1w h1log
    refine ⟨⟨by rw [h1fn, hfn2], done, ?_, ?_, ?_, ?_⟩, by rw [h1cfg, h2cfg]⟩
    · rw [h1cfg, h2cfg]; exact hsplit
    · intro x hx; have := hdone x hx; omega
    · rw [h1cfg, h2cfg, hq]; simp
    · rw [h1log, h2log, h1cfg, h2cfg]; exact hshots
  | cons front rest =>
    have hfrontQ : front ∈ Q := by rw [hsplit, hq]; simp
    have hfront_gt : t < front := hqueue front (by rw [hq]; simp)
    have hfront32 := h32 front hfrontQ
    have hsortedq : List.Sorted (· < ·) (front :: rest) := by
      have : List.Sorted (· < ·) (done ++ (front :: rest)) := by rw [← hq, ← hsplit]; exact hQ
      exact (List.pairwise_append.mp this).2.1
    have hrest : ∀ x ∈ rest, front < x := (List.sorted_cons.mp hsortedq).1
    have hfn2' : c2.frameNumber_ = t + 1 := by
      rw [hfn2]; apply Nat.mod_eq_of_lt; omega
    by_cases hcap : front = t + 1
    · -- the front is captured at this tick
      have hs : (screenshot c2).shotState =
          (t + 1, { c.cfg_ with screenshotFrames := rest },
            (if c.cfg_.autoQuit = true ∧ rest = [] then true else c.windowShouldClose),
            shots c.log ++ [ShotEvent.capture (t + 1)] ++
              (if c.cfg_.autoQuit = true ∧ rest = [] then [ShotEvent.close] else [])) := by
        unfold screenshot
        rw [h2cfg, hq]
        simp only []
        rw [if_neg (by rw [hfn2']; simpa using hcap)]
        have h2log' : List.filterMap shotOf c2.log = List.filterMap shotOf c.log := h2log
        by_cases haq : c.cfg_.autoQuit = true ∧ rest = []
        · obtain ⟨ha, hr⟩ := haq
          simp [Core.shotState, Core.emit, shots, List.filterMap_append, shotOf, ha, hr, hfn2',
            h2log']
        · have : ¬ (c.cfg_.autoQuit = true ∧ rest.isEmpty = true) := by
            simpa using haq
          simp only [Core.emit, Bool.and_eq_true]
          rw [if_neg this, if_neg haq, if_neg haq]
          simp [Core.shotState, shots, List.filterMap_append, shotOf, hfn2', h2log', h2w]
      simp only [Core.shotState, Prod.mk.injEq] at hs
      obtain ⟨hsfn, hscfg, hsw, hslog⟩ := hs
      have hc1cfg : c1.cfg_ = { c.cfg_ with screenshotFrames := rest } := by rw [h1cfg, hscfg]
      refine ⟨⟨by rw [h1fn, hsfn]; symm; apply Nat.mod_eq_of_lt; omega, done ++ [front], ?_, ?_, ?_, ?_⟩,
        by rw [hc1cfg]⟩
      · rw [hc1cfg, hsplit, hq]; simp
      · intro x hx
        rcases List.mem_append.mp hx with hx | hx
        · have := hdone x hx; omega
        · simp at hx; omega
      · rw [hc1cfg]; intro x hx
        have := hrest x hx
        simp only at hx
        omega
      · rw [h1log, hslog, hshots, hc1cfg, hq]
        have hQne : Q ≠ [] := by rw [hsplit, hq]; simp
        simp [hcap, hQne]
    · -- the front lies further ahead
      have hs : screenshot c2 = c2 := by
        unfold screenshot
        rw [h2cfg, hq]
        simp only []
        rw [if_pos (by rw [hfn2']; exact hcap)]
      rw [hs] at h1fn h1cfg h1w h1log
      refine ⟨⟨by rw [h1fn, hfn2], done, ?_, ?_, ?_, ?_⟩, by rw [h1cfg, h2cfg]⟩
      · rw [h1cfg, h2cfg]; exact hsplit
      · intro x hx; have := hdone x hx; omega
      · rw [h1cfg, h2cfg, hq]
        intro x hx
        rcases List.mem_cons.mp hx with rfl | hx
        · omega
        · have := hrest x hx; omega
      · rw [h1log, h2log, h1cfg, h2cfg]; exact hshots

theorem shotInv_runFrames (L : Layouts) (Q : List Nat) (base : List ShotEvent)
    (hQ : List.Sorted (· < ·) Q) (h32 : ∀ q ∈ Q, q < 2 ^ 32) :
    ∀ (inputs : List FrameInput) (t : Nat) (c c1 : Core), ShotInv Q base t c →
      runFrames L inputs c = .returned c1 →
      ShotInv Q base (t + inputs.length) c1 ∧ c1.cfg_.autoQuit = c.cfg_.autoQuit
  | [], t, c, c1, hinv, h => by
    simp only [runFrames, Outcome.returned.injEq] at h
    subst h
    exact ⟨hinv, rfl⟩
  | inp :: rest, t, c, c1, hinv, h => by
    rw [runFrames] at h
    cases hr : render_frame L inp c with
    | threw c2 => rw [hr] at h; cases h
    | returned c2 =>
      rw [hr] at h
      simp only [Outcome.andThen] at h
      obtain ⟨hinv2, haq2⟩ := shotInv_step L Q base hQ h32 t c c2 inp hinv hr
      obtain ⟨hinv3, haq3⟩ := shotInv_runFrames L Q base hQ h32 rest (t + 1) c2 c1 hinv2 h
      refine ⟨?_, by rw [haq3, haq2]⟩
      have : t + (inp :: rest).length = t + 1 + rest.length := by simp; omega
      rw [this]
      exact hinv3

theorem shotInv_init (Q : List Nat) (hpos : ∀ q ∈ Q, 1 ≤ q) (c : Core)
    (hfn : c.frameNumber_ = 0) (hq : c.cfg_.screenshotFrames = Q) :
    ShotInv Q (shots c.log) 0 c := by
  refine ⟨by rw [hfn]; rfl, [], by simp [hq], by simp, ?_, ?_⟩
  · rw [hq]; intro x hx; have := hpos x hx; omega
  · rw [hq]
    by_cases h : Q = [] <;> simp [h]

theorem shotInv_done (Q : List Nat) (base : List ShotEvent) (t : Nat) (c : Core)
    (hinv : ShotInv Q base t c) :
    shots c.log = base ++ (Q.filter (· ≤ t)).map ShotEvent.capture ++
      (if c.cfg_.autoQuit = true ∧ Q ≠ [] ∧ (∀ q ∈ Q, q ≤ t) then [ShotEvent.close] else []) := by
  obtain ⟨_, done, hsplit, hdone, hqueue, hshots⟩ := hinv
  have hfilter : Q.filter (· ≤ t) = done := by
    rw [hsplit, List.filter_append]
    have h1 : done.filter (· ≤ t) = done := by
      rw [List.filter_eq_self]; intro x hx; simpa using hdone x hx
    have h2 : c.cfg_.screenshotFrames.filter (· ≤ t) = [] := by
      rw [List.filter_eq_nil_iff]; intro x hx; have := hqueue x hx; simp; omega
    rw [h1, h2, List.append_nil]
  rw [hshots, hfilter]
  congr 1
  have hiff : (c.cfg_.autoQuit = true ∧ c.cfg_.screenshotFrames = [] ∧ Q ≠ []) ↔
      (c.cfg_.autoQuit = true ∧ Q ≠ [] ∧ (∀ q ∈ Q, q ≤ t)) := by
    constructor
    · rintro ⟨h1, h2, h3⟩
      refine ⟨h1, h3, ?_⟩
      intro q hqQ
      rw [hsplit, h2, List.append_nil] at hqQ
      exact hdone q hqQ
    · rintro ⟨h1, h2, h3⟩
      refine ⟨h1, ?_, h2⟩
      cases hq : c.cfg_.screenshotFrames with
      | nil => rfl
      | cons a r =>
        have h4 := hqueue a (by rw [hq]; simp)
        have h5 := h3 a (by rw [hsplit, hq]; simp)
        omega
  by_cases hc : c.cfg_.autoQuit = true ∧ c.cfg_.screenshotFrames = [] ∧ Q ≠ []
  · rw [if_pos hc, if_pos (hiff.mp hc)]
  · rw [if_neg hc, if_neg (fun h => hc (hiff.mpr h))]

theorem filter_le_succ_of_sorted : ∀ (Q : List Nat) (n : Nat), List.Sorted (· < ·) Q →
    Q.filter (· ≤ n + 1) = Q.filter (· ≤ n) ++ (if n + 1 ∈ Q then [n + 1] else [])
  | [], n, _ => by simp
  | a :: rest, n, h => by
    have hrest : ∀ x ∈ rest, a < x := (List.sorted_cons.mp h).1
    have ih := filter_le_succ_of_sorted rest n (List.sorted_cons.mp h).2
    by_cases h1 : a ≤ n
    · have hne : ¬ (n + 1 = a) := by omega
      simp only [List.filter_cons, List.mem_cons]
      rw [if_pos (by simpa using (by omega : a ≤ n + 1)), if_pos (by simpa using h1), ih]
      simp [hne]
    · have hnil : rest.filter (· ≤ n) = [] := by
        rw [List.filter_eq_nil_iff]; intro x hx; have := hrest x hx; simp; omega
      by_cases h2 : a = n + 1
      · have hnil2 : rest.filter (· ≤ n + 1) = [] := by
          rw [List.filter_eq_nil_iff]; intro x hx; have := hrest x hx; simp; omega
        simp only [List.filter_cons, List.mem_cons]
        rw [if_pos (by simpa using (by omega : a ≤ n + 1)), if_neg (by simpa using h1), hnil, hnil2]
        simp [h2]
      · have hnil2 : rest.filter (· ≤ n + 1) = [] := by
          rw [List.filter_eq_nil_iff]; intro x hx; have := hrest x hx; simp; omega
        have hnot : ¬ (n + 1 = a ∨ n + 1 ∈ rest) := by
          rintro (h3 | h3)
          · omega
          · have := hrest _ h3; omega
        simp only [List.filter_cons, List.mem_cons]
        rw [if_neg (by simpa using (by omega : ¬ a ≤ n + 1)), if_neg (by simpa using h1), hnil, hnil2,
          if_neg hnot]
        rfl

theorem capturedFrames_append_captures (base : List ShotEvent) (fs : List Nat)
    (tail : List ShotEvent) (htail : tail = [] ∨ tail = [ShotEvent.close]) :
    (base ++ fs.map ShotEvent.capture ++ tail).filterMap
        (fun s => match s with
          | .capture n => some n
          | .close => none)
      = base.filterMap (fun s => match s with
          | .capture n => some n
          | .close => none) ++ fs := by
  have hmap : ∀ fs : List Nat, (fs.map ShotEvent.capture).filterMap
      (fun s => match s with
        | .capture n => some n
        | .close => none) = fs := by
    intro fs
    induction fs with
    | nil => rfl
    | cons a r ih => simp [List.filterMap_cons, ih]
  rcases htail with rfl | rfl <;> simp [List.filterMap_append, hmap]

/-! ## Lemmas: the user interface leaves the plugin alone -/

theorem swapState_uiWindowSize (ui : UiInput) (c : Core) :
    (uiWindowSize ui c).swapState = c.swapState ∧
      (uiWindowSize ui c).pluginSelectionIdx_ = c.pluginSelectionIdx_ := by
  unfold uiWindowSize
  cases ui.windowSize <;> (simp only []; split) <;>
    simp [Core.swapState, Core.emit, pluginTrace, List.filter_append, Event.onPlugin]

theorem swapState_uiBenchmarkSettings (ui : UiInput) (c : Core) :
    (uiBenchmarkSettings ui c).swapState = c.swapState ∧
      (uiBenchmarkSettings ui c).pluginSelectionIdx_ = c.pluginSelectionIdx_ := by
  unfold uiBenchmarkSettings
  cases ui.frameCapMs <;> cases ui.useFrameCapClicked <;> cases ui.numFrames <;>
    cases ui.outputPath <;> exact ⟨rfl, rfl⟩

theorem swapState_uiTracePaths (ui : UiInput) (c : Core) :
    (uiTracePaths ui c).swapState = c.swapState ∧
      (uiTracePaths ui c).pluginSelectionIdx_ = c.pluginSelectionIdx_ := by
  unfold uiTracePaths
  cases ui.camPath <;> cases ui.eyePath <;> exact ⟨rfl, rfl⟩

theorem swapState_replayCheckbox (L : Layouts) (c : Core) :
    (replayCheckbox L c).swapState = c.swapState ∧
      (replayCheckbox L c).pluginSelectionIdx_ = c.pluginSelectionIdx_ := by
  unfold replayCheckbox
  simp only []
  split
  · split
    · split <;> exact ⟨rfl, rfl⟩
    · exact ⟨rfl, rfl⟩
  · exact ⟨rfl, rfl⟩

theorem swapState_recordButton (L : Layouts) (c : Core) :
    (recordButton L c).swapState = c.swapState ∧
      (recordButton L c).pluginSelectionIdx_ = c.pluginSelectionIdx_ := by
  unfold recordButton
  simp only []
  split <;> exact ⟨rfl, rfl⟩

theorem swapState_automationWidgets (L : Layouts) (ui : UiInput) (c : Core) :
    (automationWidgets L ui c).swapState = c.swapState ∧
      (automationWidgets L ui c).pluginSelectionIdx_ = c.pluginSelectionIdx_ := by
  have h1 := swapState_uiTracePaths ui c
  have h2 : ∀ c, (if ui.replayClicked then replayCheckbox L c else c).swapState = c.swapState ∧
      (if ui.replayClicked then replayCheckbox L c else c).pluginSelectionIdx_
        = c.pluginSelectionIdx_ := by
    intro c; split
    · exact swapState_replayCheckbox L c
    · exact ⟨rfl, rfl⟩
  have h3 : ∀ c : Core, (if ui.replayEyesClicked then { c with replay_eyes_ := !c.replay_eyes_ }
      else c).swapState = c.swapState ∧
      (if ui.replayEyesClicked then { c with replay_eyes_ := !c.replay_eyes_ }
      else c).pluginSelectionIdx_ = c.pluginSelectionIdx_ := by
    intro c; split <;> exact ⟨rfl, rfl⟩
  have h4 : ∀ c, (if ui.recordClicked then recordButton L c else c).swapState = c.swapState ∧
      (if ui.recordClicked then recordButton L c else c).pluginSelectionIdx_
        = c.pluginSelectionIdx_ := by
    intro c; split
    · exact swapState_recordButton L c
    · exact ⟨rfl, rfl⟩
  have h5 : ∀ c : Core, (if ui.recordingClicked then { c with recording_paths_ := !c.recording_paths_ }
      else c).swapState = c.swapState ∧
      (if ui.recordingClicked then { c with recording_paths_ := !c.recording_paths_ }
      else c).pluginSelectionIdx_ = c.pluginSelectionIdx_ := by
    intro c; split <;> exact ⟨rfl, rfl⟩
  unfold automationWidgets
  simp only []
  refine ⟨?_, ?_⟩
  · rw [(h5 _).1, (h4 _).1, (h3 _).1, (h2 _).1, h1.1]
  · rw [(h5 _).2, (h4 _).2, (h3 _).2, (h2 _).2, h1.2]

theorem swapState_uiAutomation (L : Layouts) (ui : UiInput) (c : Core) :
    (uiAutomation L ui c).swapState = c.swapState ∧
      (uiAutomation L ui c).pluginSelectionIdx_ = c.pluginSelectionIdx_ := by
  unfold uiAutomation
  split
  · exact swapState_automationWidgets L ui c
  · exact ⟨rfl, rfl⟩

theorem swapState_pwrOwgWidgets (L : Layouts) (ui : UiInput) (c : Core) :
    (pwrOwgWidgets L ui c).swapState = c.swapState ∧
      (pwrOwgWidgets L ui c).pluginSelectionIdx_ = c.pluginSelectionIdx_ := by
  have h1 := swapState_uiWindowSize ui c
  have h2 := swapState_uiBenchmarkSettings ui (uiWindowSize ui c)
  have h3 : ∀ c : Core, (if ui.startBenchmarkClicked then startBenchmarkButton c else c).swapState
        = c.swapState ∧
      (if ui.startBenchmarkClicked then startBenchmarkButton c else c).pluginSelectionIdx_
        = c.pluginSelectionIdx_ := by
    intro c; split <;> exact ⟨rfl, rfl⟩
  unfold pwrOwgWidgets
  simp only []
  refine ⟨?_, ?_⟩
  · rw [(swapState_uiAutomation L ui _).1, (h3 _).1, h2.1, h1.1]
  · rw [(swapState_uiAutomation L ui _).2, (h3 _).2, h2.2, h1.2]

theorem swapState_uiPwrOwg (L : Layouts) (ui : UiInput) (c : Core) :
    (uiPwrOwg L ui c).swapState = c.swapState ∧
      (uiPwrOwg L ui c).pluginSelectionIdx_ = c.pluginSelectionIdx_ := by
  unfold uiPwrOwg
  split
  · exact swapState_pwrOwgWidgets L ui c
  · exact ⟨rfl, rfl⟩

theorem swapState_pluginComboWidget (ui : UiInput) (c : Core) :
    (pluginComboWidget ui c).swapState = c.swapState := by
  unfold pluginComboWidget
  split <;> rfl

theorem swapState_uiPluginCombo (ui : UiInput) (c : Core) :
    (uiPluginCombo ui c).swapState = c.swapState := by
  unfold uiPluginCombo
  split
  · exact swapState_pluginComboWidget ui c
  · rfl

theorem applyPluginCalls_eq : ∀ (ks : List PluginCall) (c : Core),
    applyPluginCalls ks c =
      { c with
        camera_ := (applyPluginCalls ks c).camera_
        recorded_gaze_points_ := (applyPluginCalls ks c).recorded_gaze_points_
        pushedGaze := (applyPluginCalls ks c).pushedGaze }
  | [], c => rfl
  | k :: ks, c => by
    rw [applyPluginCalls]
    have ih := applyPluginCalls_eq ks (applyPluginCall k c)
    generalize applyPluginCalls ks (applyPluginCall k c) = r at ih ⊢
    rw [ih]
    cases k <;> rfl

@[simp] theorem applyPluginCalls_log (ks : List PluginCall) (c : Core) :
    (applyPluginCalls ks c).log = c.log := by
  have h := congrArg Core.log (applyPluginCalls_eq ks c)
  exact h

@[simp] theorem applyPluginCalls_currentPlugin_ (ks : List PluginCall) (c : Core) :
    (applyPluginCalls ks c).currentPlugin_ = c.currentPlugin_ := by
  have h := congrArg Core.currentPlugin_ (applyPluginCalls_eq ks c)
  exact h

@[simp] theorem applyPluginCalls_currentPluginIdx_ (ks : List PluginCall) (c : Core) :
    (applyPluginCalls ks c).currentPluginIdx_ = c.currentPluginIdx_ := by
  have h := congrArg Core.currentPluginIdx_ (applyPluginCalls_eq ks c)
  exact h

@[simp] theorem applyPluginCalls_framebufferWidth_ (ks : List PluginCall) (c : Core) :
    (applyPluginCalls ks c).framebufferWidth_ = c.framebufferWidth_ := by
  have h := congrArg Core.framebufferWidth_ (applyPluginCalls_eq ks c)
  exact h

@[simp] theorem applyPluginCalls_framebufferHeight_ (ks : List PluginCall) (c : Core) :
    (applyPluginCalls ks c).framebufferHeight_ = c.framebufferHeight_ := by
  have h := congrArg Core.framebufferHeight_ (applyPluginCalls_eq ks c)
  exact h

@[simp] theorem applyPluginCalls_nextSerial (ks : List PluginCall) (c : Core) :
    (applyPluginCalls ks c).nextSerial = c.nextSerial := by
  have h := congrArg Core.nextSerial (applyPluginCalls_eq ks c)
  exact h

theorem pluginSwap_effect (d : DrawInput) (c : Core)
    (hne : c.currentPluginIdx_ ≠ c.pluginSelectionIdx_) (hcreate : d.createThrows = false) :
    pluginSwap d c = .returned (pluginSwap d c).core ∧
      (pluginSwap d c).core.currentPlugin_ = some ⟨c.pluginSelectionIdx_, c.nextSerial⟩ ∧
      (pluginSwap d c).core.log = c.log ++
        (match c.currentPlugin_ with
          | some q => [Event.pluginReleased q]
          | none => []) ++
        [Event.pluginCreated ⟨c.pluginSelectionIdx_, c.nextSerial⟩,
          Event.pluginResize ⟨c.pluginSelectionIdx_, c.nextSerial⟩ c.framebufferWidth_
            c.framebufferHeight_] := by
  cases hp : c.currentPlugin_ <;> cases hr : d.resourcesPath <;>
    simp [pluginSwap, hne, hcreate, releasePlugin, resolveResourcesPath, Core.emit, hp, hr,
      Outcome.core]

theorem mouseButtonEvent_mode (b : MouseButton) (a : MouseButtonAction) (m : Mods)
    (want : Bool) (c : Core) :
    (mouseButtonEvent b a m want c).cameraControlMode_ = cameraControlModeFor b a m := by
  unfold mouseButtonEvent
  simp only []
  split <;> rfl

/-! ## Lemmas: trace files -/

theorem fileOf_write (fs : FileSystem) (path other : String) (bytes : List UInt8) :
    (fs.write path bytes).fileOf other = fs.fileOf other := by
  unfold FileSystem.write
  split
  · split <;> rfl
  · rfl

theorem noWrite_write (fs : FileSystem) (path : String) (bytes : List UInt8) :
    (fs.write path bytes).noWrite = fs.noWrite := by
  unfold FileSystem.write
  split
  · split <;> rfl
  · rfl

theorem canRead_write (fs : FileSystem) (path other : String) (bytes : List UInt8) :
    (fs.write path bytes).canRead other = fs.canRead other := by
  unfold FileSystem.write
  split
  · split <;> rfl
  · rfl

theorem content_write_same (fs : FileSystem) (path : String) (bytes : List UInt8) (f : Nat)
    (hf : fs.fileOf path = some f) (hw : f ∉ fs.noWrite) :
    (fs.write path bytes).content path = some bytes := by
  have hc : fs.noWrite.contains f = false := by simpa using hw
  have hfo : ({ fs with files := (f, bytes) :: fs.files } : FileSystem).fileOf path = some f := hf
  simp only [FileSystem.write, hf, hc, Bool.false_eq_true, if_false, FileSystem.content, hfo,
    assocFind, if_true]

theorem content_write_other (fs : FileSystem) (path other : String) (bytes : List UInt8)
    (h : ∀ f, fs.fileOf path = some f → fs.fileOf other ≠ some f) :
    (fs.write path bytes).content other = fs.content other := by
  unfold FileSystem.write
  cases hp : fs.fileOf path with
  | none => rfl
  | some f =>
    simp only []
    split
    · rfl
    · have hne := h f hp
      have hfo : ({ fs with files := (f, bytes) :: fs.files } : FileSystem).fileOf other
          = fs.fileOf other := rfl
      unfold FileSystem.content
      rw [hfo]
      cases ho : fs.fileOf other with
      | none => rfl
      | some g =>
        have hfg : ¬ f = g := fun e => hne (by rw [ho, e])
        simp only [assocFind, hfg, if_false]

theorem writeRecords_length {α : Type} (L : ObjectLayout α)
    (hlen : ∀ x, (L.toBytes x).length = L.size) :
    ∀ xs : List α, (writeRecords L xs).length = xs.length * L.size
  | [] => by simp [writeRecords]
  | x :: xs => by
    simp only [writeRecords, List.length_append, hlen, writeRecords_length L hlen xs,
      List.length_cons]
    rw [Nat.succ_mul, Nat.add_comm]

theorem readRecords_writeRecords {α : Type} (L : ObjectLayout α)
    (hlen : ∀ x, (L.toBytes x).length = L.size) :
    ∀ (xs : List α) (tail : List UInt8), (∀ x ∈ xs, L.ofBytes (L.toBytes x) = x) →
      readRecords L xs.length (writeRecords L xs ++ tail) = xs
  | [], tail, _ => rfl
  | x :: xs, tail, h => by
    have hx : L.ofBytes (L.toBytes x) = x := h x (List.mem_cons_self _ _)
    have hxs : ∀ y ∈ xs, L.ofBytes (L.toBytes y) = y :=
      fun y hy => h y (List.mem_cons_of_mem _ hy)
    simp only [writeRecords, List.length_cons, readRecords, List.append_assoc]
    rw [List.take_left' (hlen x), List.drop_left' (hlen x), hx,
      readRecords_writeRecords L hlen xs tail hxs]

theorem readRecords_length {α : Type} (L : ObjectLayout α) :
    ∀ (n : Nat) (bytes : List UInt8), (readRecords L n bytes).length = n
  | 0, _ => rfl
  | n + 1, bytes => by simp [readRecords, readRecords_length L n]

theorem loadRecords_length {α : Type} (L : ObjectLayout α) (opened : Bool)
    (bytes : List UInt8) : (loadRecords L opened bytes).length = bytes.length / L.size := by
  unfold loadRecords
  split
  · exact readRecords_length L _ _
  · exact List.length_replicate _ _

theorem replayCheckbox_entries (L : Layouts) (c : Core) (camBytes : List UInt8)
    (hcam : c.fs.content c.camera_path_file_ = some camBytes) :
    (replayCheckbox L c).recorded_entries_
      = loadRecords L.entry (c.fs.canRead c.camera_path_file_) camBytes := by
  unfold replayCheckbox
  simp only [hcam]
  split
  · split <;> rfl
  · rfl

theorem sampleNum_copies (n : Nat) (h : n < 256) :
    sampleByteNum (sampleNumByte (n : ℚ)) = (n : ℚ) := by
  simp [sampleByteNum, sampleNumByte, UInt8.toNat, UInt8.ofNat, Fin.ofNat, Nat.mod_eq_of_lt h]

theorem sampleDouble_copies (n : Nat) (h : n < 256) :
    sampleByteDouble (sampleDoubleByte (OfNat.ofNat n)) = (OfNat.ofNat n : Double) := by
  show Double.finite (sampleByteNum (sampleNumByte (n : ℚ))) = Double.finite (n : ℚ)
  rw [sampleNum_copies n h]

theorem sampleRecording_copies :
    ∀ e ∈ sampleRecordingCore.recorded_entries_,
      sampleLayouts.entry.ofBytes (sampleLayouts.entry.toBytes e) = e := by
  intro e he
  simp only [sampleRecordingCore, List.mem_cons, List.mem_singleton, List.not_mem_nil,
    or_false] at he
  have h0 := sampleDouble_copies 0 (by decide)
  have h1 := sampleDouble_copies 1 (by decide)
  have h2 := sampleDouble_copies 2 (by decide)
  have h3 := sampleDouble_copies 3 (by decide)
  rcases he with rfl | rfl <;>
    simp [sampleLayouts, sampleEntryLayout, h0, h1, h2, h3, sampleByteMode, sampleModeByte]

/-! ## Lemmas: quiet frames -/

theorem replayApply_gaze (i : Nat) (ce : cam_control_entry) (c : Core)
    (hg : c.recorded_gaze_points_ = []) :
    (replayApply i ce c).recorded_gaze_points_ = [] ∧
      (replayApply i ce c).current_gaze_point_ = c.current_gaze_point_ := by
  unfold replayApply
  cases hcam : c.camera_ <;> simp [hg, hcam, Core.emit]

theorem replayCheckbox_no_eye_file (L : Layouts) (c : Core) (camBytes : List UInt8)
    (hcam : c.fs.content c.camera_path_file_ = some camBytes)
    (heye : c.fs.content c.eye_path_file_ = none) :
    (replayCheckbox L c).recorded_gaze_points_ = [] ∧
      (replayCheckbox L c).current_gaze_point_ = c.current_gaze_point_ ∧
      (replayCheckbox L c).replay_paths_ = !c.replay_paths_ := by
  unfold replayCheckbox
  simp [hcam, heye]

/-! ## Lemmas: what leaves an idle gaze stream idle -/

theorem gazeIdle_emit (g : GazePoint) (c : Core) (e : Event) (h : GazeIdle g c) :
    GazeIdle g (c.emit e) := h

theorem gazeIdle_applyPluginCalls (g : GazePoint) : ∀ (ks : List PluginCall) (c : Core),
    noGazePush ks → GazeIdle g c → GazeIdle g (applyPluginCalls ks c)
  | [], c, _, h => h
  | k :: ks, c, hk, h => by
    rw [applyPluginCalls]
    cases k with
    | registerCamera cam => exact gazeIdle_applyPluginCalls g ks _ hk h
    | removeCamera => exact gazeIdle_applyPluginCalls g ks _ hk h
    | push_gaze_point gp => exact absurd hk (by simp [noGazePush])

theorem gazeIdle_pluginComboWidget (g : GazePoint) (ui : UiInput) (c : Core) (h : GazeIdle g c) :
    GazeIdle g (pluginComboWidget ui c) := by
  unfold pluginComboWidget
  split <;> exact h

theorem gazeIdle_uiPluginCombo (g : GazePoint) (ui : UiInput) (c : Core) (h : GazeIdle g c) :
    GazeIdle g (uiPluginCombo ui c) := by
  unfold uiPluginCombo
  split
  · exact gazeIdle_pluginComboWidget g ui c h
  · exact h

theorem gazeIdle_uiWindowSize (g : GazePoint) (ui : UiInput) (c : Core) (h : GazeIdle g c) :
    GazeIdle g (uiWindowSize ui c) := by
  unfold uiWindowSize
  cases ui.windowSize <;> (simp only []; split) <;> exact h

theorem gazeIdle_uiBenchmarkSettings (g : GazePoint) (ui : UiInput) (c : Core)
    (h : GazeIdle g c) : GazeIdle g (uiBenchmarkSettings ui c) := by
  unfold uiBenchmarkSettings
  cases ui.frameCapMs <;> cases ui.useFrameCapClicked <;> cases ui.numFrames <;>
    cases ui.outputPath <;> exact h

theorem gazeIdle_uiTracePaths (g : GazePoint) (ui : UiInput) (c : Core) (h : GazeIdle g c) :
    GazeIdle g (uiTracePaths ui c) := by
  unfold uiTracePaths
  cases ui.camPath <;> cases ui.eyePath <;> exact h

theorem gazeIdle_recordButton (g : GazePoint) (L : Layouts) (c : Core) (h : GazeIdle g c) :
    GazeIdle g (recordButton L c) := by
  unfold recordButton
  simp only []
  split
  · exact ⟨rfl, h.2⟩
  · exact h

theorem gazeIdle_automationWidgets (g : GazePoint) (L : Layouts) (ui : UiInput) (c : Core)
    (hui : ui.replayClicked = false) (h : GazeIdle g c) : GazeIdle g (automationWidgets L ui c) := by
  have h1 := gazeIdle_uiTracePaths g ui c h
  have h3 : ∀ c : Core, GazeIdle g c →
      GazeIdle g (if ui.replayEyesClicked then { c with replay_eyes_ := !c.replay_eyes_ }
        else c) := by
    intro c hc; split <;> exact hc
  have h4 : ∀ c, GazeIdle g c → GazeIdle g (if ui.recordClicked then recordButton L c else c) := by
    intro c hc; split
    · exact gazeIdle_recordButton g L c hc
    · exact hc
  have h5 : ∀ c : Core, GazeIdle g c →
      GazeIdle g (if ui.recordingClicked then { c with recording_paths_ := !c.recording_paths_ }
        else c) := by
    intro c hc; split <;> exact hc
  unfold automationWidgets
  simp only [hui, Bool.false_eq_true, if_false]
  exact h5 _ (h4 _ (h3 _ h1))

theorem gazeIdle_uiAutomation (g : GazePoint) (L : Layouts) (ui : UiInput) (c : Core)
    (hui : ui.replayClicked = false) (h : GazeIdle g c) : GazeIdle g (uiAutomation L ui c) := by
  unfold uiAutomation
  split
  · exact gazeIdle_automationWidgets g L ui c hui h
  · exact h

theorem gazeIdle_pwrOwgWidgets (g : GazePoint) (L : Layouts) (ui : UiInput) (c : Core)
    (hui : ui.replayClicked = false) (h : GazeIdle g c) : GazeIdle g (pwrOwgWidgets L ui c) := by
  unfold pwrOwgWidgets
  simp only []
  apply gazeIdle_uiAutomation g L ui _ hui
  have h1 := gazeIdle_uiBenchmarkSettings g ui _ (gazeIdle_uiWindowSize g ui c h)
  split
  · exact h1
  · exact h1

theorem gazeIdle_uiPwrOwg (g : GazePoint) (L : Layouts) (ui : UiInput) (c : Core)
    (hui : ui.replayClicked = false) (h : GazeIdle g c) : GazeIdle g (uiPwrOwg L ui c) := by
  unfold uiPwrOwg
  split
  · exact gazeIdle_pwrOwgWidgets g L ui c hui h
  · exact h

theorem gazeIdle_releasePlugin (g : GazePoint) (d : DrawInput) (c : Core)
    (hd : noGazePush d.releaseCalls) (h : GazeIdle g c) : GazeIdle g (releasePlugin d c) := by
  unfold releasePlugin
  split
  · rename_i p _
    exact gazeIdle_applyPluginCalls g d.releaseCalls (c.emit (.pluginReleased p)) hd h
  · exact h

theorem gazeIdle_resolveResourcesPath (g : GazePoint) (d : DrawInput) (c : Core)
    (h : GazeIdle g c) : GazeIdle g (resolveResourcesPath d c) := by
  unfold resolveResourcesPath
  split <;> exact h

theorem gazeIdle_pluginSwap (g : GazePoint) (d : DrawInput) (c : Core) (hd : d.keepsGaze)
    (h : GazeIdle g c) : GazeIdle g (pluginSwap d c).core := by
  obtain ⟨_, h2, h3, _⟩ := hd
  unfold pluginSwap
  split
  · have hc2 := gazeIdle_resolveResourcesPath g d _
      (gazeIdle_releasePlugin g d { c with currentPluginIdx_ := c.pluginSelectionIdx_ } h2 h)
    simp only []
    split
    · exact hc2
    · simp only [Outcome.core]
      exact gazeIdle_applyPluginCalls g d.createCalls _ h3 hc2
  · exact h

theorem gazeIdle_renderPlugin (g : GazePoint) (d : DrawInput) (c : Core) (hd : d.keepsGaze)
    (h : GazeIdle g c) : GazeIdle g (renderPlugin d c).core := by
  obtain ⟨_, _, _, h4⟩ := hd
  unfold renderPlugin
  split
  · rename_i p _
    have := gazeIdle_applyPluginCalls g d.renderCalls (c.emit (.pluginRender p)) h4 h
    simp only []
    split <;> exact this
  · exact h

theorem gazeIdle_andThen (g : GazePoint) (o : Outcome) (k : Core → Outcome)
    (ho : GazeIdle g o.core) (hk : ∀ c, GazeIdle g c → GazeIdle g (k c).core) :
    GazeIdle g (o.andThen k).core := by
  cases o with
  | returned c => exact hk c ho
  | threw c => exact ho

theorem gazeIdle_draw (g : GazePoint) (L : Layouts) (d : DrawInput) (c : Core)
    (hd : d.keepsGaze) (h : GazeIdle g c) : GazeIdle g (draw L d c).core := by
  unfold draw
  apply gazeIdle_andThen
  · exact gazeIdle_pluginSwap g d _ hd
      (gazeIdle_uiPwrOwg g L d.ui _ hd.1 (gazeIdle_uiPluginCombo g d.ui c h))
  · exact fun c1 h1 => gazeIdle_renderPlugin g d c1 hd h1

theorem gazeIdle_screenshot (g : GazePoint) (c : Core) (h : GazeIdle g c) :
    GazeIdle g (screenshot c) := by
  unfold screenshot
  split
  · exact h
  · split
    · exact h
    · simp only []
      split_ifs <;> exact h

theorem gazeIdle_handleEvent (g : GazePoint) (L : Layouts) (e : WindowEvent) (c : Core)
    (he : e.keepsGaze) (h : GazeIdle g c) : GazeIdle g (handleEvent L e c).core := by
  cases e with
  | windowSize w hh => exact h
  | framebufferSize w hh =>
    simp only [handleEvent, Outcome.core]
    unfold framebufferSizeEvent
    simp only []
    split <;> exact h
  | key k sc a m fm want =>
    simp only [handleEvent, Outcome.core]
    unfold keyEvent
    split <;> exact h
  | char cp want =>
    simp only [handleEvent, Outcome.core]
    unfold charEvent
    split <;> exact h
  | mouseButton b a m want =>
    simp only [handleEvent, Outcome.core]
    unfold mouseButtonEvent
    simp only []
    split <;> exact h
  | mouseMove x y want =>
    simp only [handleEvent, Outcome.core]
    have hcam : ∀ a b, GazeIdle g (mouseMoveCamera a b c) := by
      intro a b
      unfold mouseMoveCamera
      split
      · split
        · simp only []
          split <;> exact h
        · exact h
      · exact h
    unfold mouseMoveEvent
    simp only []
    split
    · exact hcam _ _
    · exact h
  | mouseScroll x y want anyMod =>
    simp only [handleEvent, Outcome.core]
    have hcam : GazeIdle g (mouseScrollCamera x y anyMod c) := by
      unfold mouseScrollCamera
      split
      · exact h
      · split
        · simp only []
          split <;> exact h
        · exact h
    unfold mouseScrollEvent
    split
    · exact hcam
    · exact h
  | refresh d =>
    simp only [handleEvent]
    apply gazeIdle_andThen
    · exact gazeIdle_draw g L d c he h
    · exact fun c1 h1 => h1

theorem gazeIdle_pollEvents (g : GazePoint) (L : Layouts) :
    ∀ (es : List WindowEvent) (c : Core), (∀ e ∈ es, e.keepsGaze) → GazeIdle g c →
      GazeIdle g (pollEvents L es c).core
  | [], c, _, h => h
  | e :: es, c, hes, h => by
    rw [pollEvents]
    apply gazeIdle_andThen
    · exact gazeIdle_handleEvent g L e c (hes e (List.mem_cons_self _ _)) h
    · exact fun c1 h1 =>
        gazeIdle_pollEvents g L es c1 (fun x hx => hes x (List.mem_cons_of_mem _ hx)) h1

theorem gazeIdle_render_frame (g : GazePoint) (L : Layouts) (inp : FrameInput) (c : Core)
    (hinp : inp.keepsGaze) (h : GazeIdle g c) : GazeIdle g (render_frame L inp c).core := by
  unfold render_frame
  simp only []
  apply gazeIdle_andThen
  · exact gazeIdle_draw g L inp.draw _ hinp.1 h
  · exact fun c1 h1 => gazeIdle_pollEvents g L inp.events _ hinp.2 (gazeIdle_screenshot g c1 h1)

theorem gazeIdle_replayApply (g : GazePoint) (i : Nat) (ce : cam_control_entry) (c : Core)
    (h : GazeIdle g c) : GazeIdle g (replayApply i ce c) := by
  obtain ⟨h1, h2⟩ := replayApply_gaze i ce c h.1
  exact ⟨h1, h2.trans h.2⟩

theorem gazeIdle_replayLoop (g : GazePoint) (L : Layouts) :
    ∀ (inputs : List FrameInput) (i : Nat) (c : Core), (∀ inp ∈ inputs, inp.keepsGaze) →
      GazeIdle g c → GazeIdle g (replayLoop L inputs i c).core
  | [], i, c, _, h => by
    rw [replayLoop]
    split <;> exact h
  | inp :: rest, i, c, hq, h => by
    rw [replayLoop]
    cases hget : c.recorded_entries_.get? i with
    | none => exact h
    | some ce =>
      have hstep := gazeIdle_render_frame g L inp (replayApply i ce c)
        (hq inp (List.mem_cons_self _ _)) (gazeIdle_replayApply g i ce c h)
      simp only []
      cases hr : render_frame L inp (replayApply i ce c) with
      | returned c1 =>
        rw [hr] at hstep
        exact gazeIdle_replayLoop g L rest (i + 1) c1
          (fun x hx => hq x (List.mem_cons_of_mem _ hx)) hstep
      | threw c1 =>
        rw [hr] at hstep
        exact hstep

theorem gazeIdle_framesLoop (g : GazePoint) (L : Layouts) :
    ∀ (inputs : List FrameInput) (i : Nat) (c : Core), (∀ inp ∈ inputs, inp.keepsGaze) →
      GazeIdle g c → GazeIdle g (framesLoop L inputs i c).core
  | [], i, c, _, h => by
    rw [framesLoop]
    split <;> exact h
  | inp :: rest, i, c, hq, h => by
    rw [framesLoop]
    split
    · have hstep := gazeIdle_render_frame g L inp c (hq inp (List.mem_cons_self _ _)) h
      cases hr : render_frame L inp c with
      | returned c1 =>
        rw [hr] at hstep
        exact gazeIdle_framesLoop g L rest (i + 1) c1
          (fun x hx => hq x (List.mem_cons_of_mem _ hx)) hstep
      | threw c1 =>
        rw [hr] at hstep
        exact hstep
    · exact h

theorem gazeIdle_benchmark (g : GazePoint) (L : Layouts) (inputs : List FrameInput) (c : Core)
    (hq : ∀ inp ∈ inputs, inp.keepsGaze) (h : GazeIdle g c) :
    GazeIdle g (benchmark L inputs c).core := by
  have hr := gazeIdle_replayLoop g L inputs 0 (c.emit .sensorsStart) hq h
  have hf := gazeIdle_framesLoop g L inputs 0 (c.emit .sensorsStart) hq h
  unfold benchmark
  by_cases hrp : c.replay_paths_ = true
  · have hrp2 : (c.emit Event.sensorsStart).replay_paths_ = true := hrp
    simp only [hrp2, if_true]
    cases hres : replayLoop L inputs 0 (c.emit Event.sensorsStart) <;>
      (rw [hres] at hr; exact hr)
  · have hrp2 : ¬ (c.emit Event.sensorsStart).replay_paths_ = true := hrp
    simp only [hrp2, if_false]
    cases hres : framesLoop L inputs 0 (c.emit Event.sensorsStart) <;>
      (rw [hres] at hf; exact hf)

theorem gazeIdle_runFrames (g : GazePoint) (L : Layouts) :
    ∀ (inputs : List FrameInput) (c : Core), (∀ inp ∈ inputs, inp.keepsGaze) →
      GazeIdle g c → GazeIdle g (runFrames L inputs c).core
  | [], c, _, h => h
  | inp :: rest, c, hq, h => by
    rw [runFrames]
    apply gazeIdle_andThen
    · exact gazeIdle_render_frame g L inp c (hq inp (List.mem_cons_self _ _)) h
    · exact fun c1 h1 =>
        gazeIdle_runFrames g L rest c1 (fun x hx => hq x (List.mem_cons_of_mem _ hx)) h1

theorem keepsGaze_default : ({} : FrameInput).keepsGaze :=
  ⟨⟨rfl, trivial, trivial, trivial⟩, fun _ h => absurd h (List.not_mem_nil _)⟩

theorem sampleQuietFrames_keepsGaze : ∀ inp ∈ sampleQuietFrames, inp.keepsGaze := by
  intro inp h
  simp only [sampleQuietFrames, List.mem_cons, List.mem_singleton, List.not_mem_nil,
    or_false, or_self] at h
  rw [h]
  exact keepsGaze_default

/-! ## Lemmas: what leaves the frame count alone -/

theorem andThen_core (P : Core → Prop) (o : Outcome) (k : Core → Outcome) (h1 : P o.core)
    (h2 : ∀ c, P c → P (k c).core) : P (o.andThen k).core := by
  cases o with
  | returned c => exact h2 c h1
  | threw c => exact h1

theorem entries_applyPluginCalls (ks : List PluginCall) (c : Core) :
    (applyPluginCalls ks c).recorded_entries_ = c.recorded_entries_ := by
  have h := congrArg Core.recorded_entries_ (applyPluginCalls_eq ks c)
  exact h

theorem entries_pluginComboWidget (ui : UiInput) (c : Core) :
    (pluginComboWidget ui c).recorded_entries_ = c.recorded_entries_ := by
  unfold pluginComboWidget
  split <;> rfl

theorem entries_uiPluginCombo (ui : UiInput) (c : Core) :
    (uiPluginCombo ui c).recorded_entries_ = c.recorded_entries_ := by
  unfold uiPluginCombo
  split
  · exact entries_pluginComboWidget ui c
  · rfl

theorem entries_uiWindowSize (ui : UiInput) (c : Core) :
    (uiWindowSize ui c).recorded_entries_ = c.recorded_entries_ := by
  unfold uiWindowSize
  cases ui.windowSize <;> (simp only []; split) <;> rfl

theorem entries_uiBenchmarkSettings (ui : UiInput) (c : Core) :
    (uiBenchmarkSettings ui c).recorded_entries_ = c.recorded_entries_ := by
  unfold uiBenchmarkSettings
  cases ui.frameCapMs <;> cases ui.useFrameCapClicked <;> cases ui.numFrames <;>
    cases ui.outputPath <;> rfl

theorem entries_uiTracePaths (ui : UiInput) (c : Core) :
    (uiTracePaths ui c).recorded_entries_ = c.recorded_entries_ := by
  unfold uiTracePaths
  cases ui.camPath <;> cases ui.eyePath <;> rfl

theorem entries_automationWidgets (L : Layouts) (ui : UiInput) (c : Core)
    (h1 : ui.replayClicked = false) (h2 : ui.recordClicked = false) :
    (automationWidgets L ui c).recorded_entries_ = c.recorded_entries_ := by
  have g1 := entries_uiTracePaths ui c
  have g3 : ∀ c : Core, (if ui.replayEyesClicked then { c with replay_eyes_ := !c.replay_eyes_ }
      else c).recorded_entries_ = c.recorded_entries_ := by
    intro c; split <;> rfl
  have g5 : ∀ c : Core, (if ui.recordingClicked then { c with recording_paths_ := !c.recording_paths_ }
      else c).recorded_entries_ = c.recorded_entries_ := by
    intro c; split <;> rfl
  unfold automationWidgets
  simp only [h1, h2, Bool.false_eq_true, if_false]
  rw [g5, g3, g1]

theorem entries_uiAutomation (L : Layouts) (ui : UiInput) (c : Core)
    (h1 : ui.replayClicked = false) (h2 : ui.recordClicked = false) :
    (uiAutomation L ui c).recorded_entries_ = c.recorded_entries_ := by
  unfold uiAutomation
  split
  · exact entries_automationWidgets L ui c h1 h2
  · rfl

theorem entries_pwrOwgWidgets (L : Layouts) (ui : UiInput) (c : Core)
    (h1 : ui.replayClicked = false) (h2 : ui.recordClicked = false) :
    (pwrOwgWidgets L ui c).recorded_entries_ = c.recorded_entries_ := by
  unfold pwrOwgWidgets
  simp only []
  rw [entries_uiAutomation L ui _ h1 h2]
  split
  · show (uiBenchmarkSettings ui (uiWindowSize ui c)).recorded_entries_ = _
    rw [entries_uiBenchmarkSettings, entries_uiWindowSize]
  · rw [entries_uiBenchmarkSettings, entries_uiWindowSize]

theorem entries_uiPwrOwg (L : Layouts) (ui : UiInput) (c : Core)
    (h1 : ui.replayClicked = false) (h2 : ui.recordClicked = false) :
    (uiPwrOwg L ui c).recorded_entries_ = c.recorded_entries_ := by
  unfold uiPwrOwg
  split
  · exact entries_pwrOwgWidgets L ui c h1 h2
  · rfl

theorem entries_pluginSwap (d : DrawInput) (c : Core) :
    (pluginSwap d c).core.recorded_entries_ = c.recorded_entries_ := by
  by_cases hne : c.currentPluginIdx_ = c.pluginSelectionIdx_
  · simp [pluginSwap, hne, Outcome.core]
  · cases hp : c.currentPlugin_ <;> cases hr : d.resourcesPath <;> cases ht : d.createThrows <;>
      simp [pluginSwap, hne, ht, releasePlugin, resolveResourcesPath, Core.emit, hp, hr,
        Outcome.core, entries_applyPluginCalls]

theorem entries_renderPlugin (d : DrawInput) (c : Core) :
    (renderPlugin d c).core.recorded_entries_ = c.recorded_entries_ := by
  cases hp : c.currentPlugin_ <;> cases ht : d.renderThrows <;>
    simp [renderPlugin, hp, ht, Core.emit, Outcome.core, entries_applyPluginCalls]

theorem entries_draw (L : Layouts) (d : DrawInput) (c : Core) (hd : d.keepsTrace) :
    (draw L d c).core.recorded_entries_ = c.recorded_entries_ := by
  unfold draw
  refine andThen_core (fun x => x.recorded_entries_ = c.recorded_entries_) _ _ ?_ ?_
  · show (pluginSwap d _).core.recorded_entries_ = _
    rw [entries_pluginSwap, entries_uiPwrOwg L d.ui _ hd.1 hd.2, entries_uiPluginCombo]
  · intro c2 h2
    show (renderPlugin d c2).core.recorded_entries_ = _
    rw [entries_renderPlugin, h2]

theorem entries_screenshot (c : Core) :
    (screenshot c).recorded_entries_ = c.recorded_entries_ := by
  unfold screenshot
  split
  · rfl
  · split
    · rfl
    · simp only []
      split_ifs <;> rfl

theorem entries_handleEvent (L : Layouts) (e : WindowEvent) (c : Core)
    (he : e.keepsTrace) : (handleEvent L e c).core.recorded_entries_ = c.recorded_entries_ := by
  cases e with
  | windowSize w hh => rfl
  | framebufferSize w hh =>
    simp only [handleEvent, Outcome.core]
    unfold framebufferSizeEvent
    simp only []
    split <;> rfl
  | key k sc a m fm want =>
    simp only [handleEvent, Outcome.core]
    unfold keyEvent
    split <;> rfl
  | char cp want =>
    simp only [handleEvent, Outcome.core]
    unfold charEvent
    split <;> rfl
  | mouseButton b a m want =>
    simp only [handleEvent, Outcome.core]
    unfold mouseButtonEvent
    simp only []
    split <;> rfl
  | mouseMove x y want =>
    simp only [handleEvent, Outcome.core]
    have hcam : ∀ a b, (mouseMoveCamera a b c).recorded_entries_ = c.recorded_entries_ := by
      intro a b
      unfold mouseMoveCamera
      split
      · split
        · simp only []
          split <;> rfl
        · rfl
      · rfl
    unfold mouseMoveEvent
    simp only []
    split
    · exact hcam _ _
    · rfl
  | mouseScroll x y want anyMod =>
    simp only [handleEvent, Outcome.core]
    have hcam : (mouseScrollCamera x y anyMod c).recorded_entries_ = c.recorded_entries_ := by
      unfold mouseScrollCamera
      split
      · rfl
      · split
        · simp only []
          split <;> rfl
        · rfl
    unfold mouseScrollEvent
    split
    · exact hcam
    · rfl
  | refresh d =>
    simp only [handleEvent]
    refine andThen_core (fun x => x.recorded_entries_ = c.recorded_entries_) _ _ ?_ ?_
    · exact entries_draw L d c he
    · intro c2 h2
      exact h2

theorem entries_pollEvents (L : Layouts) : ∀ (es : List WindowEvent) (c : Core),
    (∀ e ∈ es, e.keepsTrace) → (pollEvents L es c).core.recorded_entries_ = c.recorded_entries_
  | [], c, _ => rfl
  | e :: es, c, hes => by
    rw [pollEvents]
    refine andThen_core (fun x => x.recorded_entries_ = c.recorded_entries_) _ _ ?_ ?_
    · exact entries_handleEvent L e c (hes e (List.mem_cons_self _ _))
    · intro c2 h2
      show (pollEvents L es c2).core.recorded_entries_ = _
      rw [entries_pollEvents L es c2 (fun x hx => hes x (List.mem_cons_of_mem _ hx)), h2]

theorem entries_render_frame (L : Layouts) (inp : FrameInput) (c : Core)
    (h : inp.keepsTrace) : (render_frame L inp c).core.recorded_entries_ = c.recorded_entries_ := by
  unfold render_frame
  simp only []
  refine andThen_core (fun x => x.recorded_entries_ = c.recorded_entries_) _ _ ?_ ?_
  · exact entries_draw L inp.draw _ h.1
  · intro c2 h2
    show (pollEvents L inp.events ((screenshot c2).emit .swapBuffers)).core.recorded_entries_ = _
    rw [entries_pollEvents L inp.events _ h.2]
    show (screenshot c2).recorded_entries_ = _
    rw [entries_screenshot, h2]

theorem entries_replayApply (i : Nat) (ce : cam_control_entry) (c : Core) :
    (replayApply i ce c).recorded_entries_ = c.recorded_entries_ ∧
      (replayApply i ce c).frameNumber_ = c.frameNumber_ := by
  unfold replayApply
  simp only []
  split <;> split <;> exact ⟨rfl, rfl⟩

theorem keepsTrace_default : ({} : FrameInput).keepsTrace :=
  ⟨⟨rfl, rfl⟩, fun _ h => absurd h (List.not_mem_nil _)⟩

theorem lastResize_snoc (p : PluginInstance) (e : Event) : ∀ log : List Event,
    lastResize p (log ++ [e]) = (resizeOf p e).orElse (fun _ => lastResize p log)
  | [] => by cases h : resizeOf p e <;> simp [lastResize, h]
  | a :: log => by
    have ih := lastResize_snoc p e log
    show lastResize p (a :: (log ++ [e])) = _
    rw [lastResize, ih]
    cases h : resizeOf p e with
    | some s => simp
    | none => simp [lastResize]

theorem lastResize_mem (p : PluginInstance) (w h : Int) : ∀ log : List Event,
    lastResize p log = some (w, h) → Event.pluginResize p w h ∈ log
  | [], hl => by simp [lastResize] at hl
  | a :: log, hl => by
    rw [lastResize] at hl
    cases hr : lastResize p log with
    | some s =>
      rw [hr] at hl
      simp only [Option.some.injEq] at hl
      subst hl
      exact List.mem_cons_of_mem _ (lastResize_mem p w h log hr)
    | none =>
      rw [hr] at hl
      simp only at hl
      cases a <;> simp [resizeOf] at hl
      obtain ⟨rfl, rfl, rfl⟩ := hl
      exact List.mem_cons_self _ _

theorem renderedAfterResize_snoc (log : List Event) (e : Event)
    (h : RenderedAfterResize log)
    (he : ∀ p, e = Event.pluginRender p → ∃ w h, Event.pluginResize p w h ∈ log) :
    RenderedAfterResize (log ++ [e]) := by
  intro pre post p heq
  rcases List.eq_nil_or_concat post with rfl | ⟨post1, x, rfl⟩
  · have h2 : log ++ [e] = pre ++ [Event.pluginRender p] := heq
    obtain ⟨h3, h4⟩ := List.append_inj' h2 rfl
    simp only [List.cons.injEq, and_true] at h4
    rw [← h3]
    exact he p h4
  · have h2 : log ++ [e] = (pre ++ Event.pluginRender p :: post1) ++ [x] := by
      rw [heq]; simp
    obtain ⟨h3, _⟩ := List.append_inj' h2 rfl
    exact h pre post1 p h3

theorem renderedAfterResize_nil : RenderedAfterResize [] := by
  intro pre post p heq
  cases pre <;> simp at heq

theorem resizedInv_fresh (c : Core) (hlog : c.log = []) (hcur : c.currentPlugin_ = none) :
    ResizedInv c := by
  refine ⟨?_, ?_⟩
  · rw [hlog]; exact renderedAfterResize_nil
  · intro p hp
    rw [hcur] at hp
    cases hp

theorem resizedInv_none (c2 : Core) (h1 : RenderedAfterResize c2.log)
    (h2 : c2.currentPlugin_ = none) : ResizedInv c2 := by
  refine ⟨h1, ?_⟩
  intro p hp
  rw [h2] at hp
  cases hp

theorem resizedInv_same (c c2 : Core) (h : ResizedInv c) (hlog : c2.log = c.log)
    (hcur : c2.currentPlugin_ = c.currentPlugin_)
    (hw : c2.framebufferWidth_ = c.framebufferWidth_)
    (hh : c2.framebufferHeight_ = c.framebufferHeight_) : ResizedInv c2 := by
  unfold ResizedInv
  rw [hlog, hcur, hw, hh]
  exact h

theorem resizedInv_step (c c2 : Core) (e : Event) (h : ResizedInv c)
    (hlog : c2.log = c.log ++ [e]) (hcur : c2.currentPlugin_ = c.currentPlugin_)
    (hw : c2.framebufferWidth_ = c.framebufferWidth_)
    (hh : c2.framebufferHeight_ = c.framebufferHeight_) (he : e.rendering = false) :
    ResizedInv c2 := by
  unfold ResizedInv
  rw [hlog, hcur, hw, hh]
  refine ⟨renderedAfterResize_snoc _ _ h.1 ?_, ?_⟩
  · intro p hp
    rw [hp] at he
    cases he
  · intro p hp
    rw [lastResize_snoc, ← h.2 p hp]
    cases e <;> first | rfl | cases he

theorem resizedInv_emit (c : Core) (e : Event) (h : ResizedInv c) (he : e.rendering = false) :
    ResizedInv (c.emit e) :=
  resizedInv_step c _ e h rfl rfl rfl rfl he

theorem resizedInv_render (c c2 : Core) (p : PluginInstance) (h : ResizedInv c)
    (hp : c.currentPlugin_ = some p) (hlog : c2.log = c.log ++ [Event.pluginRender p])
    (hcur : c2.currentPlugin_ = c.currentPlugin_)
    (hw : c2.framebufferWidth_ = c.framebufferWidth_)
    (hh : c2.framebufferHeight_ = c.framebufferHeight_) : ResizedInv c2 := by
  unfold ResizedInv
  rw [hlog, hcur, hw, hh]
  refine ⟨renderedAfterResize_snoc _ _ h.1 ?_, ?_⟩
  · intro q hq
    cases hq
    exact ⟨_, _, lastResize_mem p _ _ _ (h.2 p hp)⟩
  · intro q hq
    rw [lastResize_snoc, ← h.2 q hq]
    rfl

theorem resizedInv_resized (c c2 : Core) (p : PluginInstance) (w h : Int)
    (hinv : RenderedAfterResize c.log) (hlog : c2.log = c.log ++ [Event.pluginResize p w h])
    (hcur : c2.currentPlugin_ = some p) (hw : c2.framebufferWidth_ = w)
    (hh : c2.framebufferHeight_ = h) : ResizedInv c2 := by
  unfold ResizedInv
  rw [hlog, hcur, hw, hh]
  refine ⟨renderedAfterResize_snoc _ _ hinv ?_, ?_⟩
  · intro q hq
    cases hq
  · intro q hq
    cases hq
    rw [lastResize_snoc]
    simp [resizeOf]

theorem resizedInv_applyPluginCalls (ks : List PluginCall) (c : Core) (h : ResizedInv c) :
    ResizedInv (applyPluginCalls ks c) := by
  rw [applyPluginCalls_eq]
  exact h

theorem resizedInv_pluginComboWidget (ui : UiInput) (c : Core) (h : ResizedInv c) :
    ResizedInv (pluginComboWidget ui c) := by
  unfold pluginComboWidget
  split <;> exact h

theorem resizedInv_uiPluginCombo (ui : UiInput) (c : Core) (h : ResizedInv c) :
    ResizedInv (uiPluginCombo ui c) := by
  unfold uiPluginCombo
  split
  · exact resizedInv_pluginComboWidget ui c h
  · exact h

theorem resizedInv_uiWindowSize (ui : UiInput) (c : Core) (h : ResizedInv c) :
    ResizedInv (uiWindowSize ui c) := by
  unfold uiWindowSize
  cases ui.windowSize <;> (simp only []; split) <;>
    first
    | exact h
    | exact resizedInv_step c _ _ h rfl rfl rfl rfl rfl

theorem resizedInv_uiBenchmarkSettings (ui : UiInput) (c : Core) (h : ResizedInv c) :
    ResizedInv (uiBenchmarkSettings ui c) := by
  unfold uiBenchmarkSettings
  cases ui.frameCapMs <;> cases ui.useFrameCapClicked <;> cases ui.numFrames <;>
    cases ui.outputPath <;> exact h

theorem resizedInv_uiTracePaths (ui : UiInput) (c : Core) (h : ResizedInv c) :
    ResizedInv (uiTracePaths ui c) := by
  unfold uiTracePaths
  cases ui.camPath <;> cases ui.eyePath <;> exact h

theorem resizedInv_replayCheckbox (L : Layouts) (c : Core) (h : ResizedInv c) :
    ResizedInv (replayCheckbox L c) := by
  unfold replayCheckbox
  simp only []
  split
  · split
    · split <;> exact h
    · exact h
  · exact h

theorem resizedInv_recordButton (L : Layouts) (c : Core) (h : ResizedInv c) :
    ResizedInv (recordButton L c) := by
  unfold recordButton
  simp only []
  split <;> exact h

theorem resizedInv_automationWidgets (L : Layouts) (ui : UiInput) (c : Core) (h : ResizedInv c) :
    ResizedInv (automationWidgets L ui c) := by
  have h1 := resizedInv_uiTracePaths ui c h
  have h2 : ∀ c, ResizedInv c → ResizedInv (if ui.replayClicked then replayCheckbox L c else c) := by
    intro c hc; split
    · exact resizedInv_replayCheckbox L c hc
    · exact hc
  have h3 : ∀ c : Core, ResizedInv c →
      ResizedInv (if ui.replayEyesClicked then { c with replay_eyes_ := !c.replay_eyes_ }
        else c) := by
    intro c hc; split <;> exact hc
  have h4 : ∀ c, ResizedInv c → ResizedInv (if ui.recordClicked then recordButton L c else c) := by
    intro c hc; split
    · exact resizedInv_recordButton L c hc
    · exact hc
  have h5 : ∀ c : Core, ResizedInv c →
      ResizedInv (if ui.recordingClicked then { c with recording_paths_ := !c.recording_paths_ }
        else c) := by
    intro c hc; split <;> exact hc
  unfold automationWidgets
  simp only []
  exact h5 _ (h4 _ (h3 _ (h2 _ h1)))

theorem resizedInv_uiAutomation (L : Layouts) (ui : UiInput) (c : Core) (h : ResizedInv c) :
    ResizedInv (uiAutomation L ui c) := by
  unfold uiAutomation
  split
  · exact resizedInv_automationWidgets L ui c h
  · exact h

theorem resizedInv_pwrOwgWidgets (L : Layouts) (ui : UiInput) (c : Core) (h : ResizedInv c) :
    ResizedInv (pwrOwgWidgets L ui c) := by
  unfold pwrOwgWidgets
  simp only []
  apply resizedInv_uiAutomation L ui _
  have h1 := resizedInv_uiBenchmarkSettings ui _ (resizedInv_uiWindowSize ui c h)
  split
  · exact h1
  · exact h1

theorem resizedInv_uiPwrOwg (L : Layouts) (ui : UiInput) (c : Core) (h : ResizedInv c) :
    ResizedInv (uiPwrOwg L ui c) := by
  unfold uiPwrOwg
  split
  · exact resizedInv_pwrOwgWidgets L ui c h
  · exact h

theorem resizedInv_releasePlugin (d : DrawInput) (c : Core) (h : ResizedInv c) :
    ResizedInv (releasePlugin d c) ∧ (releasePlugin d c).currentPlugin_ = none := by
  unfold releasePlugin
  split
  · rename_i p _
    have hA := resizedInv_applyPluginCalls d.releaseCalls (c.emit (.pluginReleased p))
      (resizedInv_step c _ _ h rfl rfl rfl rfl rfl)
    exact ⟨resizedInv_none _ hA.1 rfl, rfl⟩
  · rename_i hnone
    exact ⟨h, hnone⟩

theorem resizedInv_resolveResourcesPath (d : DrawInput) (c : Core) (h : ResizedInv c) :
    ResizedInv (resolveResourcesPath d c) ∧
      (resolveResourcesPath d c).currentPlugin_ = c.currentPlugin_ := by
  unfold resolveResourcesPath
  split <;> exact ⟨h, rfl⟩

theorem resizedInv_pluginSwap (d : DrawInput) (c : Core) (h : ResizedInv c) :
    ResizedInv (pluginSwap d c).core := by
  obtain ⟨r1, r2⟩ := resizedInv_releasePlugin d
    { c with currentPluginIdx_ := c.pluginSelectionIdx_ } h
  obtain ⟨s1, s2⟩ := resizedInv_resolveResourcesPath d _ r1
  rw [r2] at s2
  have key : ∀ c2 : Core, ResizedInv c2 → c2.currentPlugin_ = none →
      ResizedInv
        (({ applyPluginCalls d.createCalls
              (({ c2 with nextSerial := c2.nextSerial + 1 } : Core).emit
                (.pluginCreated ⟨c2.currentPluginIdx_, c2.nextSerial⟩)) with
            currentPlugin_ := some ⟨c2.currentPluginIdx_, c2.nextSerial⟩ } : Core).emit
          (.pluginResize ⟨c2.currentPluginIdx_, c2.nextSerial⟩
            (applyPluginCalls d.createCalls
              (({ c2 with nextSerial := c2.nextSerial + 1 } : Core).emit
                (.pluginCreated ⟨c2.currentPluginIdx_, c2.nextSerial⟩))).framebufferWidth_
            (applyPluginCalls d.createCalls
              (({ c2 with nextSerial := c2.nextSerial + 1 } : Core).emit
                (.pluginCreated ⟨c2.currentPluginIdx_, c2.nextSerial⟩))).framebufferHeight_)) := by
    intro c2 t1 _
    have hA := resizedInv_applyPluginCalls d.createCalls
      (({ c2 with nextSerial := c2.nextSerial + 1 } : Core).emit
        (.pluginCreated ⟨c2.currentPluginIdx_, c2.nextSerial⟩))
      (resizedInv_step c2 _ _ t1 rfl rfl rfl rfl rfl)
    exact resizedInv_resized _ _ _ _ _ hA.1 rfl rfl rfl rfl
  unfold pluginSwap
  split
  · simp only []
    split
    · exact s1
    · exact key _ s1 s2
  · exact h

theorem resizedInv_renderPlugin (d : DrawInput) (c : Core) (h : ResizedInv c) :
    ResizedInv (renderPlugin d c).core := by
  unfold renderPlugin
  split
  · rename_i p hp
    have := resizedInv_applyPluginCalls d.renderCalls (c.emit (.pluginRender p))
      (resizedInv_render c _ p h hp rfl rfl rfl rfl)
    simp only []
    split <;> exact this
  · exact h

theorem resizedInv_draw (L : Layouts) (d : DrawInput) (c : Core) (h : ResizedInv c) :
    ResizedInv (draw L d c).core := by
  unfold draw
  refine andThen_core ResizedInv _ _ ?_ ?_
  · exact resizedInv_pluginSwap d _ (resizedInv_uiPwrOwg L d.ui _ (resizedInv_uiPluginCombo d.ui c h))
  · exact fun c1 h1 => resizedInv_renderPlugin d c1 h1

theorem resizedInv_screenshot (c : Core) (h : ResizedInv c) : ResizedInv (screenshot c) := by
  unfold screenshot
  split
  · exact h
  · split
    · exact h
    · have h2 : ∀ stem : String, ResizedInv
          (({ c with cfg_ := { c.cfg_ with screenshotFrames := _ } } : Core).emit
            (.savePngImage stem c.frameNumber_ c.framebufferWidth_ c.framebufferHeight_)) :=
        fun stem => resizedInv_step c _ _ h rfl rfl rfl rfl rfl
      simp only []
      split_ifs <;>
        first
        | exact h2 _
        | exact resizedInv_step _ _ _ (h2 _) rfl rfl rfl rfl rfl

theorem resizedInv_handleEvent (L : Layouts) (e : WindowEvent) (c : Core) (h : ResizedInv c) :
    ResizedInv (handleEvent L e c).core := by
  cases e with
  | windowSize w hh => exact h
  | framebufferSize w hh =>
    simp only [handleEvent, Outcome.core]
    unfold framebufferSizeEvent
    simp only []
    split
    · rename_i p hp
      exact resizedInv_resized c _ p w hh h.1 rfl hp rfl rfl
    · rename_i hnone
      exact resizedInv_none _ h.1 hnone
  | key k sc a m fm want =>
    simp only [handleEvent, Outcome.core]
    unfold keyEvent
    split
    · exact resizedInv_step c _ _ h rfl rfl rfl rfl rfl
    · exact h
  | char cp want =>
    simp only [handleEvent, Outcome.core]
    unfold charEvent
    split
    · exact resizedInv_step c _ _ h rfl rfl rfl rfl rfl
    · exact h
  | mouseButton b a m want =>
    simp only [handleEvent, Outcome.core]
    unfold mouseButtonEvent
    simp only []
    split
    · exact resizedInv_step c _ _ h rfl rfl rfl rfl rfl
    · exact h
  | mouseMove x y want =>
    simp only [handleEvent, Outcome.core]
    have hcam : ∀ a b, ResizedInv (mouseMoveCamera a b c) := by
      intro a b
      unfold mouseMoveCamera
      split
      · split
        · simp only []
          split <;> exact resizedInv_step c _ _ h rfl rfl rfl rfl rfl
        · exact h
      · exact h
    unfold mouseMoveEvent
    simp only []
    split
    · exact resizedInv_step _ _ _ (hcam _ _) rfl rfl rfl rfl rfl
    · exact h
  | mouseScroll x y want anyMod =>
    simp only [handleEvent, Outcome.core]
    have hcam : ResizedInv (mouseScrollCamera x y anyMod c) := by
      unfold mouseScrollCamera
      split
      · exact h
      · split
        · simp only []
          split <;> exact resizedInv_step c _ _ h rfl rfl rfl rfl rfl
        · exact h
    unfold mouseScrollEvent
    split
    · exact resizedInv_step _ _ _ hcam rfl rfl rfl rfl rfl
    · exact h
  | refresh d =>
    simp only [handleEvent]
    refine andThen_core ResizedInv _ _ ?_ ?_
    · exact resizedInv_draw L d c h
    · exact fun c1 h1 => resizedInv_step c1 _ _ h1 rfl rfl rfl rfl rfl

theorem resizedInv_pollEvents (L : Layouts) :
    ∀ (es : List WindowEvent) (c : Core), ResizedInv c → ResizedInv (pollEvents L es c).core
  | [], c, h => h
  | e :: es, c, h => by
    rw [pollEvents]
    refine andThen_core ResizedInv _ _ ?_ ?_
    · exact resizedInv_handleEvent L e c h
    · exact fun c1 h1 => resizedInv_pollEvents L es c1 h1

theorem resizedInv_render_frame (L : Layouts) (inp : FrameInput) (c : Core)
    (h : ResizedInv c) : ResizedInv (render_frame L inp c).core := by
  unfold render_frame
  simp only []
  refine andThen_core ResizedInv _ _ ?_ ?_
  · exact resizedInv_draw L inp.draw _ h
  · exact fun c1 h1 => resizedInv_pollEvents L inp.events _
      (resizedInv_step _ _ _ (resizedInv_screenshot c1 h1) rfl rfl rfl rfl rfl)

theorem resizedInv_replayApply (i : Nat) (ce : cam_control_entry) (c : Core)
    (h : ResizedInv c) : ResizedInv (replayApply i ce c) := by
  cases hcam : c.camera_ <;> by_cases hg : c.recorded_gaze_points_.isEmpty = true <;>
    simp only [replayApply, hcam, hg, if_true, if_false, Bool.false_eq_true] <;>
    first
    | exact h
    | exact resizedInv_emit _ _ (resizedInv_emit _ _ h rfl) rfl

theorem resizedInv_replayLoop (L : Layouts) :
    ∀ (inputs : List FrameInput) (i : Nat) (c : Core),
      ResizedInv c → ResizedInv (replayLoop L inputs i c).core
  | [], i, c, h => by
    rw [replayLoop]
    split <;> exact h
  | inp :: rest, i, c, h => by
    rw [replayLoop]
    cases hget : c.recorded_entries_.get? i with
    | none => exact h
    | some ce =>
      have hstep := resizedInv_render_frame L inp (replayApply i ce c)
        (resizedInv_replayApply i ce c h)
      simp only []
      cases hr : render_frame L inp (replayApply i ce c) with
      | returned c1 =>
        rw [hr] at hstep
        exact resizedInv_replayLoop L rest (i + 1) c1 hstep
      | threw c1 =>
        rw [hr] at hstep
        exact hstep

theorem resizedInv_framesLoop (L : Layouts) :
    ∀ (inputs : List FrameInput) (i : Nat) (c : Core),
      ResizedInv c → ResizedInv (framesLoop L inputs i c).core
  | [], i, c, h => by
    rw [framesLoop]
    split <;> exact h
  | inp :: rest, i, c, h => by
    rw [framesLoop]
    split
    · have hstep := resizedInv_render_frame L inp c h
      cases hr : render_frame L inp c with
      | returned c1 =>
        rw [hr] at hstep
        exact resizedInv_framesLoop L rest (i + 1) c1 hstep
      | threw c1 =>
        rw [hr] at hstep
        exact hstep
    · exact h

theorem resizedInv_benchmark (L : Layouts) (inputs : List FrameInput) (c : Core)
    (h : ResizedInv c) : ResizedInv (benchmark L inputs c).core := by
  have hs : ResizedInv (c.emit .sensorsStart) := resizedInv_step c _ _ h rfl rfl rfl rfl rfl
  have hr := resizedInv_replayLoop L inputs 0 (c.emit .sensorsStart) hs
  have hf := resizedInv_framesLoop L inputs 0 (c.emit .sensorsStart) hs
  unfold benchmark
  by_cases hrp : c.replay_paths_ = true
  · have hrp2 : (c.emit Event.sensorsStart).replay_paths_ = true := hrp
    simp only [hrp2, if_true]
    cases hres : replayLoop L inputs 0 (c.emit Event.sensorsStart) with
    | finished c2 rest =>
      rw [hres] at hr
      exact resizedInv_step c2 _ _ hr rfl rfl rfl rfl rfl
    | threw c2 rest =>
      rw [hres] at hr
      exact hr
    | starved c2 =>
      rw [hres] at hr
      exact hr
  · have hrp2 : ¬ (c.emit Event.sensorsStart).replay_paths_ = true := hrp
    simp only [hrp2, if_false]
    cases hres : framesLoop L inputs 0 (c.emit Event.sensorsStart) with
    | finished c2 rest =>
      rw [hres] at hf
      exact resizedInv_step c2 _ _ hf rfl rfl rfl rfl rfl
    | threw c2 rest =>
      rw [hres] at hf
      exact hf
    | starved c2 =>
      rw [hres] at hf
      exact hf

theorem resizedInv_runFrames (L : Layouts) :
    ∀ (inputs : List FrameInput) (c : Core), ResizedInv c → ResizedInv (runFrames L inputs c).core
  | [], c, h => h
  | inp :: rest, c, h => by
    rw [runFrames]
    refine andThen_core ResizedInv _ _ ?_ ?_
    · exact resizedInv_render_frame L inp c h
    · exact fun c1 h1 => resizedInv_runFrames L rest c1 h1

theorem resizedInv_recordingTick (c : Core) (h : ResizedInv c) :
    ResizedInv (recordingTick c) := by
  unfold recordingTick
  split <;> exact h

theorem resizedInv_mainLoopBody (L : Layouts) (inputs : List FrameInput) (c : Core)
    (h : ResizedInv c) : ResizedInv (mainLoopBody L inputs c).core := by
  have h1 := resizedInv_recordingTick c h
  have hb : ResizedInv (if (recordingTick c).run_benchmark_ then benchmark L inputs (recordingTick c)
      else LoopResult.finished (recordingTick c) inputs).core := by
    split
    · exact resizedInv_benchmark L inputs _ h1
    · exact h1
  unfold mainLoopBody
  simp only []
  generalize (if (recordingTick c).run_benchmark_ then benchmark L inputs (recordingTick c)
      else LoopResult.finished (recordingTick c) inputs) = benched at hb
  cases benched with
  | finished c2 rest =>
    cases rest with
    | nil => exact hb
    | cons inp rest =>
      have hstep := resizedInv_render_frame L inp c2 hb
      simp only []
      cases hr : render_frame L inp c2 with
      | returned c3 =>
        rw [hr] at hstep
        exact hstep
      | threw c3 =>
        rw [hr] at hstep
        exact hstep
  | threw c2 rest => exact hb
  | starved c2 => exact hb

theorem resizedInv_construct (env : Startup) (cfg : Config) (c : Core)
    (h : Core.construct env cfg = .ok c) : ResizedInv c := by
  unfold Core.construct at h
  split_ifs at h
  cases h
  exact resizedInv_fresh _ rfl rfl

/-! ## Lemmas: the benchmark set-up survives the rest of `draw` -/

theorem benchSetup_applyPluginCalls (ks : List PluginCall) (c : Core) :
    (applyPluginCalls ks c).benchSetup = c.benchSetup := by
  have h := congrArg Core.benchSetup (applyPluginCalls_eq ks c)
  exact h

theorem applyPluginCalls_expected (ks : List PluginCall) (c : Core) :
    (applyPluginCalls ks c).expected_samples_num_ = c.expected_samples_num_ := by
  have h := congrArg Core.expected_samples_num_ (applyPluginCalls_eq ks c)
  exact h

theorem applyPluginCalls_buffers (ks : List PluginCall) (c : Core) :
    (applyPluginCalls ks c).sensor_buffers = c.sensor_buffers := by
  have h := congrArg Core.sensor_buffers (applyPluginCalls_eq ks c)
  exact h

theorem applyPluginCalls_run (ks : List PluginCall) (c : Core) :
    (applyPluginCalls ks c).run_benchmark_ = c.run_benchmark_ := by
  have h := congrArg Core.run_benchmark_ (applyPluginCalls_eq ks c)
  exact h

theorem benchSetup_uiTracePaths (ui : UiInput) (c : Core) :
    (uiTracePaths ui c).benchSetup = c.benchSetup := by
  unfold uiTracePaths
  cases ui.camPath <;> cases ui.eyePath <;> rfl

theorem benchSetup_replayCheckbox (L : Layouts) (c : Core) :
    (replayCheckbox L c).benchSetup = c.benchSetup := by
  unfold replayCheckbox
  simp only []
  split
  · split
    · split <;> rfl
    · rfl
  · rfl

theorem benchSetup_recordButton (L : Layouts) (c : Core) :
    (recordButton L c).benchSetup = c.benchSetup := by
  unfold recordButton
  simp only []
  split <;> rfl

theorem benchSetup_uiAutomation (L : Layouts) (ui : UiInput) (c : Core) :
    (uiAutomation L ui c).benchSetup = c.benchSetup := by
  have h1 := benchSetup_uiTracePaths ui c
  have h2 : ∀ c, (if ui.replayClicked then replayCheckbox L c else c).benchSetup
      = c.benchSetup := by
    intro c; split
    · exact benchSetup_replayCheckbox L c
    · rfl
  have h3 : ∀ c : Core, (if ui.replayEyesClicked then { c with replay_eyes_ := !c.replay_eyes_ }
      else c).benchSetup = c.benchSetup := by
    intro c; split <;> rfl
  have h4 : ∀ c, (if ui.recordClicked then recordButton L c else c).benchSetup
      = c.benchSetup := by
    intro c; split
    · exact benchSetup_recordButton L c
    · rfl
  have h5 : ∀ c : Core, (if ui.recordingClicked then { c with recording_paths_ := !c.recording_paths_ }
      else c).benchSetup = c.benchSetup := by
    intro c; split <;> rfl
  unfold uiAutomation
  split
  · unfold automationWidgets
    simp only []
    rw [h5, h4, h3, h2, h1]
  · rfl

theorem benchSetup_pluginSwap (d : DrawInput) (c : Core) :
    (pluginSwap d c).core.benchSetup = c.benchSetup := by
  by_cases hne : c.currentPluginIdx_ = c.pluginSelectionIdx_
  · simp [pluginSwap, hne, Outcome.core]
  · cases hp : c.currentPlugin_ <;> cases hr : d.resourcesPath <;> cases ht : d.createThrows <;>
      simp [pluginSwap, hne, ht, releasePlugin, resolveResourcesPath, Core.emit, hp, hr,
        Outcome.core, Core.benchSetup, applyPluginCalls_expected, applyPluginCalls_buffers,
        applyPluginCalls_run]

theorem benchSetup_renderPlugin (d : DrawInput) (c : Core) :
    (renderPlugin d c).core.benchSetup = c.benchSetup := by
  cases hp : c.currentPlugin_ <;> cases ht : d.renderThrows <;>
    simp [renderPlugin, hp, ht, Core.emit, Outcome.core, Core.benchSetup,
      applyPluginCalls_expected, applyPluginCalls_buffers, applyPluginCalls_run]

theorem benchSetup_draw_started (L : Layouts) (d : DrawInput) (c : Core)
    (hopen : d.ui.pwrOwgOpen = true) (hclick : d.ui.startBenchmarkClicked = true) :
    (draw L d c).core.benchSetup
      = (startBenchmarkButton
          (uiBenchmarkSettings d.ui (uiWindowSize d.ui (uiPluginCombo d.ui c)))).benchSetup := by
  unfold draw
  refine andThen_core (fun x => x.benchSetup = (startBenchmarkButton
    (uiBenchmarkSettings d.ui (uiWindowSize d.ui (uiPluginCombo d.ui c)))).benchSetup) _ _ ?_ ?_
  · show (pluginSwap d _).core.benchSetup = _
    rw [benchSetup_pluginSwap]
    unfold uiPwrOwg
    rw [if_pos hopen]
    unfold pwrOwgWidgets
    simp only []
    rw [benchSetup_uiAutomation, if_pos hclick]
  · intro c2 h2
    show (renderPlugin d c2).core.benchSetup = _
    rw [benchSetup_renderPlugin, h2]

/-! ## Lemmas: arithmetic on doubles -/

theorem roundHalfEven_intCast (n : ℤ) : roundHalfEven (n : ℚ) = n := by
  unfold roundHalfEven
  simp

theorem two_zpow_pos (k : ℤ) : (0 : ℚ) < 2 ^ k := zpow_pos (by norm_num) k

theorem nearestDouble_zero : nearestDouble 0 = 0 := by
  unfold nearestDouble
  simp [roundHalfEven]

theorem nearestDouble_multiple (q : ℚ) (n : ℤ) (h : q = (n : ℚ) * 2 ^ ulpExp q) :
    nearestDouble q = q := by
  have hp := two_zpow_pos (ulpExp q)
  have h1 : q / 2 ^ ulpExp q = (n : ℚ) := by
    rw [div_eq_iff hp.ne']
    exact h
  unfold nearestDouble
  rw [h1, roundHalfEven_intCast]
  exact h.symm

/-- A number with a mantissa below `2 ^ 53` and an exponent from `-1074` on is a double. -/
theorem nearestDouble_exact (q : ℚ) (m e : ℤ) (hq : q = (m : ℚ) * 2 ^ e) (hm : |m| < 2 ^ 53)
    (he : -1074 ≤ e) : nearestDouble q = q := by
  by_cases h0 : q = 0
  · rw [h0]
    exact nearestDouble_zero
  have hk : ulpExp q ≤ e := by
    have habs : |q| < (2 : ℚ) ^ (53 + e) := by
      rw [hq, abs_mul, abs_of_pos (two_zpow_pos e), zpow_add₀ (by norm_num : (2 : ℚ) ≠ 0)]
      have hm' : |(m : ℚ)| < 2 ^ (53 : ℤ) := by
        have h2 : (2 : ℚ) ^ (53 : ℤ) = ((2 ^ 53 : ℤ) : ℚ) := by norm_num
        rw [h2, ← Int.cast_abs]
        exact_mod_cast hm
      exact mul_lt_mul_of_pos_right hm' (two_zpow_pos e)
    have hlog : Int.log 2 |q| < 53 + e := by
      have := (Int.lt_zpow_iff_log_lt (b := 2) (by norm_num) (abs_pos.mpr h0)).mp
        (by simpa using habs)
      exact this
    unfold ulpExp
    exact max_le (by omega) he
  have h1 : ((e - ulpExp q).toNat : ℤ) = e - ulpExp q := Int.toNat_of_nonneg (by omega)
  apply nearestDouble_multiple q (m * 2 ^ (e - ulpExp q).toNat)
  generalize ulpExp q = k at hk h1 ⊢
  rw [hq]
  push_cast
  rw [mul_assoc, ← zpow_natCast, h1, ← zpow_add₀ (by norm_num : (2 : ℚ) ≠ 0)]
  congr 2
  omega

theorem Double.finite_mul (a b : ℚ) : Double.finite a * Double.finite b = Double.round (a * b) :=
  rfl

theorem Double.finite_sub (a b : ℚ) : Double.finite a - Double.finite b = Double.round (a - b) :=
  rfl

theorem Double.finite_div (a b : ℚ) (hb : b ≠ 0) :
    Double.finite a / Double.finite b = Double.round (a / b) := by
  show Double.div (Double.finite a) (Double.finite b) = _
  simp [Double.div, hb]

theorem Double.div_zero (x : Double) : x / Double.finite 0 = Double.nonFinite := by
  show Double.div x (Double.finite 0) = _
  cases x <;> simp [Double.div]

theorem Double.mul_nonFinite (x : Double) : x * Double.nonFinite = Double.nonFinite := by
  show Double.mul x Double.nonFinite = _
  cases x <;> rfl

theorem Double.ofNat_eq (n : Nat) : (OfNat.ofNat n : Double) = Double.finite (n : ℚ) := rfl

/-- A result that is a double (mantissa below `2 ^ 53`, exponent between `-1074` and `971`) is
not changed by the rounding. -/
theorem Double.round_exact (q r : ℚ) (m e : ℤ) (hq : q = r) (hr : r = (m : ℚ) * 2 ^ e)
    (hm : |m| < 2 ^ 53) (he : -1074 ≤ e) (he2 : e ≤ 971) : Double.round q = .finite r := by
  subst hq
  have hn := nearestDouble_exact q m e hr hm he
  have hfin : |q| < 2 ^ 1024 := by
    have hm' : |(m : ℚ)| < 2 ^ (53 : ℤ) := by
      have h2 : (2 : ℚ) ^ (53 : ℤ) = ((2 ^ 53 : ℤ) : ℚ) := by norm_num
      rw [h2, ← Int.cast_abs]
      exact_mod_cast hm
    rw [hr, abs_mul, abs_of_pos (two_zpow_pos e)]
    calc |(m : ℚ)| * 2 ^ e < 2 ^ (53 : ℤ) * 2 ^ e := mul_lt_mul_of_pos_right hm' (two_zpow_pos e)
      _ = 2 ^ (53 + e) := (zpow_add₀ (by norm_num : (2 : ℚ) ≠ 0) 53 e).symm
      _ ≤ 2 ^ (1024 : ℤ) := zpow_le_zpow_right₀ (by norm_num) (by omega)
      _ = 2 ^ 1024 := by norm_num
  unfold Double.round
  rw [hn, if_pos hfin]

theorem scale_fst_eq (c : Core) (x y : Double) :
    (scaleWindowPosToFramebufferPos c x y).1
      = x * (Double.ofInt c.framebufferWidth_ / Double.ofInt c.windowWidth_) := rfl

theorem scale_snd_eq (c : Core) (x y : Double) :
    (scaleWindowPosToFramebufferPos c x y).2
      = y * (Double.ofInt c.framebufferHeight_ / Double.ofInt c.windowHeight_) := rfl

theorem ndcOfFb_fst_eq (c : Core) (x y : Double) :
    (ndcOfFramebufferPos c x y).1 = 2 * x / Double.ofInt c.framebufferWidth_ - 1 := rfl

theorem ndcOfFb_snd_eq (c : Core) (x y : Double) :
    (ndcOfFramebufferPos c x y).2 = 1 - 2 * y / Double.ofInt c.framebufferHeight_ := rfl

/-- Evaluation of the scaling of one coordinate from the roundings of its two operations. -/
theorem scale_eval (winW fbW : Int) (x s p : ℚ) (hw : winW ≠ 0)
    (hs : Double.round ((fbW : ℚ) / winW) = .finite s)
    (hp : Double.round (x * s) = .finite p) :
    Double.finite x * (Double.ofInt fbW / Double.ofInt winW) = .finite p := by
  have hw' : (winW : ℚ) ≠ 0 := Int.cast_ne_zero.mpr hw
  unfold Double.ofInt
  rw [Double.finite_div _ _ hw', hs, Double.finite_mul, hp]

/-- Evaluation of `2.0 * x / fbW - 1.0` from the roundings of its three operations. -/
theorem ndcX_eval (fbW : Int) (x t u v : ℚ) (hfw : fbW ≠ 0)
    (ht : Double.round (2 * x) = .finite t)
    (hu : Double.round (t / fbW) = .finite u)
    (hv : Double.round (u - 1) = .finite v) :
    2 * Double.finite x / Double.ofInt fbW - 1 = .finite v := by
  have hfw' : (fbW : ℚ) ≠ 0 := Int.cast_ne_zero.mpr hfw
  have h2 : (2 : Double) * Double.finite x = .finite t := by
    rw [Double.ofNat_eq, Double.finite_mul]
    simpa using ht
  unfold Double.ofInt
  rw [h2, Double.finite_div _ _ hfw', hu, Double.ofNat_eq, Double.finite_sub]
  simpa using hv

/-- Evaluation of `1.0 - 2.0 * y / fbH` from the roundings of its three operations. -/
theorem ndcY_eval (fbH : Int) (y t u v : ℚ) (hfh : fbH ≠ 0)
    (ht : Double.round (2 * y) = .finite t)
    (hu : Double.round (t / fbH) = .finite u)
    (hv : Double.round (1 - u) = .finite v) :
    1 - 2 * Double.finite y / Double.ofInt fbH = .finite v := by
  have hfh' : (fbH : ℚ) ≠ 0 := Int.cast_ne_zero.mpr hfh
  have h2 : (2 : Double) * Double.finite y = .finite t := by
    rw [Double.ofNat_eq, Double.finite_mul]
    simpa using ht
  unfold Double.ofInt
  rw [h2, Double.finite_div _ _ hfh', hu, Double.ofNat_eq, Double.finite_sub]
  simpa using hv

theorem Double.zero_eq : (0 : Double) = Double.finite 0 := by
  rw [Double.ofNat_eq]
  simp

theorem mouseMoveCamera_log_none (x y : Double) (c : Core)
    (h : c.cameraControlMode_ = MouseControlMode.None ∨ c.camera_ = none) :
    (mouseMoveCamera x y c).log = c.log := by
  unfold mouseMoveCamera
  rcases h with h | h
  · simp [h]
  · by_cases hm : c.cameraControlMode_ = MouseControlMode.None
    · simp [hm]
    · simp [hm, h]

theorem mouseMoveCamera_log_some (x y : Double) (c : Core) (cam : Nat)
    (hm : c.cameraControlMode_ ≠ MouseControlMode.None) (hc : c.camera_ = some cam) :
    (mouseMoveCamera x y c).log = c.log ++
      [Event.cameraMouseMoveControl cam c.cameraControlMode_
        (ndcOfFramebufferPos c c.mouseX_ c.mouseY_).1 (ndcOfFramebufferPos c c.mouseX_ c.mouseY_).2
        (ndcOfFramebufferPos c x y).1 (ndcOfFramebufferPos c x y).2] := by
  unfold mouseMoveCamera
  simp only [hm, hc, ne_eq, not_false_eq_true, if_true]
  split <;> rfl

theorem mouseScrollCamera_log (x y : Double) (anyMod : Bool) (c : Core) :
    (mouseScrollCamera x y anyMod c).log = c.log ++
      (match anyMod, c.camera_ with
        | false, some cam => [Event.cameraMouseScrollControl cam x y]
        | _, _ => []) := by
  unfold mouseScrollCamera
  cases anyMod <;> cases hc : c.camera_ <;> simp [Core.emit]
  split <;> rfl

theorem mouseMoveEvent_log (x y : Double) (want : Bool) (c : Core) :
    (mouseMoveEvent x y want c).log =
      (match want, c.currentPlugin_ with
        | false, some p =>
          (mouseMoveCamera (scaleWindowPosToFramebufferPos c x y).1
              (scaleWindowPosToFramebufferPos c x y).2 c).log ++
            [Event.pluginMouseMove p (scaleWindowPosToFramebufferPos c x y).1
              (scaleWindowPosToFramebufferPos c x y).2]
        | _, _ => c.log) := by
  unfold mouseMoveEvent
  simp only []
  split <;> rfl

theorem resources_applyPluginCalls (ks : List PluginCall) (c : Core) :
    (applyPluginCalls ks c).resourcesView = c.resourcesView := by
  have h := congrArg Core.resourcesView (applyPluginCalls_eq ks c)
  exact h

theorem resources_uiPluginCombo (ui : UiInput) (c : Core) :
    (uiPluginCombo ui c).resourcesView = c.resourcesView := by
  unfold uiPluginCombo
  split
  · unfold pluginComboWidget
    split <;> rfl
  · rfl

theorem resources_uiWindowSize (ui : UiInput) (c : Core) :
    (uiWindowSize ui c).resourcesView = c.resourcesView := by
  unfold uiWindowSize
  cases ui.windowSize <;> (simp only []; split) <;> rfl

theorem resources_uiBenchmarkSettings (ui : UiInput) (c : Core) :
    (uiBenchmarkSettings ui c).resourcesView = c.resourcesView := by
  unfold uiBenchmarkSettings
  cases ui.frameCapMs <;> cases ui.useFrameCapClicked <;> cases ui.numFrames <;>
    cases ui.outputPath <;> rfl

theorem resources_uiTracePaths (ui : UiInput) (c : Core) :
    (uiTracePaths ui c).resourcesView = c.resourcesView := by
  unfold uiTracePaths
  cases ui.camPath <;> cases ui.eyePath <;> rfl

theorem resources_replayCheckbox (L : Layouts) (c : Core) :
    (replayCheckbox L c).resourcesView = c.resourcesView := by
  unfold replayCheckbox
  simp only []
  split
  · split
    · split <;> rfl
    · rfl
  · rfl

theorem resources_recordButton (L : Layouts) (c : Core) :
    (recordButton L c).resourcesView = c.resourcesView := by
  unfold recordButton
  simp only []
  split <;> rfl

theorem resources_uiAutomation (L : Layouts) (ui : UiInput) (c : Core) :
    (uiAutomation L ui c).resourcesView = c.resourcesView := by
  have h1 := resources_uiTracePaths ui c
  have h2 : ∀ c, (if ui.replayClicked then replayCheckbox L c else c).resourcesView
      = c.resourcesView := by
    intro c; split
    · exact resources_replayCheckbox L c
    · rfl
  have h3 : ∀ c : Core, (if ui.replayEyesClicked then { c with replay_eyes_ := !c.replay_eyes_ }
      else c).resourcesView = c.resourcesView := by
    intro c; split <;> rfl
  have h4 : ∀ c, (if ui.recordClicked then recordButton L c else c).resourcesView
      = c.resourcesView := by
    intro c; split
    · exact resources_recordButton L c
    · rfl
  have h5 : ∀ c : Core, (if ui.recordingClicked then { c with recording_paths_ := !c.recording_paths_ }
      else c).resourcesView = c.resourcesView := by
    intro c; split <;> rfl
  unfold uiAutomation
  split
  · unfold automationWidgets
    simp only []
    rw [h5, h4, h3, h2, h1]
  · rfl

theorem resources_uiPwrOwg (L : Layouts) (ui : UiInput) (c : Core) :
    (uiPwrOwg L ui c).resourcesView = c.resourcesView := by
  unfold uiPwrOwg
  split
  · unfold pwrOwgWidgets
    simp only []
    rw [resources_uiAutomation]
    split
    · show (uiBenchmarkSettings ui (uiWindowSize ui c)).resourcesView = _
      rw [resources_uiBenchmarkSettings, resources_uiWindowSize]
    · rw [resources_uiBenchmarkSettings, resources_uiWindowSize]
  · rfl

theorem applyPluginCalls_path (ks : List PluginCall) (c : Core) :
    (applyPluginCalls ks c).currentPluginResourcesPath_ = c.currentPluginResourcesPath_ := by
  have h := congrArg Core.currentPluginResourcesPath_ (applyPluginCalls_eq ks c)
  exact h

theorem applyPluginCalls_pathException (ks : List PluginCall) (c : Core) :
    (applyPluginCalls ks c).currentPluginResourcesPathException_
      = c.currentPluginResourcesPathException_ := by
  have h := congrArg Core.currentPluginResourcesPathException_ (applyPluginCalls_eq ks c)
  exact h

theorem resources_renderPlugin (d : DrawInput) (c : Core) :
    (renderPlugin d c).core.resourcesView = c.resourcesView := by
  cases hp : c.currentPlugin_ <;> cases ht : d.renderThrows <;>
    simp [renderPlugin, hp, ht, Core.emit, Outcome.core, Core.resourcesView,
      applyPluginCalls_path, applyPluginCalls_pathException]

theorem resources_pluginSwap (d : DrawInput) (c : Core) :
    (pluginSwap d c).core.resourcesView =
      if c.currentPluginIdx_ ≠ c.pluginSelectionIdx_ then
        match d.resourcesPath with
        | .ok path => (path, c.currentPluginResourcesPathException_)
        | .error ex => ("", ex)
      else c.resourcesView := by
  by_cases hne : c.currentPluginIdx_ = c.pluginSelectionIdx_
  · simp [pluginSwap, hne, Outcome.core]
  · cases hp : c.currentPlugin_ <;> cases hr : d.resourcesPath <;> cases ht : d.createThrows <;>
      simp [pluginSwap, hne, ht, releasePlugin, resolveResourcesPath, Core.emit, hp, hr,
        Outcome.core, Core.resourcesView, applyPluginCalls_path, applyPluginCalls_pathException]

theorem resources_draw (L : Layouts) (d : DrawInput) (c : Core) :
    (draw L d c).core.resourcesView =
      if c.currentPluginIdx_ ≠ (uiPluginCombo d.ui c).pluginSelectionIdx_ then
        match d.resourcesPath with
        | .ok path => (path, c.currentPluginResourcesPathException_)
        | .error ex => ("", ex)
      else c.resourcesView := by
  obtain ⟨hu1, hu2⟩ := swapState_uiPwrOwg L d.ui (uiPluginCombo d.ui c)
  rw [swapState_uiPluginCombo] at hu1
  simp only [Core.swapState, Prod.mk.injEq] at hu1
  have hv : (uiPwrOwg L d.ui (uiPluginCombo d.ui c)).resourcesView = c.resourcesView := by
    rw [resources_uiPwrOwg, resources_uiPluginCombo]
  have hs := resources_pluginSwap d (uiPwrOwg L d.ui (uiPluginCombo d.ui c))
  rw [hu1.2.1, hu2, hv] at hs
  have hex : (uiPwrOwg L d.ui (uiPluginCombo d.ui c)).currentPluginResourcesPathException_
      = c.currentPluginResourcesPathException_ := congrArg Prod.snd hv
  rw [hex] at hs
  unfold draw
  refine andThen_core (fun x => x.resourcesView = _) _ _ hs ?_
  intro c2 h2
  show (renderPlugin d c2).core.resourcesView = _
  rw [resources_renderPlugin, h2]

theorem draw_swap_trace (L : Layouts) (d : DrawInput) (c : Core)
    (hsel : c.currentPluginIdx_ ≠ (uiPluginCombo d.ui c).pluginSelectionIdx_)
    (hcreate : d.createThrows = false) :
    pluginTrace (draw L d c).core.log =
        pluginTrace c.log ++
          (match c.currentPlugin_ with
            | some q => [Event.pluginReleased q]
            | none => []) ++
          [Event.pluginCreated ⟨(uiPluginCombo d.ui c).pluginSelectionIdx_, c.nextSerial⟩,
            Event.pluginResize ⟨(uiPluginCombo d.ui c).pluginSelectionIdx_, c.nextSerial⟩
              c.framebufferWidth_ c.framebufferHeight_,
            Event.pluginRender ⟨(uiPluginCombo d.ui c).pluginSelectionIdx_, c.nextSerial⟩]
      ∧ (draw L d c).core.currentPlugin_
          = some ⟨(uiPluginCombo d.ui c).pluginSelectionIdx_, c.nextSerial⟩ := by
  obtain ⟨hu1, hu2⟩ := swapState_uiPwrOwg L d.ui (uiPluginCombo d.ui c)
  rw [swapState_uiPluginCombo] at hu1
  simp only [Core.swapState, Prod.mk.injEq] at hu1
  obtain ⟨e1, e2, e3, e4, e5, e6⟩ := hu1
  have hne : (uiPwrOwg L d.ui (uiPluginCombo d.ui c)).currentPluginIdx_ ≠
      (uiPwrOwg L d.ui (uiPluginCombo d.ui c)).pluginSelectionIdx_ := by
    rw [e2, hu2]; exact hsel
  obtain ⟨hswap, hcur, hlog⟩ := pluginSwap_effect d _ hne hcreate
  rw [e1, e3, e4, e5, hu2] at hlog
  rw [e5, hu2] at hcur
  generalize (pluginSwap d (uiPwrOwg L d.ui (uiPluginCombo d.ui c))).core = c2
    at hswap hcur hlog
  have hcore : (draw L d c).core = applyPluginCalls d.renderCalls
      (c2.emit (.pluginRender ⟨(uiPluginCombo d.ui c).pluginSelectionIdx_, c.nextSerial⟩)) := by
    unfold draw
    rw [hswap]
    simp only [Outcome.andThen, renderPlugin, hcur]
    split <;> rfl
  rw [hcore]
  refine ⟨?_, by simpa [Core.emit] using hcur⟩
  simp only [applyPluginCalls_log, Core.emit, hlog, pluginTrace, List.filter_append] at e6 ⊢
  rw [e6]
  cases c.currentPlugin_ <;> simp [Event.onPlugin]

/-! ## Lemmas: only the benchmark block starts and stops the sampler -/

theorem sensorKept_step (s : List Event) (c c2 : Core) (e : Event) (h : SensorKept s c)
    (hlog : c2.log = c.log ++ [e]) (he : e.onSensor = false) : SensorKept s c2 := by
  unfold SensorKept sensorTrace at h ⊢
  rw [hlog, List.filter_append, h]
  simp [he]

theorem sensorKept_emit (s : List Event) (c : Core) (e : Event) (h : SensorKept s c)
    (he : e.onSensor = false) : SensorKept s (c.emit e) :=
  sensorKept_step s c _ e h rfl he

theorem sensorKept_applyPluginCalls (s : List Event) (ks : List PluginCall) (c : Core) (h : SensorKept s c) :
    SensorKept s (applyPluginCalls ks c) := by
  rw [applyPluginCalls_eq]
  exact h

theorem sensorKept_pluginComboWidget (s : List Event) (ui : UiInput) (c : Core) (h : SensorKept s c) :
    SensorKept s (pluginComboWidget ui c) := by
  unfold pluginComboWidget
  split <;> exact h

theorem sensorKept_uiPluginCombo (s : List Event) (ui : UiInput) (c : Core) (h : SensorKept s c) :
    SensorKept s (uiPluginCombo ui c) := by
  unfold uiPluginCombo
  split
  · exact sensorKept_pluginComboWidget s ui c h
  · exact h

theorem sensorKept_uiWindowSize (s : List Event) (ui : UiInput) (c : Core) (h : SensorKept s c) :
    SensorKept s (uiWindowSize ui c) := by
  unfold uiWindowSize
  cases ui.windowSize <;> (simp only []; split) <;>
    first
    | exact h
    | exact sensorKept_step s c _ _ h rfl rfl

theorem sensorKept_uiBenchmarkSettings (s : List Event) (ui : UiInput) (c : Core) (h : SensorKept s c) :
    SensorKept s (uiBenchmarkSettings ui c) := by
  unfold uiBenchmarkSettings
  cases ui.frameCapMs <;> cases ui.useFrameCapClicked <;> cases ui.numFrames <;>
    cases ui.outputPath <;> exact h

theorem sensorKept_uiTracePaths (s : List Event) (ui : UiInput) (c : Core) (h : SensorKept s c) :
    SensorKept s (uiTracePaths ui c) := by
  unfold uiTracePaths
  cases ui.camPath <;> cases ui.eyePath <;> exact h

theorem sensorKept_replayCheckbox (s : List Event) (L : Layouts) (c : Core) (h : SensorKept s c) :
    SensorKept s (replayCheckbox L c) := by
  unfold replayCheckbox
  simp only []
  split
  · split
    · split <;> exact h
    · exact h
  · exact h

theorem sensorKept_recordButton (s : List Event) (L : Layouts) (c : Core) (h : SensorKept s c) :
    SensorKept s (recordButton L c) := by
  unfold recordButton
  simp only []
  split <;> exact h

theorem sensorKept_automationWidgets (s : List Event) (L : Layouts) (ui : UiInput) (c : Core) (h : SensorKept s c) :
    SensorKept s (automationWidgets L ui c) := by
  have h1 := sensorKept_uiTracePaths s ui c h
  have h2 : ∀ c, SensorKept s c → SensorKept s (if ui.replayClicked then replayCheckbox L c else c) := by
    intro c hc; split
    · exact sensorKept_replayCheckbox s L c hc
    · exact hc
  have h3 : ∀ c : Core, SensorKept s c →
      SensorKept s (if ui.replayEyesClicked then { c with replay_eyes_ := !c.replay_eyes_ }
        else c) := by
    intro c hc; split <;> exact hc
  have h4 : ∀ c, SensorKept s c → SensorKept s (if ui.recordClicked then recordButton L c else c) := by
    intro c hc; split
    · exact sensorKept_recordButton s L c hc
    · exact hc
  have h5 : ∀ c : Core, SensorKept s c →
      SensorKept s (if ui.recordingClicked then { c with recording_paths_ := !c.recording_paths_ }
        else c) := by
    intro c hc; split <;> exact hc
  unfold automationWidgets
  simp only []
  exact h5 _ (h4 _ (h3 _ (h2 _ h1)))

theorem sensorKept_uiAutomation (s : List Event) (L : Layouts) (ui : UiInput) (c : Core) (h : SensorKept s c) :
    SensorKept s (uiAutomation L ui c) := by
  unfold uiAutomation
  split
  · exact sensorKept_automationWidgets s L ui c h
  · exact h

theorem sensorKept_pwrOwgWidgets (s : List Event) (L : Layouts) (ui : UiInput) (c : Core) (h : SensorKept s c) :
    SensorKept s (pwrOwgWidgets L ui c) := by
  unfold pwrOwgWidgets
  simp only []
  apply sensorKept_uiAutomation s L ui _
  have h1 := sensorKept_uiBenchmarkSettings s ui _ (sensorKept_uiWindowSize s ui c h)
  split
  · exact h1
  · exact h1

theorem sensorKept_uiPwrOwg (s : List Event) (L : Layouts) (ui : UiInput) (c : Core) (h : SensorKept s c) :
    SensorKept s (uiPwrOwg L ui c) := by
  unfold uiPwrOwg
  split
  · exact sensorKept_pwrOwgWidgets s L ui c h
  · exact h

theorem sensorKept_releasePlugin (s : List Event) (d : DrawInput) (c : Core)
    (h : SensorKept s c) : SensorKept s (releasePlugin d c) := by
  unfold releasePlugin
  split
  · rename_i p _
    exact sensorKept_applyPluginCalls s d.releaseCalls (c.emit (.pluginReleased p))
      (sensorKept_step s c _ _ h rfl rfl)
  · exact h

theorem sensorKept_resolveResourcesPath (s : List Event) (d : DrawInput) (c : Core)
    (h : SensorKept s c) : SensorKept s (resolveResourcesPath d c) := by
  unfold resolveResourcesPath
  split <;> exact h

theorem sensorKept_pluginSwap (s : List Event) (d : DrawInput) (c : Core)
    (h : SensorKept s c) : SensorKept s (pluginSwap d c).core := by
  have s1 := sensorKept_resolveResourcesPath s d _
    (sensorKept_releasePlugin s d { c with currentPluginIdx_ := c.pluginSelectionIdx_ } h)
  have key : ∀ c2 : Core, SensorKept s c2 →
      SensorKept s
        (({ applyPluginCalls d.createCalls
              (({ c2 with nextSerial := c2.nextSerial + 1 } : Core).emit
                (.pluginCreated ⟨c2.currentPluginIdx_, c2.nextSerial⟩)) with
            currentPlugin_ := some ⟨c2.currentPluginIdx_, c2.nextSerial⟩ } : Core).emit
          (.pluginResize ⟨c2.currentPluginIdx_, c2.nextSerial⟩
            (applyPluginCalls d.createCalls
              (({ c2 with nextSerial := c2.nextSerial + 1 } : Core).emit
                (.pluginCreated ⟨c2.currentPluginIdx_, c2.nextSerial⟩))).framebufferWidth_
            (applyPluginCalls d.createCalls
              (({ c2 with nextSerial := c2.nextSerial + 1 } : Core).emit
                (.pluginCreated ⟨c2.currentPluginIdx_, c2.nextSerial⟩))).framebufferHeight_)) := by
    intro c2 t1
    have hA := sensorKept_applyPluginCalls s d.createCalls
      (({ c2 with nextSerial := c2.nextSerial + 1 } : Core).emit
        (.pluginCreated ⟨c2.currentPluginIdx_, c2.nextSerial⟩))
      (sensorKept_step s c2 _ _ t1 rfl rfl)
    exact sensorKept_step s _ _ _ hA rfl rfl
  unfold pluginSwap
  split
  · simp only []
    split
    · exact s1
    · exact key _ s1
  · exact h

theorem sensorKept_renderPlugin (s : List Event) (d : DrawInput) (c : Core)
    (h : SensorKept s c) : SensorKept s (renderPlugin d c).core := by
  unfold renderPlugin
  split
  · rename_i p hp
    have := sensorKept_applyPluginCalls s d.renderCalls (c.emit (.pluginRender p))
      (sensorKept_step s c _ _ h rfl rfl)
    simp only []
    split <;> exact this
  · exact h

theorem sensorKept_draw (s : List Event) (L : Layouts) (d : DrawInput) (c : Core) (h : SensorKept s c) :
    SensorKept s (draw L d c).core := by
  unfold draw
  refine andThen_core (SensorKept s) _ _ ?_ ?_
  · exact sensorKept_pluginSwap s d _ (sensorKept_uiPwrOwg s L d.ui _ (sensorKept_uiPluginCombo s d.ui c h))
  · exact fun c1 h1 => sensorKept_renderPlugin s d c1 h1

theorem sensorKept_screenshot (s : List Event) (c : Core) (h : SensorKept s c) : SensorKept s (screenshot c) := by
  unfold screenshot
  split
  · exact h
  · split
    · exact h
    · have h2 : ∀ stem : String, SensorKept s
          (({ c with cfg_ := { c.cfg_ with screenshotFrames := _ } } : Core).emit
            (.savePngImage stem c.frameNumber_ c.framebufferWidth_ c.framebufferHeight_)) :=
        fun stem => sensorKept_step s c _ _ h rfl rfl
      simp only []
      split_ifs <;>
        first
        | exact h2 _
        | exact sensorKept_step s _ _ _ (h2 _) rfl rfl

theorem sensorKept_handleEvent (s : List Event) (L : Layouts) (e : WindowEvent) (c : Core) (h : SensorKept s c) :
    SensorKept s (handleEvent L e c).core := by
  cases e with
  | windowSize w hh => exact h
  | framebufferSize w hh =>
    simp only [handleEvent, Outcome.core]
    unfold framebufferSizeEvent
    simp only []
    split
    · exact sensorKept_step s c _ _ h rfl rfl
    · exact h
  | key k sc a m fm want =>
    simp only [handleEvent, Outcome.core]
    unfold keyEvent
    split
    · exact sensorKept_step s c _ _ h rfl rfl
    · exact h
  | char cp want =>
    simp only [handleEvent, Outcome.core]
    unfold charEvent
    split
    · exact sensorKept_step s c _ _ h rfl rfl
    · exact h
  | mouseButton b a m want =>
    simp only [handleEvent, Outcome.core]
    unfold mouseButtonEvent
    simp only []
    split
    · exact sensorKept_step s c _ _ h rfl rfl
    · exact h
  | mouseMove x y want =>
    simp only [handleEvent, Outcome.core]
    have hcam : ∀ a b, SensorKept s (mouseMoveCamera a b c) := by
      intro a b
      unfold mouseMoveCamera
      split
      · split
        · simp only []
          split <;> exact sensorKept_step s c _ _ h rfl rfl
        · exact h
      · exact h
    unfold mouseMoveEvent
    simp only []
    split
    · exact sensorKept_step s _ _ _ (hcam _ _) rfl rfl
    · exact h
  | mouseScroll x y want anyMod =>
    simp only [handleEvent, Outcome.core]
    have hcam : SensorKept s (mouseScrollCamera x y anyMod c) := by
      unfold mouseScrollCamera
      split
      · exact h
      · split
        · simp only []
          split <;> exact sensorKept_step s c _ _ h rfl rfl
        · exact h
    unfold mouseScrollEvent
    split
    · exact sensorKept_step s _ _ _ hcam rfl rfl
    · exact h
  | refresh d =>
    simp only [handleEvent]
    refine andThen_core (SensorKept s) _ _ ?_ ?_
    · exact sensorKept_draw s L d c h
    · exact fun c1 h1 => sensorKept_step s c1 _ _ h1 rfl rfl

theorem sensorKept_pollEvents (s : List Event) (L : Layouts) :
    ∀ (es : List WindowEvent) (c : Core), SensorKept s c → SensorKept s (pollEvents L es c).core
  | [], c, h => h
  | e :: es, c, h => by
    rw [pollEvents]
    refine andThen_core (SensorKept s) _ _ ?_ ?_
    · exact sensorKept_handleEvent s L e c h
    · exact fun c1 h1 => sensorKept_pollEvents s L es c1 h1

theorem sensorKept_render_frame (s : List Event) (L : Layouts) (inp : FrameInput) (c : Core)
    (h : SensorKept s c) : SensorKept s (render_frame L inp c).core := by
  unfold render_frame
  simp only []
  refine andThen_core (SensorKept s) _ _ ?_ ?_
  · exact sensorKept_draw s L inp.draw _ h
  · exact fun c1 h1 => sensorKept_pollEvents s L inp.events _
      (sensorKept_step s _ _ _ (sensorKept_screenshot s c1 h1) rfl rfl)

theorem sensorKept_replayApply (s : List Event) (i : Nat) (ce : cam_control_entry) (c : Core)
    (h : SensorKept s c) : SensorKept s (replayApply i ce c) := by
  cases hcam : c.camera_ <;> by_cases hg : c.recorded_gaze_points_.isEmpty = true <;>
    simp only [replayApply, hcam, hg, if_true, if_false, Bool.false_eq_true] <;>
    first
    | exact h
    | exact sensorKept_emit s _ _ (sensorKept_emit s _ _ h rfl) rfl

theorem sensorKept_replayLoop (s : List Event) (L : Layouts) :
    ∀ (inputs : List FrameInput) (i : Nat) (c : Core),
      SensorKept s c → SensorKept s (replayLoop L inputs i c).core
  | [], i, c, h => by
    rw [replayLoop]
    split <;> exact h
  | inp :: rest, i, c, h => by
    rw [replayLoop]
    cases hget : c.recorded_entries_.get? i with
    | none => exact h
    | some ce =>
      have hstep := sensorKept_render_frame s L inp (replayApply i ce c)
        (sensorKept_replayApply s i ce c h)
      simp only []
      cases hr : render_frame L inp (replayApply i ce c) with
      | returned c1 =>
        rw [hr] at hstep
        exact sensorKept_replayLoop s L rest (i + 1) c1 hstep
      | threw c1 =>
        rw [hr] at hstep
        exact hstep

theorem sensorKept_framesLoop (s : List Event) (L : Layouts) :
    ∀ (inputs : List FrameInput) (i : Nat) (c : Core),
      SensorKept s c → SensorKept s (framesLoop L inputs i c).core
  | [], i, c, h => by
    rw [framesLoop]
    split <;> exact h
  | inp :: rest, i, c, h => by
    rw [framesLoop]
    split
    · have hstep := sensorKept_render_frame s L inp c h
      cases hr : render_frame L inp c with
      | returned c1 =>
        rw [hr] at hstep
        exact sensorKept_framesLoop s L rest (i + 1) c1 hstep
      | threw c1 =>
        rw [hr] at hstep
        exact hstep
    · exact h

theorem sensorTrace_benchmark (L : Layouts) (inputs : List FrameInput) (c : Core) :
    sensorTrace (benchmark L inputs c).core.log =
      sensorTrace c.log ++ [Event.sensorsStart] ++
        (match (if c.replay_paths_ then replayLoop L inputs 0 (c.emit .sensorsStart)
            else framesLoop L inputs 0 (c.emit .sensorsStart)) with
          | .finished _ _ => [Event.sensorsStop]
          | _ => []) := by
  have hs : SensorKept (sensorTrace c.log ++ [Event.sensorsStart]) (c.emit .sensorsStart) := by
    unfold SensorKept sensorTrace
    simp [Core.emit, List.filter_append, Event.onSensor]
  have hr := sensorKept_replayLoop _ L inputs 0 (c.emit .sensorsStart) hs
  have hf := sensorKept_framesLoop _ L inputs 0 (c.emit .sensorsStart) hs
  unfold benchmark
  by_cases hrp : c.replay_paths_ = true
  · have hrp2 : (c.emit Event.sensorsStart).replay_paths_ = true := hrp
    simp only [hrp2, hrp, if_true]
    cases hres : replayLoop L inputs 0 (c.emit Event.sensorsStart) with
    | finished c2 rest =>
      rw [hres] at hr
      have hr' : sensorTrace c2.log = sensorTrace c.log ++ [Event.sensorsStart] := hr
      simp [LoopResult.core, Core.emit, sensorTrace, List.filter_append, Event.onSensor] at hr' ⊢
      rw [hr']
      simp
    | threw c2 rest =>
      rw [hres] at hr
      have hr' : sensorTrace c2.log = sensorTrace c.log ++ [Event.sensorsStart] := hr
      simp [LoopResult.core, sensorTrace, List.filter_append, Event.onSensor] at hr' ⊢
      rw [hr']
    | starved c2 =>
      rw [hres] at hr
      have hr' : sensorTrace c2.log = sensorTrace c.log ++ [Event.sensorsStart] := hr
      simp [LoopResult.core, sensorTrace, List.filter_append, Event.onSensor] at hr' ⊢
      rw [hr']
  · have hrp2 : ¬ (c.emit Event.sensorsStart).replay_paths_ = true := hrp
    simp only [hrp2, hrp, if_false]
    cases hres : framesLoop L inputs 0 (c.emit Event.sensorsStart) with
    | finished c2 rest =>
      rw [hres] at hf
      have hf' : sensorTrace c2.log = sensorTrace c.log ++ [Event.sensorsStart] := hf
      simp [LoopResult.core, Core.emit, sensorTrace, List.filter_append, Event.onSensor] at hf' ⊢
      rw [hf']
      simp
    | threw c2 rest =>
      rw [hres] at hf
      have hf' : sensorTrace c2.log = sensorTrace c.log ++ [Event.sensorsStart] := hf
      simp [LoopResult.core, sensorTrace, List.filter_append, Event.onSensor] at hf' ⊢
      rw [hf']
    | starved c2 =>
      rw [hres] at hf
      have hf' : sensorTrace c2.log = sensorTrace c.log ++ [Event.sensorsStart] := hf
      simp [LoopResult.core, sensorTrace, List.filter_append, Event.onSensor] at hf' ⊢
      rw [hf']

/-! ## Lemmas: what leaves the recording flag alone -/

theorem recording_applyPluginCalls (ks : List PluginCall) (c : Core) :
    (applyPluginCalls ks c).recording_paths_ = c.recording_paths_ := by
  have h := congrArg Core.recording_paths_ (applyPluginCalls_eq ks c)
  exact h

theorem recording_pluginComboWidget (ui : UiInput) (c : Core) :
    (pluginComboWidget ui c).recording_paths_ = c.recording_paths_ := by
  unfold pluginComboWidget
  split <;> rfl

theorem recording_uiPluginCombo (ui : UiInput) (c : Core) :
    (uiPluginCombo ui c).recording_paths_ = c.recording_paths_ := by
  unfold uiPluginCombo
  split
  · exact recording_pluginComboWidget ui c
  · rfl

theorem recording_uiWindowSize (ui : UiInput) (c : Core) :
    (uiWindowSize ui c).recording_paths_ = c.recording_paths_ := by
  unfold uiWindowSize
  cases ui.windowSize <;> (simp only []; split) <;> rfl

theorem recording_uiBenchmarkSettings (ui : UiInput) (c : Core) :
    (uiBenchmarkSettings ui c).recording_paths_ = c.recording_paths_ := by
  unfold uiBenchmarkSettings
  cases ui.frameCapMs <;> cases ui.useFrameCapClicked <;> cases ui.numFrames <;>
    cases ui.outputPath <;> rfl

theorem recording_uiTracePaths (ui : UiInput) (c : Core) :
    (uiTracePaths ui c).recording_paths_ = c.recording_paths_ := by
  unfold uiTracePaths
  cases ui.camPath <;> cases ui.eyePath <;> rfl

theorem recording_replayCheckbox (L : Layouts) (c : Core) :
    (replayCheckbox L c).recording_paths_ = c.recording_paths_ := by
  unfold replayCheckbox
  simp only []
  split
  · split
    · split <;> rfl
    · rfl
  · rfl

theorem recording_automationWidgets (L : Layouts) (ui : UiInput) (c : Core)
    (h1 : ui.recordClicked = false) (h2 : ui.recordingClicked = false) :
    (automationWidgets L ui c).recording_paths_ = c.recording_paths_ := by
  have g1 := recording_uiTracePaths ui c
  have g2 : ∀ c, (if ui.replayClicked then replayCheckbox L c else c).recording_paths_
      = c.recording_paths_ := by
    intro c; split
    · exact recording_replayCheckbox L c
    · rfl
  have g3 : ∀ c : Core, (if ui.replayEyesClicked then { c with replay_eyes_ := !c.replay_eyes_ }
      else c).recording_paths_ = c.recording_paths_ := by
    intro c; split <;> rfl
  unfold automationWidgets
  simp only [h1, h2, Bool.false_eq_true, if_false]
  rw [g3, g2, g1]

theorem recording_uiAutomation (L : Layouts) (ui : UiInput) (c : Core)
    (h1 : ui.recordClicked = false) (h2 : ui.recordingClicked = false) :
    (uiAutomation L ui c).recording_paths_ = c.recording_paths_ := by
  unfold uiAutomation
  split
  · exact recording_automationWidgets L ui c h1 h2
  · rfl

theorem recording_pwrOwgWidgets (L : Layouts) (ui : UiInput) (c : Core)
    (h1 : ui.recordClicked = false) (h2 : ui.recordingClicked = false) :
    (pwrOwgWidgets L ui c).recording_paths_ = c.recording_paths_ := by
  unfold pwrOwgWidgets
  simp only []
  rw [recording_uiAutomation L ui _ h1 h2]
  split
  · show (uiBenchmarkSettings ui (uiWindowSize ui c)).recording_paths_ = _
    rw [recording_uiBenchmarkSettings, recording_uiWindowSize]
  · rw [recording_uiBenchmarkSettings, recording_uiWindowSize]

theorem recording_uiPwrOwg (L : Layouts) (ui : UiInput) (c : Core)
    (h1 : ui.recordClicked = false) (h2 : ui.recordingClicked = false) :
    (uiPwrOwg L ui c).recording_paths_ = c.recording_paths_ := by
  unfold uiPwrOwg
  split
  · exact recording_pwrOwgWidgets L ui c h1 h2
  · rfl

theorem recording_pluginSwap (d : DrawInput) (c : Core) :
    (pluginSwap d c).core.recording_paths_ = c.recording_paths_ := by
  by_cases hne : c.currentPluginIdx_ = c.pluginSelectionIdx_
  · simp [pluginSwap, hne, Outcome.core]
  · cases hp : c.currentPlugin_ <;> cases hr : d.resourcesPath <;> cases ht : d.createThrows <;>
      simp [pluginSwap, hne, ht, releasePlugin, resolveResourcesPath, Core.emit, hp, hr,
        Outcome.core, recording_applyPluginCalls]

theorem recording_renderPlugin (d : DrawInput) (c : Core) :
    (renderPlugin d c).core.recording_paths_ = c.recording_paths_ := by
  cases hp : c.currentPlugin_ <;> cases ht : d.renderThrows <;>
    simp [renderPlugin, hp, ht, Core.emit, Outcome.core, recording_applyPluginCalls]

theorem recording_draw (L : Layouts) (d : DrawInput) (c : Core) (hd : d.keepsRecording) :
    (draw L d c).core.recording_paths_ = c.recording_paths_ := by
  unfold draw
  refine andThen_core (fun x => x.recording_paths_ = c.recording_paths_) _ _ ?_ ?_
  · show (pluginSwap d _).core.recording_paths_ = _
    rw [recording_pluginSwap, recording_uiPwrOwg L d.ui _ hd.1 hd.2, recording_uiPluginCombo]
  · intro c2 h2
    show (renderPlugin d c2).core.recording_paths_ = _
    rw [recording_renderPlugin, h2]

theorem recording_screenshot (c : Core) :
    (screenshot c).recording_paths_ = c.recording_paths_ := by
  unfold screenshot
  split
  · rfl
  · split
    · rfl
    · simp only []
      split_ifs <;> rfl

theorem recording_handleEvent (L : Layouts) (e : WindowEvent) (c : Core)
    (he : e.keepsRecording) : (handleEvent L e c).core.recording_paths_ = c.recording_paths_ := by
  cases e with
  | windowSize w hh => rfl
  | framebufferSize w hh =>
    simp only [handleEvent, Outcome.core]
    unfold framebufferSizeEvent
    simp only []
    split <;> rfl
  | key k sc a m fm want =>
    simp only [handleEvent, Outcome.core]
    unfold keyEvent
    split <;> rfl
  | char cp want =>
    simp only [handleEvent, Outcome.core]
    unfold charEvent
    split <;> rfl
  | mouseButton b a m want =>
    simp only [handleEvent, Outcome.core]
    unfold mouseButtonEvent
    simp only []
    split <;> rfl
  | mouseMove x y want =>
    simp only [handleEvent, Outcome.core]
    have hcam : ∀ a b, (mouseMoveCamera a b c).recording_paths_ = c.recording_paths_ := by
      intro a b
      unfold mouseMoveCamera
      split
      · split
        · simp only []
          split <;> rfl
        · rfl
      · rfl
    unfold mouseMoveEvent
    simp only []
    split
    · exact hcam _ _
    · rfl
  | mouseScroll x y want anyMod =>
    simp only [handleEvent, Outcome.core]
    have hcam : (mouseScrollCamera x y anyMod c).recording_paths_ = c.recording_paths_ := by
      unfold mouseScrollCamera
      split
      · rfl
      · split
        · simp only []
          split <;> rfl
        · rfl
    unfold mouseScrollEvent
    split
    · exact hcam
    · rfl
  | refresh d =>
    simp only [handleEvent]
    refine andThen_core (fun x => x.recording_paths_ = c.recording_paths_) _ _ ?_ ?_
    · exact recording_draw L d c he
    · intro c2 h2
      exact h2

theorem recording_pollEvents (L : Layouts) : ∀ (es : List WindowEvent) (c : Core),
    (∀ e ∈ es, e.keepsRecording) → (pollEvents L es c).core.recording_paths_ = c.recording_paths_
  | [], c, _ => rfl
  | e :: es, c, hes => by
    rw [pollEvents]
    refine andThen_core (fun x => x.recording_paths_ = c.recording_paths_) _ _ ?_ ?_
    · exact recording_handleEvent L e c (hes e (List.mem_cons_self _ _))
    · intro c2 h2
      show (pollEvents L es c2).core.recording_paths_ = _
      rw [recording_pollEvents L es c2 (fun x hx => hes x (List.mem_cons_of_mem _ hx)), h2]

theorem recording_render_frame (L : Layouts) (inp : FrameInput) (c : Core)
    (h : inp.keepsRecording) : (render_frame L inp c).core.recording_paths_ = c.recording_paths_ := by
  unfold render_frame
  simp only []
  refine andThen_core (fun x => x.recording_paths_ = c.recording_paths_) _ _ ?_ ?_
  · exact recording_draw L inp.draw _ h.1
  · intro c2 h2
    show (pollEvents L inp.events ((screenshot c2).emit .swapBuffers)).core.recording_paths_ = _
    rw [recording_pollEvents L inp.events _ h.2]
    show (screenshot c2).recording_paths_ = _
    rw [recording_screenshot, h2]

theorem recording_replayApply (i : Nat) (ce : cam_control_entry) (c : Core) :
    (replayApply i ce c).recording_paths_ = c.recording_paths_ ∧
      (replayApply i ce c).frameNumber_ = c.frameNumber_ := by
  unfold replayApply
  simp only []
  split <;> split <;> exact ⟨rfl, rfl⟩

/-! ## Lemmas: what leaves the accumulator entry alone -/

theorem accum_applyPluginCalls (ks : List PluginCall) (c : Core) :
    (applyPluginCalls ks c).current_entry_ = c.current_entry_ := by
  have h := congrArg Core.current_entry_ (applyPluginCalls_eq ks c)
  exact h

theorem accum_pluginComboWidget (ui : UiInput) (c : Core) :
    (pluginComboWidget ui c).current_entry_ = c.current_entry_ := by
  unfold pluginComboWidget
  split <;> rfl

theorem accum_uiPluginCombo (ui : UiInput) (c : Core) :
    (uiPluginCombo ui c).current_entry_ = c.current_entry_ := by
  unfold uiPluginCombo
  split
  · exact accum_pluginComboWidget ui c
  · rfl

theorem accum_uiWindowSize (ui : UiInput) (c : Core) :
    (uiWindowSize ui c).current_entry_ = c.current_entry_ := by
  unfold uiWindowSize
  cases ui.windowSize <;> (simp only []; split) <;> rfl

theorem accum_uiBenchmarkSettings (ui : UiInput) (c : Core) :
    (uiBenchmarkSettings ui c).current_entry_ = c.current_entry_ := by
  unfold uiBenchmarkSettings
  cases ui.frameCapMs <;> cases ui.useFrameCapClicked <;> cases ui.numFrames <;>
    cases ui.outputPath <;> rfl

theorem accum_uiTracePaths (ui : UiInput) (c : Core) :
    (uiTracePaths ui c).current_entry_ = c.current_entry_ := by
  unfold uiTracePaths
  cases ui.camPath <;> cases ui.eyePath <;> rfl

theorem accum_replayCheckbox (L : Layouts) (c : Core) :
    (replayCheckbox L c).current_entry_ = c.current_entry_ := by
  unfold replayCheckbox
  simp only []
  split
  · split
    · split <;> rfl
    · rfl
  · rfl

theorem accum_recordButton (L : Layouts) (c : Core) :
    (recordButton L c).current_entry_ = c.current_entry_ := by
  unfold recordButton
  simp only []
  split <;> rfl

theorem accum_automationWidgets (L : Layouts) (ui : UiInput) (c : Core) :
    (automationWidgets L ui c).current_entry_ = c.current_entry_ := by
  have h1 := accum_uiTracePaths ui c
  have h2 : ∀ c, (if ui.replayClicked then replayCheckbox L c else c).current_entry_
      = c.current_entry_ := by
    intro c; split
    · exact accum_replayCheckbox L c
    · rfl
  have h3 : ∀ c : Core, (if ui.replayEyesClicked then { c with replay_eyes_ := !c.replay_eyes_ }
      else c).current_entry_ = c.current_entry_ := by
    intro c; split <;> rfl
  have h4 : ∀ c, (if ui.recordClicked then recordButton L c else c).current_entry_
      = c.current_entry_ := by
    intro c; split
    · exact accum_recordButton L c
    · rfl
  have h5 : ∀ c : Core, (if ui.recordingClicked then { c with recording_paths_ := !c.recording_paths_ }
      else c).current_entry_ = c.current_entry_ := by
    intro c; split <;> rfl
  unfold automationWidgets
  simp only []
  rw [h5, h4, h3, h2, h1]

theorem accum_uiAutomation (L : Layouts) (ui : UiInput) (c : Core) :
    (uiAutomation L ui c).current_entry_ = c.current_entry_ := by
  unfold uiAutomation
  split
  · exact accum_automationWidgets L ui c
  · rfl

theorem accum_pwrOwgWidgets (L : Layouts) (ui : UiInput) (c : Core) :
    (pwrOwgWidgets L ui c).current_entry_ = c.current_entry_ := by
  unfold pwrOwgWidgets
  simp only []
  rw [accum_uiAutomation L ui _]
  split
  · show (uiBenchmarkSettings ui (uiWindowSize ui c)).current_entry_ = _
    rw [accum_uiBenchmarkSettings, accum_uiWindowSize]
  · rw [accum_uiBenchmarkSettings, accum_uiWindowSize]

theorem accum_uiPwrOwg (L : Layouts) (ui : UiInput) (c : Core) :
    (uiPwrOwg L ui c).current_entry_ = c.current_entry_ := by
  unfold uiPwrOwg
  split
  · exact accum_pwrOwgWidgets L ui c
  · rfl

theorem accum_pluginSwap (d : DrawInput) (c : Core) :
    (pluginSwap d c).core.current_entry_ = c.current_entry_ := by
  by_cases hne : c.currentPluginIdx_ = c.pluginSelectionIdx_
  · simp [pluginSwap, hne, Outcome.core]
  · cases hp : c.currentPlugin_ <;> cases hr : d.resourcesPath <;> cases ht : d.createThrows <;>
      simp [pluginSwap, hne, ht, releasePlugin, resolveResourcesPath, Core.emit, hp, hr,
        Outcome.core, accum_applyPluginCalls]

theorem accum_renderPlugin (d : DrawInput) (c : Core) :
    (renderPlugin d c).core.current_entry_ = c.current_entry_ := by
  cases hp : c.currentPlugin_ <;> cases ht : d.renderThrows <;>
    simp [renderPlugin, hp, ht, Core.emit, Outcome.core, accum_applyPluginCalls]

theorem accum_draw (L : Layouts) (d : DrawInput) (c : Core) :
    (draw L d c).core.current_entry_ = c.current_entry_ := by
  unfold draw
  refine andThen_core (fun x => x.current_entry_ = c.current_entry_) _ _ ?_ ?_
  · show (pluginSwap d _).core.current_entry_ = _
    rw [accum_pluginSwap, accum_uiPwrOwg L d.ui _, accum_uiPluginCombo]
  · intro c2 h2
    show (renderPlugin d c2).core.current_entry_ = _
    rw [accum_renderPlugin, h2]

theorem accum_screenshot (c : Core) :
    (screenshot c).current_entry_ = c.current_entry_ := by
  unfold screenshot
  split
  · rfl
  · split
    · rfl
    · simp only []
      split_ifs <;> rfl

theorem accum_handleEvent (L : Layouts) (e : WindowEvent) (c : Core)
    (he : e.noPointer) : (handleEvent L e c).core.current_entry_ = c.current_entry_ := by
  cases e with
  | windowSize w hh => rfl
  | framebufferSize w hh =>
    simp only [handleEvent, Outcome.core]
    unfold framebufferSizeEvent
    simp only []
    split <;> rfl
  | key k sc a m fm want =>
    simp only [handleEvent, Outcome.core]
    unfold keyEvent
    split <;> rfl
  | char cp want =>
    simp only [handleEvent, Outcome.core]
    unfold charEvent
    split <;> rfl
  | mouseButton b a m want =>
    simp only [handleEvent, Outcome.core]
    unfold mouseButtonEvent
    simp only []
    split <;> rfl
  | mouseMove x y want => exact False.elim he
  | mouseScroll x y want anyMod => exact False.elim he
  | refresh d =>
    simp only [handleEvent]
    refine andThen_core (fun x => x.current_entry_ = c.current_entry_) _ _ ?_ ?_
    · exact accum_draw L d c
    · intro c2 h2
      exact h2

theorem accum_pollEvents (L : Layouts) : ∀ (es : List WindowEvent) (c : Core),
    (∀ e ∈ es, e.noPointer) → (pollEvents L es c).core.current_entry_ = c.current_entry_
  | [], c, _ => rfl
  | e :: es, c, hes => by
    rw [pollEvents]
    refine andThen_core (fun x => x.current_entry_ = c.current_entry_) _ _ ?_ ?_
    · exact accum_handleEvent L e c (hes e (List.mem_cons_self _ _))
    · intro c2 h2
      show (pollEvents L es c2).core.current_entry_ = _
      rw [accum_pollEvents L es c2 (fun x hx => hes x (List.mem_cons_of_mem _ hx)), h2]

theorem accum_render_frame (L : Layouts) (inp : FrameInput) (c : Core)
    (h : inp.noPointer) : (render_frame L inp c).core.current_entry_ = c.current_entry_ := by
  unfold render_frame
  simp only []
  refine andThen_core (fun x => x.current_entry_ = c.current_entry_) _ _ ?_ ?_
  · exact accum_draw L inp.draw _
  · intro c2 h2
    show (pollEvents L inp.events ((screenshot c2).emit .swapBuffers)).core.current_entry_ = _
    rw [accum_pollEvents L inp.events _ h]
    show (screenshot c2).current_entry_ = _
    rw [accum_screenshot, h2]

theorem accum_replayApply (i : Nat) (ce : cam_control_entry) (c : Core) :
    (replayApply i ce c).current_entry_ = c.current_entry_ ∧
      (replayApply i ce c).frameNumber_ = c.frameNumber_ := by
  unfold replayApply
  simp only []
  split <;> split <;> exact ⟨rfl, rfl⟩

/-! ## Lemmas: what the loops of `Core::run` keep -/

theorem framesLoop_rest (L : Layouts) :
    ∀ (inputs : List FrameInput) (i : Nat) (c : Core),
      ∀ x ∈ (framesLoop L inputs i c).rest, x ∈ inputs
  | [], i, c => by
    rw [framesLoop]
    split <;> exact fun x hx => hx
  | inp :: rest, i, c => by
    rw [framesLoop]
    split
    · cases hr : render_frame L inp c with
      | returned c1 =>
        exact fun x hx => List.mem_cons_of_mem _ (framesLoop_rest L rest (i + 1) c1 x hx)
      | threw c1 => exact fun x hx => List.mem_cons_of_mem _ hx
    · exact fun x hx => hx

theorem replayLoop_rest (L : Layouts) :
    ∀ (inputs : List FrameInput) (i : Nat) (c : Core),
      ∀ x ∈ (replayLoop L inputs i c).rest, x ∈ inputs
  | [], i, c => by
    rw [replayLoop]
    split <;> exact fun x hx => hx
  | inp :: rest, i, c => by
    rw [replayLoop]
    cases hget : c.recorded_entries_.get? i with
    | none => exact fun x hx => hx
    | some ce =>
      simp only []
      cases hr : render_frame L inp (replayApply i ce c) with
      | returned c1 =>
        exact fun x hx => List.mem_cons_of_mem _ (replayLoop_rest L rest (i + 1) c1 x hx)
      | threw c1 => exact fun x hx => List.mem_cons_of_mem _ hx

theorem benchmark_rest (L : Layouts) (inputs : List FrameInput) (c : Core) :
    ∀ x ∈ (benchmark L inputs c).rest, x ∈ inputs := by
  have hr := replayLoop_rest L inputs 0 (c.emit .sensorsStart)
  have hf := framesLoop_rest L inputs 0 (c.emit .sensorsStart)
  unfold benchmark
  by_cases hrp : c.replay_paths_ = true
  · have hrp2 : (c.emit Event.sensorsStart).replay_paths_ = true := hrp
    simp only [hrp2, if_true]
    cases hres : replayLoop L inputs 0 (c.emit Event.sensorsStart) <;>
      (rw [hres] at hr; exact hr)
  · have hrp2 : ¬ (c.emit Event.sensorsStart).replay_paths_ = true := hrp
    simp only [hrp2, if_false]
    cases hres : framesLoop L inputs 0 (c.emit Event.sensorsStart) <;>
      (rw [hres] at hf; exact hf)

theorem framesLoop_keeps (P : Core → Prop) (Q : FrameInput → Prop) (L : Layouts)
    (hrf : ∀ inp c, Q inp → P c → P (render_frame L inp c).core) :
    ∀ (inputs : List FrameInput) (i : Nat) (c : Core), (∀ inp ∈ inputs, Q inp) → P c →
      P (framesLoop L inputs i c).core
  | [], i, c, _, h => by
    rw [framesLoop]
    split <;> exact h
  | inp :: rest, i, c, hq, h => by
    rw [framesLoop]
    split
    · have hstep := hrf inp c (hq inp (List.mem_cons_self _ _)) h
      cases hr : render_frame L inp c with
      | returned c1 =>
        rw [hr] at hstep
        exact framesLoop_keeps P Q L hrf rest (i + 1) c1
          (fun x hx => hq x (List.mem_cons_of_mem _ hx)) hstep
      | threw c1 =>
        rw [hr] at hstep
        exact hstep
    · exact h

theorem replayLoop_keeps (P : Core → Prop) (Q : FrameInput → Prop) (L : Layouts)
    (hrf : ∀ inp c, Q inp → P c → P (render_frame L inp c).core)
    (hra : ∀ i ce c, P c → P (replayApply i ce c)) :
    ∀ (inputs : List FrameInput) (i : Nat) (c : Core), (∀ inp ∈ inputs, Q inp) → P c →
      P (replayLoop L inputs i c).core
  | [], i, c, _, h => by
    rw [replayLoop]
    split <;> exact h
  | inp :: rest, i, c, hq, h => by
    rw [replayLoop]
    cases hget : c.recorded_entries_.get? i with
    | none => exact h
    | some ce =>
      have hstep := hrf inp (replayApply i ce c) (hq inp (List.mem_cons_self _ _)) (hra i ce c h)
      simp only []
      cases hr : render_frame L inp (replayApply i ce c) with
      | returned c1 =>
        rw [hr] at hstep
        exact replayLoop_keeps P Q L hrf hra rest (i + 1) c1
          (fun x hx => hq x (List.mem_cons_of_mem _ hx)) hstep
      | threw c1 =>
        rw [hr] at hstep
        exact hstep

theorem benchmark_keeps (P : Core → Prop) (Q : FrameInput → Prop) (L : Layouts)
    (hrf : ∀ inp c, Q inp → P c → P (render_frame L inp c).core)
    (hra : ∀ i ce c, P c → P (replayApply i ce c))
    (hbk : ∀ (c : Core) (b1 b2 : Bool) (log : List Event), P c →
      P { c with replay_paths_ := b1, run_benchmark_ := b2, log := log })
    (inputs : List FrameInput) (c : Core) (hq : ∀ inp ∈ inputs, Q inp) (h : P c) :
    P (benchmark L inputs c).core := by
  have h0 : P (c.emit .sensorsStart) :=
    hbk c c.replay_paths_ c.run_benchmark_ (c.log ++ [Event.sensorsStart]) h
  have hr := replayLoop_keeps P Q L hrf hra inputs 0 (c.emit .sensorsStart) hq h0
  have hf := framesLoop_keeps P Q L hrf inputs 0 (c.emit .sensorsStart) hq h0
  unfold benchmark
  by_cases hrp : c.replay_paths_ = true
  · have hrp2 : (c.emit Event.sensorsStart).replay_paths_ = true := hrp
    simp only [hrp2, if_true]
    cases hres : replayLoop L inputs 0 (c.emit Event.sensorsStart) with
    | finished c2 rest =>
      rw [hres] at hr
      exact hbk c2 false false (c2.log ++ [Event.sensorsStop]) hr
    | threw c2 rest =>
      rw [hres] at hr
      exact hbk c2 c2.replay_paths_ false c2.log hr
    | starved c2 =>
      rw [hres] at hr
      exact hr
  · have hrp2 : ¬ (c.emit Event.sensorsStart).replay_paths_ = true := hrp
    simp only [hrp2, if_false]
    cases hres : framesLoop L inputs 0 (c.emit Event.sensorsStart) with
    | finished c2 rest =>
      rw [hres] at hf
      exact hbk c2 c2.replay_paths_ false (c2.log ++ [Event.sensorsStop]) hf
    | threw c2 rest =>
      rw [hres] at hf
      exact hbk c2 c2.replay_paths_ false c2.log hf
    | starved c2 =>
      rw [hres] at hf
      exact hf

theorem mainLoopBody_keeps (P : Core → Prop) (Q : FrameInput → Prop) (L : Layouts)
    (hrf : ∀ inp c, Q inp → P c → P (render_frame L inp c).core)
    (hra : ∀ i ce c, P c → P (replayApply i ce c))
    (hbk : ∀ (c : Core) (b1 b2 : Bool) (log : List Event), P c →
      P { c with replay_paths_ := b1, run_benchmark_ := b2, log := log })
    (inputs : List FrameInput) (c : Core) (hq : ∀ inp ∈ inputs, Q inp)
    (h : P (recordingTick c)) : P (mainLoopBody L inputs c).core := by
  have hb : P (if (recordingTick c).run_benchmark_ then benchmark L inputs (recordingTick c)
        else LoopResult.finished (recordingTick c) inputs).core ∧
      ∀ x ∈ (if (recordingTick c).run_benchmark_ then benchmark L inputs (recordingTick c)
        else LoopResult.finished (recordingTick c) inputs).rest, x ∈ inputs := by
    split
    · exact ⟨benchmark_keeps P Q L hrf hra hbk inputs _ hq h, benchmark_rest L inputs _⟩
    · exact ⟨h, fun x hx => hx⟩
  unfold mainLoopBody
  simp only []
  generalize (if (recordingTick c).run_benchmark_ then benchmark L inputs (recordingTick c)
      else LoopResult.finished (recordingTick c) inputs) = benched at hb
  cases benched with
  | finished c2 rest =>
    cases rest with
    | nil => exact hb.1
    | cons inp rest =>
      have hstep := hrf inp c2 (hq inp (hb.2 inp (List.mem_cons_self _ _))) hb.1
      simp only []
      cases hr : render_frame L inp c2 with
      | returned c3 =>
        rw [hr] at hstep
        exact hstep
      | threw c3 =>
        rw [hr] at hstep
        exact hstep
  | threw c2 rest => exact hb.1
  | starved c2 => exact hb.1

theorem mainLoopBody_recording (L : Layouts) (inputs : List FrameInput) (c : Core)
    (hq : ∀ inp ∈ inputs, inp.keepsTrace ∧ inp.keepsRecording)
    (hrec : c.recording_paths_ = true) :
    (mainLoopBody L inputs c).core.recording_paths_ = true ∧
      (mainLoopBody L inputs c).core.recorded_entries_
        = c.recorded_entries_ ++ [c.current_entry_] := by
  refine mainLoopBody_keeps
    (fun x => x.recording_paths_ = true ∧
      x.recorded_entries_ = c.recorded_entries_ ++ [c.current_entry_])
    (fun inp => inp.keepsTrace ∧ inp.keepsRecording) L ?_ ?_ (fun _ _ _ _ hc => hc)
    inputs c hq ?_
  · intro inp c2 hi hc
    exact ⟨(recording_render_frame L inp c2 hi.2).trans hc.1,
      (entries_render_frame L inp c2 hi.1).trans hc.2⟩
  · intro i ce c2 hc
    exact ⟨(recording_replayApply i ce c2).1.trans hc.1,
      (entries_replayApply i ce c2).1.trans hc.2⟩
  · unfold recordingTick
    rw [if_pos hrec]
    exact ⟨hrec, rfl⟩

theorem gazeLogged_emit (bs : List GazePoint) (c : Core) (e : Event) (h : GazeLogged bs c) :
    GazeLogged bs (c.emit e) := h

theorem keepsRecording_default : ({} : FrameInput).keepsRecording :=
  ⟨⟨rfl, rfl⟩, fun _ h => absurd h (List.not_mem_nil _)⟩

theorem noPointer_default : ({} : FrameInput).noPointer :=
  fun _ h => absurd h (List.not_mem_nil _)

/-! ## Lemmas: the files of a recording and their load -/

theorem recordButton_files (L : Layouts) (c : Core) (f g : Nat)
    (hrec : c.recording_paths_ = true)
    (hcam : c.fs.fileOf c.camera_path_file_ = some f)
    (heye : c.fs.fileOf c.eye_path_file_ = some g)
    (hfiles : f ≠ g) (hwf : f ∉ c.fs.noWrite) (hwg : g ∉ c.fs.noWrite) :
    (recordButton L c).fs.content (recordButton L c).camera_path_file_
        = some (writeRecords L.entry c.recorded_entries_)
      ∧ (recordButton L c).fs.content (recordButton L c).eye_path_file_
        = some (writeRecords L.gaze c.recorded_gaze_points_)
      ∧ (recordButton L c).camera_path_file_ = c.camera_path_file_
      ∧ (recordButton L c).eye_path_file_ = c.eye_path_file_
      ∧ ∀ path, (recordButton L c).fs.canRead path = c.fs.canRead path := by
  have e : recordButton L c =
      { c with
        recording_paths_ := false
        fs := (c.fs.write c.camera_path_file_ (writeRecords L.entry c.recorded_entries_)).write
          c.eye_path_file_ (writeRecords L.gaze c.recorded_gaze_points_) } := by
    unfold recordButton
    simp only [hrec, Bool.not_true, Bool.false_eq_true, if_false]
  rw [e]
  refine ⟨?_, ?_, rfl, rfl, ?_⟩
  · show FileSystem.content _ c.camera_path_file_ = _
    rw [content_write_other _ _ _ _ (fun k hk => by
        rw [fileOf_write] at hk ⊢
        rw [heye] at hk
        rw [hcam]
        intro h
        exact hfiles ((Option.some.inj h).trans (Option.some.inj hk).symm)),
      content_write_same _ _ _ f hcam hwf]
  · show FileSystem.content _ c.eye_path_file_ = _
    exact content_write_same _ _ _ g (by rw [fileOf_write]; exact heye)
      (by rw [noWrite_write]; exact hwg)
  · intro path
    show FileSystem.canRead _ path = _
    rw [canRead_write, canRead_write]

theorem replayCheckbox_overrun (L : Layouts) (c : Core) (camBytes eyeBytes : List UInt8)
    (hcam : c.fs.content c.camera_path_file_ = some camBytes)
    (heye : c.fs.content c.eye_path_file_ = some eyeBytes) :
    (replayCheckbox L c).readOverrun
      = (c.readOverrun || loadOverruns L.entry (c.fs.canRead c.camera_path_file_) camBytes
          || loadOverruns L.gaze (c.fs.canRead c.eye_path_file_) eyeBytes) := by
  unfold replayCheckbox
  simp only [hcam, heye]
  split <;> rfl

theorem replayCheckbox_mismatch (L : Layouts) (c : Core) (camBytes eyeBytes : List UInt8)
    (hcam : c.fs.content c.camera_path_file_ = some camBytes)
    (heye : c.fs.content c.eye_path_file_ = some eyeBytes)
    (hcount : eyeBytes.length / L.gaze.size ≠ camBytes.length / L.entry.size) :
    (replayCheckbox L c).recorded_gaze_points_ = []
      ∧ (replayCheckbox L c).current_gaze_point_ = defaultGazePoint
      ∧ (replayCheckbox L c).replay_paths_ = (!c.replay_paths_)
      ∧ ∀ (c2 : Core) (inputs : List FrameInput),
          c2.recorded_gaze_points_ = (replayCheckbox L c).recorded_gaze_points_ →
          c2.current_gaze_point_ = (replayCheckbox L c).current_gaze_point_ →
          (∀ inp ∈ inputs, inp.keepsGaze) →
          (runFrames L inputs c2).core.current_gaze_point_ = defaultGazePoint
            ∧ (∀ i, (replayLoop L inputs i c2).core.current_gaze_point_ = defaultGazePoint)
            ∧ (benchmark L inputs c2).core.current_gaze_point_ = defaultGazePoint := by
  have hload : (replayCheckbox L c).recorded_gaze_points_ = []
      ∧ (replayCheckbox L c).current_gaze_point_ = defaultGazePoint
      ∧ (replayCheckbox L c).replay_paths_ = (!c.replay_paths_) := by
    unfold replayCheckbox
    simp only [hcam, heye, loadRecords_length]
    rw [if_pos hcount]
    exact ⟨rfl, rfl, rfl⟩
  obtain ⟨l1, l2, l3⟩ := hload
  refine ⟨l1, l2, l3, ?_⟩
  intro c2 inputs hg hc hq
  rw [l1] at hg
  rw [l2] at hc
  have hidle : GazeIdle defaultGazePoint c2 := ⟨hg, hc⟩
  exact ⟨(gazeIdle_runFrames _ L inputs c2 hq hidle).2,
    fun i => (gazeIdle_replayLoop _ L inputs i c2 hq hidle).2,
    (gazeIdle_benchmark _ L inputs c2 hq hidle).2⟩

/-! ## Theorems -/

/-- C1. The screenshot queue held after construction is strictly ascending, has no duplicates,
has no value below 1, and holds exactly the values of the configured list that are at least 1;
the list 5, 3, 3, 1 becomes 1, 3, 5. -/
theorem C1_screenshot_queue_normalized (env : Startup) (cfg : Config) (c : Core)
    (h : Core.construct env cfg = .ok c) :
    List.Sorted (· < ·) c.cfg_.screenshotFrames
      ∧ c.cfg_.screenshotFrames.Nodup
      ∧ (∀ x ∈ c.cfg_.screenshotFrames, 1 ≤ x)
      ∧ (∀ x, x ∈ c.cfg_.screenshotFrames ↔ (x ∈ cfg.screenshotFrames ∧ 1 ≤ x))
      ∧ normalizeScreenshotFrames [5, 3, 3, 1] = [1, 3, 5] := by
  rw [construct_screenshotFrames env cfg c h]
  have hs := normalizeScreenshotFrames_sorted cfg.screenshotFrames
  refine ⟨hs, ?_, ?_, ?_, by decide⟩
  · exact hs.nodup
  · intro x hx
    exact ((mem_normalizeScreenshotFrames _ _).mp hx).2
  · exact mem_normalizeScreenshotFrames _

/-- C1, instance: constructing with the frame list 5, 3, 3, 1 succeeds. -/
theorem C1_screenshot_queue_normalized_witness :
    List.Sorted (· < ·) [1, 3, 5] ∧ [1, 3, 5].Nodup ∧ (∀ x ∈ [1, 3, 5], 1 ≤ x)
      ∧ (∀ x, x ∈ [1, 3, 5] ↔ (x ∈ [5, 3, 3, 1] ∧ 1 ≤ x))
      ∧ normalizeScreenshotFrames [5, 3, 3, 1] = [1, 3, 5] :=
  C1_screenshot_queue_normalized {} { screenshotFrames := [5, 3, 3, 1] }
    { cfg_ := { screenshotFrames := [1, 3, 5] }
      windowWidth_ := 1280, windowHeight_ := 800
      framebufferWidth_ := 1280, framebufferHeight_ := 800 }
    rfl

/-- C2. From frame number 0 with a normalised queue `Q` (strictly ascending, all at least 1,
all `uint32`), after the frame loop has run `N` ticks the captured frame numbers are exactly
the members of `Q` up to `N`, each once and in order; and one more tick captures frame `N + 1`
if and only if `N + 1` is in `Q`. -/
theorem C2_captures_exactly_queue (L : Layouts) (Q : List Nat)
    (hQ : List.Sorted (· < ·) Q) (hpos : ∀ q ∈ Q, 1 ≤ q) (h32 : ∀ q ∈ Q, q < 2 ^ 32)
    (c0 : Core) (hfn : c0.frameNumber_ = 0) (hq : c0.cfg_.screenshotFrames = Q)
    (inputs : List FrameInput) (c : Core) (hrun : runFrames L inputs c0 = .returned c) :
    capturedFrames c.log = capturedFrames c0.log ++ Q.filter (· ≤ inputs.length)
      ∧ (Q.filter (· ≤ inputs.length)).Nodup
      ∧ (∀ x ∈ Q.filter (· ≤ inputs.length), x ∈ Q)
      ∧ (∀ (inp : FrameInput) (c1 : Core), render_frame L inp c = .returned c1 →
          capturedFrames c1.log =
            capturedFrames c.log ++ (if inputs.length + 1 ∈ Q then [inputs.length + 1] else [])) := by
  have hinv0 := shotInv_init Q hpos c0 hfn hq
  have hinv : ShotInv Q (shots c0.log) inputs.length c := by
    have := (shotInv_runFrames L Q (shots c0.log) hQ h32 inputs 0 c0 c hinv0 hrun).1
    simpa using this
  have key : ∀ (t : Nat) (c : Core), ShotInv Q (shots c0.log) t c →
      capturedFrames c.log = capturedFrames c0.log ++ Q.filter (· ≤ t) := by
    intro t c hinv
    unfold capturedFrames
    rw [shotInv_done Q _ t c hinv]
    apply capturedFrames_append_captures
    split
    · exact Or.inr rfl
    · exact Or.inl rfl
  refine ⟨key _ _ hinv, ?_, ?_, ?_⟩
  · exact (hQ.nodup).sublist (List.filter_sublist _)
  · intro x hx
    exact (List.mem_filter.mp hx).1
  · intro inp c1 hstep
    have hinv1 := (shotInv_step L Q (shots c0.log) hQ h32 inputs.length c c1 inp hinv hstep).1
    rw [key _ _ hinv1, key _ _ hinv, filter_le_succ_of_sorted Q inputs.length hQ,
      List.append_assoc]

/-- C2, instance: with the queue 1, 3, 5, six quiet frames capture frames 1, 3 and 5. -/
theorem C2_captures_exactly_queue_witness :
    capturedFrames (runFrames sampleLayouts sampleQuietFrames sampleShotCore).core.log
      = [] ++ [1, 3, 5] :=
  (C2_captures_exactly_queue sampleLayouts [1, 3, 5] (by decide) (by decide) (by decide)
    sampleShotCore rfl rfl sampleQuietFrames
    (runFrames sampleLayouts sampleQuietFrames sampleShotCore).core rfl).1

/-- C3. From frame number 0 with a normalised queue `Q`, after `N` ticks: with `autoQuit` set
and `Q` not empty the close request has been made exactly once, directly after the capture of
the largest frame number, as soon as that frame has been reached, and not before; without
`autoQuit`, or with an empty queue, no close request is made. -/
theorem C3_close_after_last_capture (L : Layouts) (Q : List Nat)
    (hQ : List.Sorted (· < ·) Q) (hpos : ∀ q ∈ Q, 1 ≤ q) (h32 : ∀ q ∈ Q, q < 2 ^ 32)
    (c0 : Core) (hfn : c0.frameNumber_ = 0) (hq : c0.cfg_.screenshotFrames = Q)
    (inputs : List FrameInput) (c : Core) (hrun : runFrames L inputs c0 = .returned c) :
    (c0.cfg_.autoQuit = true → Q ≠ [] → (∀ q ∈ Q, q ≤ inputs.length) →
        shots c.log = shots c0.log ++ Q.map ShotEvent.capture ++ [ShotEvent.close])
      ∧ (c0.cfg_.autoQuit = true → Q ≠ [] → ¬ (∀ q ∈ Q, q ≤ inputs.length) →
        shots c.log = shots c0.log ++ (Q.filter (· ≤ inputs.length)).map ShotEvent.capture)
      ∧ (c0.cfg_.autoQuit = false ∨ Q = [] →
        shots c.log = shots c0.log ++ (Q.filter (· ≤ inputs.length)).map ShotEvent.capture) := by
  have hinv0 := shotInv_init Q hpos c0 hfn hq
  obtain ⟨hinv, haq⟩ := shotInv_runFrames L Q (shots c0.log) hQ h32 inputs 0 c0 c hinv0 hrun
  rw [Nat.zero_add] at hinv
  have hdone := shotInv_done Q _ _ c hinv
  rw [haq] at hdone
  refine ⟨?_, ?_, ?_⟩
  · intro h1 h2 h3
    rw [hdone, if_pos ⟨h1, h2, h3⟩]
    have : Q.filter (· ≤ inputs.length) = Q := by
      rw [List.filter_eq_self]; intro x hx; simpa using h3 x hx
    rw [this]
  · intro h1 h2 h3
    rw [hdone, if_neg (fun h => h3 h.2.2), List.append_nil]
  · intro h
    rw [hdone, if_neg, List.append_nil]
    rintro ⟨h1, h2, _⟩
    rcases h with h | h
    · rw [h1] at h; cases h
    · exact h2 h

/-- C3, instance: with the queue 1, 3, 5 and `autoQuit`, six quiet frames make the captures
1, 3, 5 and then one close request. -/
theorem C3_close_after_last_capture_witness :
    shots (runFrames sampleLayouts sampleQuietFrames sampleShotCore).core.log
      = shots sampleShotCore.log ++ [1, 3, 5].map ShotEvent.capture ++ [ShotEvent.close] :=
  (C3_close_after_last_capture sampleLayouts [1, 3, 5] (by decide) (by decide) (by decide)
    sampleShotCore rfl rfl sampleQuietFrames
    (runFrames sampleLayouts sampleQuietFrames sampleShotCore).core rfl).1 rfl (by decide)
    (by decide)

/-- C4. After `mouseButtonEvent`, whatever the mode was before: a press of Left, Middle or
Right with no modifier bit set leaves the mode Left, Middle or Right; a press with a modifier
bit set leaves None; a release leaves None; and two hosts handling the same event end in the
same mode. -/
theorem C4_mouse_button_sets_mode (c c2 : Core) (want want2 : Bool) (b : MouseButton)
    (a : MouseButtonAction) (m : Mods) (n : Nat) :
    (mouseButtonEvent .Left .Press ⟨0⟩ want c).cameraControlMode_ = MouseControlMode.Left
      ∧ (mouseButtonEvent .Middle .Press ⟨0⟩ want c).cameraControlMode_ = MouseControlMode.Middle
      ∧ (mouseButtonEvent .Right .Press ⟨0⟩ want c).cameraControlMode_ = MouseControlMode.Right
      ∧ (mouseButtonEvent b .Press ⟨n + 1⟩ want c).cameraControlMode_ = MouseControlMode.None
      ∧ (mouseButtonEvent b .Release m want c).cameraControlMode_ = MouseControlMode.None
      ∧ (mouseButtonEvent b a m want c).cameraControlMode_
          = (mouseButtonEvent b a m want2 c2).cameraControlMode_ := by
  simp only [mouseButtonEvent_mode]
  refine ⟨rfl, rfl, rfl, ?_, ?_, trivial⟩
  · simp [cameraControlModeFor, Mods.none]
  · simp [cameraControlModeFor]

/-- C5. In a `draw` tick where, after the plugin combo box has been read, the selected index
differs from the loaded one (and the factory returns an object), the calls made on plugins in
that tick are, in this order: the release of the previous object (if there is one), the
creation of the new object, one `resize` of the new object with the cached framebuffer width
and height, and `render` of the new object; the new object is then the current plugin.
Moreover, whatever arrives from outside: a freshly constructed host satisfies, and every `draw`,
every frame tick, every benchmark block and every pass through the main loop body keeps, that
each `render` in the log comes after a `resize` of the same object and that the last `resize`
the current plugin received carried the cached framebuffer size. -/
theorem C5_plugin_swap_call_order (L : Layouts) (d : DrawInput) (c : Core)
    (hsel : c.currentPluginIdx_ ≠ (uiPluginCombo d.ui c).pluginSelectionIdx_)
    (hcreate : d.createThrows = false) :
    pluginTrace (draw L d c).core.log =
        pluginTrace c.log ++
          (match c.currentPlugin_ with
            | some q => [Event.pluginReleased q]
            | none => []) ++
          [Event.pluginCreated ⟨(uiPluginCombo d.ui c).pluginSelectionIdx_, c.nextSerial⟩,
            Event.pluginResize ⟨(uiPluginCombo d.ui c).pluginSelectionIdx_, c.nextSerial⟩
              c.framebufferWidth_ c.framebufferHeight_,
            Event.pluginRender ⟨(uiPluginCombo d.ui c).pluginSelectionIdx_, c.nextSerial⟩]
      ∧ (draw L d c).core.currentPlugin_
          = some ⟨(uiPluginCombo d.ui c).pluginSelectionIdx_, c.nextSerial⟩
      ∧ (ResizedInv c → ResizedInv (draw L d c).core)
      ∧ (∀ (env : Startup) (cfg : Config) (c0 : Core),
          Core.construct env cfg = .ok c0 → ResizedInv c0)
      ∧ (∀ (c1 : Core) (inputs : List FrameInput), ResizedInv c1 →
          ResizedInv (runFrames L inputs c1).core
            ∧ ResizedInv (benchmark L inputs c1).core
            ∧ ResizedInv (mainLoopBody L inputs c1).core) := by
  obtain ⟨hu1, hu2⟩ := swapState_uiPwrOwg L d.ui (uiPluginCombo d.ui c)
  rw [swapState_uiPluginCombo] at hu1
  simp only [Core.swapState, Prod.mk.injEq] at hu1
  obtain ⟨e1, e2, e3, e4, e5, e6⟩ := hu1
  have hne : (uiPwrOwg L d.ui (uiPluginCombo d.ui c)).currentPluginIdx_ ≠
      (uiPwrOwg L d.ui (uiPluginCombo d.ui c)).pluginSelectionIdx_ := by
    rw [e2, hu2]; exact hsel
  obtain ⟨hswap, hcur, hlog⟩ := pluginSwap_effect d _ hne hcreate
  rw [e1, e3, e4, e5, hu2] at hlog
  rw [e5, hu2] at hcur
  refine ⟨?_, ?_, resizedInv_draw L d c, resizedInv_construct,
    fun c1 inputs h1 => ⟨resizedInv_runFrames L inputs c1 h1, resizedInv_benchmark L inputs c1 h1,
      resizedInv_mainLoopBody L inputs c1 h1⟩⟩
  all_goals
    generalize (pluginSwap d (uiPwrOwg L d.ui (uiPluginCombo d.ui c))).core = c2
      at hswap hcur hlog
    have hcore : (draw L d c).core = applyPluginCalls d.renderCalls
        (c2.emit (.pluginRender ⟨(uiPluginCombo d.ui c).pluginSelectionIdx_, c.nextSerial⟩)) := by
      unfold draw
      rw [hswap]
      simp only [Outcome.andThen, renderPlugin, hcur]
      split <;> rfl
    rw [hcore]
  · simp only [applyPluginCalls_log, Core.emit, hlog, pluginTrace, List.filter_append] at e6 ⊢
    rw [e6]
    cases c.currentPlugin_ <;> simp [Event.onPlugin]
  · simpa [Core.emit] using hcur

/-- C5, instance: the first `draw` of a fresh host loads plugin 0, resizes it, renders it; and
after six frame ticks of a freshly constructed host every `render` in the log comes after a
`resize` of the same object. -/
theorem C5_plugin_swap_call_order_witness :
    (pluginTrace (draw sampleLayouts {} {}).core.log =
        [] ++ [] ++
          [Event.pluginCreated ⟨0, 0⟩, Event.pluginResize ⟨0, 0⟩ (-1) (-1),
            Event.pluginRender ⟨0, 0⟩]
      ∧ (draw sampleLayouts {} {}).core.currentPlugin_ = some ⟨0, 0⟩)
      ∧ RenderedAfterResize (runFrames sampleLayouts sampleQuietFrames sampleFreshCore).core.log :=
  have h := C5_plugin_swap_call_order sampleLayouts {} {} (by decide) rfl
  ⟨⟨h.1, h.2.1⟩,
    ((h.2.2.2.2 sampleFreshCore sampleQuietFrames (h.2.2.2.1 {} {} sampleFreshCore rfl)).1).1⟩

/-- C6, the claim as stated fails when the two path fields lead to the same file, even under
two different spellings: the gaze trace is written last and replaces the camera trace. A
recording of one entry and no gaze point, ended by a click on "Record", leaves a file of 0 bytes
where the claim promises 1 times 7 bytes, and a click on "Replay" then loads no entry where the
claim promises the recorded one. The file can be written and read, and the object
representation used has a fixed size and copies the recorded entry back unchanged. -/
theorem C6_same_path_counterexample :
    sampleAliasCore.recording_paths_ = true
      ∧ sampleAliasCore.camera_path_file_ ≠ sampleAliasCore.eye_path_file_
      ∧ sampleAliasCore.fs.fileOf sampleAliasCore.camera_path_file_ = some 0
      ∧ sampleAliasCore.fs.fileOf sampleAliasCore.eye_path_file_ = some 0
      ∧ sampleAliasCore.fs.noWrite = [] ∧ sampleAliasCore.fs.noRead = []
      ∧ (∀ e, (sampleLayouts.entry.toBytes e).length = sampleLayouts.entry.size)
      ∧ (recordButton sampleLayouts sampleAliasCore).fs.content sampleAliasCore.camera_path_file_
          = some []
      ∧ ([] : List UInt8).length
          ≠ sampleAliasCore.recorded_entries_.length * sampleLayouts.entry.size
      ∧ (replayCheckbox sampleLayouts (recordButton sampleLayouts sampleAliasCore)).recorded_entries_
          ≠ sampleAliasCore.recorded_entries_ := by
  refine ⟨rfl, by decide, rfl, rfl, rfl, rfl, fun _ => rfl, ?_, ?_, ?_⟩
  · decide
  · decide
  · rw [replayCheckbox_entries sampleLayouts _ [] (by decide)]
    simp [sampleAliasCore, loadRecords, readRecords]

/-- C6, amended. When the camera-trace path and the gaze-trace path lead to two different files,
both of which can be opened for writing, and the camera-trace file can be opened for reading,
a click on "Record" that ends a recording leaves at the camera-trace path a file of exactly
record count times record size bytes, and a click on "Replay" right after it loads a trace
equal to the recorded one, entry by entry, without reading past the end of a vector. The same
holds for any later click on "Replay" that finds this file, readable, at the camera-trace path.
The object representations have a fixed size and copy back the recorded entries unchanged. -/
theorem C6_trace_round_trip (L : Layouts) (c : Core) (f g : Nat)
    (hsize : 0 < L.entry.size)
    (hlen : ∀ e, (L.entry.toBytes e).length = L.entry.size)
    (hlenGaze : ∀ p, (L.gaze.toBytes p).length = L.gaze.size)
    (hcopy : ∀ e ∈ c.recorded_entries_, L.entry.ofBytes (L.entry.toBytes e) = e)
    (hrec : c.recording_paths_ = true)
    (hcam : c.fs.fileOf c.camera_path_file_ = some f)
    (heye : c.fs.fileOf c.eye_path_file_ = some g)
    (hfiles : f ≠ g)
    (hwf : f ∉ c.fs.noWrite) (hwg : g ∉ c.fs.noWrite) (hrf : f ∉ c.fs.noRead) :
    (recordButton L c).fs.content c.camera_path_file_
        = some (writeRecords L.entry c.recorded_entries_)
      ∧ (writeRecords L.entry c.recorded_entries_).length
          = c.recorded_entries_.length * L.entry.size
      ∧ (replayCheckbox L (recordButton L c)).recorded_entries_ = c.recorded_entries_
      ∧ (replayCheckbox L (recordButton L c)).readOverrun = c.readOverrun
      ∧ ∀ c2 : Core,
          c2.fs.content c2.camera_path_file_ = some (writeRecords L.entry c.recorded_entries_) →
          c2.fs.canRead c2.camera_path_file_ = true →
          (replayCheckbox L c2).recorded_entries_ = c.recorded_entries_ := by
  have hl := writeRecords_length L.entry hlen c.recorded_entries_
  have hlg := writeRecords_length L.gaze hlenGaze c.recorded_gaze_points_
  have hload : ∀ opened : Bool, opened = true →
      loadRecords L.entry opened (writeRecords L.entry c.recorded_entries_)
        = c.recorded_entries_ := by
    intro opened ho
    unfold loadRecords
    rw [if_pos ho, hl, Nat.mul_div_cancel _ hsize]
    have := readRecords_writeRecords L.entry hlen c.recorded_entries_ [] hcopy
    rwa [List.append_nil] at this
  obtain ⟨k1, k2, k3, k4, k5⟩ := recordButton_files L c f g hrec hcam heye hfiles hwf hwg
  have hcr : (recordButton L c).fs.canRead (recordButton L c).camera_path_file_ = true := by
    rw [k3, k5]
    unfold FileSystem.canRead
    rw [hcam]
    simpa using hrf
  refine ⟨?_, hl, ?_, ?_, ?_⟩
  · rw [← k3]
    exact k1
  · rw [replayCheckbox_entries L _ _ k1]
    exact hload _ hcr
  · rw [replayCheckbox_overrun L _ _ _ k1 k2]
    have e1 : loadOverruns L.entry ((recordButton L c).fs.canRead (recordButton L c).camera_path_file_)
        (writeRecords L.entry c.recorded_entries_) = false := by
      simp [loadOverruns, hl]
    have e2 : loadOverruns L.gaze ((recordButton L c).fs.canRead (recordButton L c).eye_path_file_)
        (writeRecords L.gaze c.recorded_gaze_points_) = false := by
      simp [loadOverruns, hlg]
    rw [e1, e2]
    simp only [Bool.or_false]
    unfold recordButton
    simp only [hrec, Bool.not_true, Bool.false_eq_true, if_false]
  · intro c2 h2 h3
    rw [replayCheckbox_entries L c2 _ h2]
    exact hload _ h3

/-- C6, instance: two recorded entries are written to "./cam.path" and read back. -/
theorem C6_trace_round_trip_witness :
    (recordButton sampleLayouts sampleRecordingCore).fs.content "./cam.path"
        = some (writeRecords sampleEntryLayout sampleRecordingCore.recorded_entries_)
      ∧ (writeRecords sampleEntryLayout sampleRecordingCore.recorded_entries_).length = 2 * 7
      ∧ (replayCheckbox sampleLayouts
          (recordButton sampleLayouts sampleRecordingCore)).recorded_entries_
          = sampleRecordingCore.recorded_entries_ :=
  have h := C6_trace_round_trip sampleLayouts sampleRecordingCore 0 1 (by decide) (fun _ => rfl)
    (fun _ => rfl) sampleRecording_copies rfl rfl rfl (by decide) (by decide) (by decide)
    (by decide)
  ⟨h.1, h.2.1, h.2.2.1⟩

/-- C8, the code at a failing input: the camera-trace file holds one whole record and the
gaze-trace file holds one byte, half a record, so the record counts 1 and 0 differ. The click
on "Replay" resizes the gaze vector to 0 elements and then reads the whole file into it, past
its end, before the counts are compared. For gaze-trace files that hold whole records the claim
holds: on a count mismatch nothing is read past the end, the gaze stream is left empty and the
current gaze point is (0.5, 0.5), and it is still (0.5, 0.5) after any number of frame ticks,
at every point of a replay loop and after the benchmark block, as long as "Replay" is not
clicked again and plugin code pushes no gaze point. -/
theorem C8_gaze_read_overrun :
    sampleShortGazeCore.fs.content sampleShortGazeCore.camera_path_file_
        = some [1, 0, 0, 1, 2, 0, 0]
      ∧ sampleShortGazeCore.fs.content sampleShortGazeCore.eye_path_file_ = some [9]
      ∧ [1, 0, 0, 1, 2, 0, 0].length / sampleLayouts.entry.size = 1
      ∧ [9].length / sampleLayouts.gaze.size = 0
      ∧ sampleShortGazeCore.readOverrun = false
      ∧ (replayCheckbox sampleLayouts sampleShortGazeCore).readOverrun = true
      ∧ (∀ (L : Layouts) (c : Core) (camBytes eyeBytes : List UInt8),
          c.fs.content c.camera_path_file_ = some camBytes →
          c.fs.content c.eye_path_file_ = some eyeBytes →
          eyeBytes.length / L.gaze.size ≠ camBytes.length / L.entry.size →
          ((replayCheckbox L c).readOverrun
              = (c.readOverrun
                  || loadOverruns L.entry (c.fs.canRead c.camera_path_file_) camBytes
                  || loadOverruns L.gaze (c.fs.canRead c.eye_path_file_) eyeBytes))
            ∧ (camBytes.length % L.entry.size = 0 → eyeBytes.length % L.gaze.size = 0 →
                (replayCheckbox L c).readOverrun = c.readOverrun)
            ∧ (replayCheckbox L c).recorded_gaze_points_ = []
            ∧ (replayCheckbox L c).current_gaze_point_ = defaultGazePoint
            ∧ (replayCheckbox L c).replay_paths_ = (!c.replay_paths_)
            ∧ ∀ (c2 : Core) (inputs : List FrameInput),
                c2.recorded_gaze_points_ = (replayCheckbox L c).recorded_gaze_points_ →
                c2.current_gaze_point_ = (replayCheckbox L c).current_gaze_point_ →
                (∀ inp ∈ inputs, inp.keepsGaze) →
                (runFrames L inputs c2).core.current_gaze_point_ = defaultGazePoint
                  ∧ (∀ i, (replayLoop L inputs i c2).core.current_gaze_point_ = defaultGazePoint)
                  ∧ (benchmark L inputs c2).core.current_gaze_point_ = defaultGazePoint)
      ∧ ((replayCheckbox sampleLayouts
            (recordButton sampleLayouts sampleRecordingCore)).recorded_gaze_points_ = []
          ∧ (replayCheckbox sampleLayouts
            (recordButton sampleLayouts sampleRecordingCore)).current_gaze_point_
              = defaultGazePoint
          ∧ (replayCheckbox sampleLayouts
            (recordButton sampleLayouts sampleRecordingCore)).readOverrun = false) := by
  have hc : sampleShortGazeCore.fs.content sampleShortGazeCore.camera_path_file_
      = some [1, 0, 0, 1, 2, 0, 0] := by decide
  have he : sampleShortGazeCore.fs.content sampleShortGazeCore.eye_path_file_ = some [9] := by
    decide
  refine ⟨hc, he, by decide, by decide, rfl, ?_, ?_, ?_⟩
  · rw [replayCheckbox_overrun sampleLayouts _ _ _ hc he]
    decide
  · intro L c camBytes eyeBytes hcam heye hcount
    have hm := replayCheckbox_mismatch L c camBytes eyeBytes hcam heye hcount
    refine ⟨replayCheckbox_overrun L c camBytes eyeBytes hcam heye, ?_, hm⟩
    intro h1 h2
    rw [replayCheckbox_overrun L c camBytes eyeBytes hcam heye]
    simp [loadOverruns, h1, h2]
  · have h1 : (recordButton sampleLayouts sampleRecordingCore).fs.content
        (recordButton sampleLayouts sampleRecordingCore).camera_path_file_
          = some (writeRecords sampleEntryLayout sampleRecordingCore.recorded_entries_) := by
      decide
    have h2 : (recordButton sampleLayouts sampleRecordingCore).fs.content
        (recordButton sampleLayouts sampleRecordingCore).eye_path_file_
          = some (writeRecords sampleGazeLayout sampleRecordingCore.recorded_gaze_points_) := by
      decide
    have hm := replayCheckbox_mismatch sampleLayouts _ _ _ h1 h2 (by decide)
    refine ⟨hm.1, hm.2.1, ?_⟩
    rw [replayCheckbox_overrun sampleLayouts _ _ _ h1 h2]
    decide

/-- C9, the code at a failing input: the camera-trace file exists, no gaze-trace file exists,
and the current gaze point is (0.25, 0.75); after the click on "Replay" the replay flag is on
and the gaze stream is empty, but the current gaze point is still (0.25, 0.75), not
(0.5, 0.5). -/
theorem C9_stale_gaze_point_kept :
    sampleStaleGazeCore.fs.content sampleStaleGazeCore.camera_path_file_ = some []
      ∧ sampleStaleGazeCore.fs.content sampleStaleGazeCore.eye_path_file_ = none
      ∧ (replayCheckbox sampleLayouts sampleStaleGazeCore).replay_paths_ = true
      ∧ (replayCheckbox sampleLayouts sampleStaleGazeCore).recorded_gaze_points_ = []
      ∧ (replayCheckbox sampleLayouts sampleStaleGazeCore).current_gaze_point_ = (1 / 4, 3 / 4)
      ∧ (replayCheckbox sampleLayouts sampleStaleGazeCore).current_gaze_point_ ≠ defaultGazePoint := by
  have hcam : sampleStaleGazeCore.fs.content sampleStaleGazeCore.camera_path_file_ = some [] := by
    decide
  have heye : sampleStaleGazeCore.fs.content sampleStaleGazeCore.eye_path_file_ = none := by
    decide
  obtain ⟨h1, h2, h3⟩ := replayCheckbox_no_eye_file sampleLayouts sampleStaleGazeCore [] hcam heye
  refine ⟨hcam, heye, h3, h1, h2, ?_⟩
  rw [h2]
  simp only [sampleStaleGazeCore, defaultGazePoint, ne_eq, Prod.mk.injEq, not_and]
  norm_num

/-- C10. A click on "Replay" that finds no camera-trace file leaves the replay flag false and
the current gaze point (0.5, 0.5), and leaves the camera trace and the gaze stream in memory
as they were. -/
theorem C10_replay_refused (L : Layouts) (c : Core)
    (hcam : c.fs.content c.camera_path_file_ = none) :
    (replayCheckbox L c).replay_paths_ = false
      ∧ (replayCheckbox L c).current_gaze_point_ = defaultGazePoint
      ∧ (replayCheckbox L c).recorded_entries_ = c.recorded_entries_
      ∧ (replayCheckbox L c).recorded_gaze_points_ = c.recorded_gaze_points_ := by
  unfold replayCheckbox
  simp [hcam]

/-- C10, instance: a host that has recorded two entries in memory and has no file on disk. -/
theorem C10_replay_refused_witness :
    (replayCheckbox sampleLayouts sampleRecordingCore).replay_paths_ = false
      ∧ (replayCheckbox sampleLayouts sampleRecordingCore).current_gaze_point_ = defaultGazePoint
      ∧ (replayCheckbox sampleLayouts sampleRecordingCore).recorded_entries_
          = sampleRecordingCore.recorded_entries_
      ∧ (replayCheckbox sampleLayouts sampleRecordingCore).recorded_gaze_points_
          = sampleRecordingCore.recorded_gaze_points_ :=
  C10_replay_refused sampleLayouts sampleRecordingCore (by decide)

/-- C11. "Start Benchmark" with a frame count `n` between 1 and 10000 and a sample interval
`s > 0` sets the expected sample count to `n * 2 / s` (the truncating `int` division, which here
is the floor of the quotient), replaces the sample buffers by one buffer per sensor, each empty
and with that capacity reserved, and raises the trigger flag; for `n = 100`, `s = 10` the count
is 20. In a `draw` in which the button is clicked (header "PwrOwg" open) this set-up is what
`draw` leaves behind, computed from the frame count as the slider of the same frame left it. -/
theorem C11_expected_samples (L : Layouts) (d : DrawInput) (c : Core)
    (hlo : 1 ≤ c.num_frames_) (hhi : c.num_frames_ ≤ 10000) (hs : 0 < c.sample_interval_) :
    (startBenchmarkButton c).expected_samples_num_ = c.num_frames_ * 2 / c.sample_interval_
      ∧ ((startBenchmarkButton c).expected_samples_num_.toNat : Int)
          = (startBenchmarkButton c).expected_samples_num_
      ∧ (startBenchmarkButton c).sensor_buffers.length = c.sensorCount
      ∧ (∀ b ∈ (startBenchmarkButton c).sensor_buffers,
          b.samples = [] ∧ (b.capacity : Int) = c.num_frames_ * 2 / c.sample_interval_)
      ∧ (startBenchmarkButton c).run_benchmark_ = true
      ∧ (startBenchmarkButton c).num_frames_ = c.num_frames_
      ∧ Int.tdiv (100 * 2) 10 = 20
      ∧ (d.ui.pwrOwgOpen = true → d.ui.startBenchmarkClicked = true →
          (draw L d c).core.benchSetup
            = (startBenchmarkButton
                (uiBenchmarkSettings d.ui (uiWindowSize d.ui (uiPluginCombo d.ui c)))).benchSetup) := by
  have hn : (0 : Int) ≤ c.num_frames_ * 2 := by omega
  have hq : Int.tdiv (c.num_frames_ * 2) c.sample_interval_ = c.num_frames_ * 2 / c.sample_interval_ :=
    Int.tdiv_eq_ediv hn (le_of_lt hs)
  have hq0 : (0 : Int) ≤ c.num_frames_ * 2 / c.sample_interval_ :=
    Int.ediv_nonneg hn (le_of_lt hs)
  refine ⟨hq, ?_, ?_, ?_, rfl, rfl, by decide, benchSetup_draw_started L d c⟩
  · show ((Int.tdiv (c.num_frames_ * 2) c.sample_interval_).toNat : Int) = _
    rw [hq, Int.toNat_of_nonneg hq0]
    exact hq.symm
  · simp [startBenchmarkButton]
  · intro b hb
    simp only [startBenchmarkButton, List.mem_replicate] at hb
    rw [hb.2]
    refine ⟨rfl, ?_⟩
    show ((Int.tdiv (c.num_frames_ * 2) c.sample_interval_).toNat : Int) = _
    rw [hq, Int.toNat_of_nonneg hq0]

/-- C11, instance: the default settings, 100 frames and a sample interval of 10, with three
sensors, give the expected sample count 20 and three empty buffers of capacity 20. -/
theorem C11_expected_samples_witness :
    (startBenchmarkButton { sensorCount := 3 }).expected_samples_num_ = 20
      ∧ (startBenchmarkButton { sensorCount := 3 }).sensor_buffers
          = [{ samples := [], capacity := 20 }, { samples := [], capacity := 20 },
              { samples := [], capacity := 20 }] :=
  ⟨(C11_expected_samples sampleLayouts {} { sensorCount := 3 } (by decide) (by decide)
      (by decide)).1.trans (by decide),
    by decide⟩

/-- C13. With plugin object `p` loaded: a key, character, mouse-button, mouse-move or
mouse-scroll event makes no external call at all (no plugin callback, no camera call) when the
UI claims the matching focus, and otherwise makes exactly one plugin callback, the one for that
event (the handlers for pointer moves and scrolls may put a camera call before it); a
framebuffer-resize event always caches the new size and always calls `resize` of the plugin
with it. -/
theorem C13_event_forwarding (c : Core) (p : PluginInstance) (hp : c.currentPlugin_ = some p)
    (key action fixedMods : Int) (codepoint : Nat) (b : MouseButton) (a : MouseButtonAction)
    (m : Mods) (x y : Double) (anyMod : Bool) (w h : Int) :
    ((keyEvent key action fixedMods true c).log = c.log
        ∧ (keyEvent key action fixedMods false c).log
            = c.log ++ [Event.pluginKeyboard p key action fixedMods])
      ∧ ((charEvent codepoint true c).log = c.log
        ∧ (charEvent codepoint false c).log = c.log ++ [Event.pluginCharInput p codepoint])
      ∧ ((mouseButtonEvent b a m true c).log = c.log
        ∧ (mouseButtonEvent b a m false c).log = c.log ++ [Event.pluginMouseButton p b a m])
      ∧ ((mouseMoveEvent x y true c).log = c.log
        ∧ pluginTrace (mouseMoveEvent x y false c).log
            = pluginTrace c.log ++
              [Event.pluginMouseMove p (scaleWindowPosToFramebufferPos c x y).1
                (scaleWindowPosToFramebufferPos c x y).2])
      ∧ ((mouseScrollEvent x y true anyMod c).log = c.log
        ∧ pluginTrace (mouseScrollEvent x y false anyMod c).log
            = pluginTrace c.log ++ [Event.pluginMouseScroll p x y])
      ∧ ((framebufferSizeEvent w h c).log = c.log ++ [Event.pluginResize p w h]
        ∧ (framebufferSizeEvent w h c).framebufferWidth_ = w
        ∧ (framebufferSizeEvent w h c).framebufferHeight_ = h) := by
  refine ⟨⟨?_, ?_⟩, ⟨?_, ?_⟩, ⟨?_, ?_⟩, ⟨?_, ?_⟩, ⟨?_, ?_⟩, ?_, ?_, ?_⟩
  · simp [keyEvent]
  · simp [keyEvent, hp, Core.emit]
  · simp [charEvent]
  · simp [charEvent, hp, Core.emit]
  · unfold mouseButtonEvent
    simp
  · unfold mouseButtonEvent
    simp [hp, Core.emit]
  · rw [mouseMoveEvent_log]
  · rw [mouseMoveEvent_log]
    simp only [hp]
    by_cases hm : c.cameraControlMode_ = MouseControlMode.None
    · rw [mouseMoveCamera_log_none _ _ _ (Or.inl hm)]
      simp [pluginTrace, List.filter_append, Event.onPlugin]
    · cases hc : c.camera_ with
      | none =>
        rw [mouseMoveCamera_log_none _ _ _ (Or.inr hc)]
        simp [pluginTrace, List.filter_append, Event.onPlugin]
      | some cam =>
        rw [mouseMoveCamera_log_some _ _ _ cam hm hc]
        simp [pluginTrace, List.filter_append, Event.onPlugin]
  · simp [mouseScrollEvent]
  · simp only [mouseScrollEvent, hp, Core.emit]
    show pluginTrace ((mouseScrollCamera x y anyMod c).log ++ [Event.pluginMouseScroll p x y]) = _
    rw [mouseScrollCamera_log]
    cases anyMod <;> cases c.camera_ <;>
      simp [pluginTrace, List.filter_append, Event.onPlugin]
  · simp [framebufferSizeEvent, hp, Core.emit]
  · unfold framebufferSizeEvent
    simp only [hp]
    rfl
  · unfold framebufferSizeEvent
    simp only [hp]
    rfl

/-- C13, instance: a host with a plugin loaded gets a key press while the UI holds the keyboard
focus, and a framebuffer resize. -/
theorem C13_event_forwarding_witness :
    (keyEvent 65 1 0 true sampleDragCore).log = sampleDragCore.log
      ∧ (framebufferSizeEvent 640 480 sampleDragCore).log
          = sampleDragCore.log ++ [Event.pluginResize ⟨0, 0⟩ 640 480] :=
  have h := C13_event_forwarding sampleDragCore ⟨0, 0⟩ rfl 65 1 0 0 .Left .Press ⟨0⟩ 0 0 false
    640 480
  ⟨h.1.1, h.2.2.2.2.2.1⟩

/-- C14. In a `draw` that swaps the plugin (the factory returning an object), whether the search
for the resource directory failed or not, the new object is created, resized and rendered. After
that `draw`, `getPluginResourcesPath` gives back the result of that search: it throws the cached
exception exactly when the search threw, and returns the path found otherwise (a directory that
was found has a non-empty path). A `draw` that swaps no plugin leaves the answer of
`getPluginResourcesPath` as it was. -/
theorem C14_resource_path_deferred (L : Layouts) (d : DrawInput) (c : Core)
    (hsel : c.currentPluginIdx_ ≠ (uiPluginCombo d.ui c).pluginSelectionIdx_)
    (hcreate : d.createThrows = false)
    (hpath : ∀ path, d.resourcesPath = .ok path → path.isEmpty = false) :
    (d.renderThrows = false → draw L d c = .returned (draw L d c).core)
      ∧ pluginTrace (draw L d c).core.log =
        pluginTrace c.log ++
          (match c.currentPlugin_ with
            | some q => [Event.pluginReleased q]
            | none => []) ++
          [Event.pluginCreated ⟨(uiPluginCombo d.ui c).pluginSelectionIdx_, c.nextSerial⟩,
            Event.pluginResize ⟨(uiPluginCombo d.ui c).pluginSelectionIdx_, c.nextSerial⟩
              c.framebufferWidth_ c.framebufferHeight_,
            Event.pluginRender ⟨(uiPluginCombo d.ui c).pluginSelectionIdx_, c.nextSerial⟩]
      ∧ getPluginResourcesPath (draw L d c).core = d.resourcesPath
      ∧ ((∃ ex, getPluginResourcesPath (draw L d c).core = .error ex)
          ↔ ∃ ex, d.resourcesPath = .error ex)
      ∧ (∀ (d2 : DrawInput) (c2 : Core),
          c2.currentPluginIdx_ = (uiPluginCombo d2.ui c2).pluginSelectionIdx_ →
          getPluginResourcesPath (draw L d2 c2).core = getPluginResourcesPath c2) := by
  have hget : getPluginResourcesPath (draw L d c).core = d.resourcesPath := by
    have hv := resources_draw L d c
    rw [if_pos hsel] at hv
    simp only [Core.resourcesView] at hv
    unfold getPluginResourcesPath
    cases hr : d.resourcesPath with
    | ok path =>
      rw [hr] at hv
      simp only [Prod.mk.injEq] at hv
      rw [hv.1, hpath path hr]
      rfl
    | error ex =>
      rw [hr] at hv
      simp only [Prod.mk.injEq] at hv
      rw [hv.1, hv.2]
      rfl
  refine ⟨?_, (draw_swap_trace L d c hsel hcreate).1, hget, ?_, ?_⟩
  · intro hrt
    obtain ⟨hu1, hu2⟩ := swapState_uiPwrOwg L d.ui (uiPluginCombo d.ui c)
    rw [swapState_uiPluginCombo] at hu1
    simp only [Core.swapState, Prod.mk.injEq] at hu1
    have hne : (uiPwrOwg L d.ui (uiPluginCombo d.ui c)).currentPluginIdx_ ≠
        (uiPwrOwg L d.ui (uiPluginCombo d.ui c)).pluginSelectionIdx_ := by
      rw [hu1.2.1, hu2]; exact hsel
    obtain ⟨hswap, _, _⟩ := pluginSwap_effect d _ hne hcreate
    unfold draw
    rw [hswap]
    simp only [Outcome.andThen, renderPlugin, hrt]
    split <;> rfl
  · rw [hget]
  · intro d2 c2 hsame
    have hv := resources_draw L d2 c2
    rw [if_neg (not_not.mpr hsame)] at hv
    simp only [Core.resourcesView, Prod.mk.injEq] at hv
    unfold getPluginResourcesPath
    rw [hv.1, hv.2]

/-- C14, instance: the first `draw` of a host whose first plugin has no resource directory. -/
theorem C14_resource_path_deferred_witness :
    pluginTrace
        (draw sampleLayouts { resourcesPath := .error "no resources" } sampleFreshCore).core.log =
        pluginTrace sampleFreshCore.log ++ [] ++
          [Event.pluginCreated ⟨0, 0⟩, Event.pluginResize ⟨0, 0⟩ 1280 800,
            Event.pluginRender ⟨0, 0⟩]
      ∧ getPluginResourcesPath
          (draw sampleLayouts { resourcesPath := .error "no resources" } sampleFreshCore).core
          = .error "no resources" :=
  have h := C14_resource_path_deferred sampleLayouts { resourcesPath := .error "no resources" }
    sampleFreshCore (by decide) rfl (fun path hp => by cases hp)
  ⟨h.2.1, h.2.2.1⟩

/-- C15, the code on the failure path: in every benchmark block the sampler is started once,
and it is stopped once exactly when the loop ends without an exception; when a tick throws,
the block is left with the benchmark flag cleared and the sampler still running. At a failing
input, a benchmark of four frames whose first `render` throws, the calls on the sampler are
`start` alone; with four quiet frames they are `start`, `stop`. -/
theorem C15_sampler_left_running :
    (∀ (L : Layouts) (inputs : List FrameInput) (c : Core),
        sensorTrace (benchmark L inputs c).core.log =
          sensorTrace c.log ++ [Event.sensorsStart] ++
            (match (if c.replay_paths_ then replayLoop L inputs 0 (c.emit .sensorsStart)
                else framesLoop L inputs 0 (c.emit .sensorsStart)) with
              | .finished _ _ => [Event.sensorsStop]
              | _ => []))
      ∧ sampleBenchCore.run_benchmark_ = true
      ∧ (framesLoop sampleLayouts sampleThrowingFrames 0
          (sampleBenchCore.emit .sensorsStart)).threwException = true
      ∧ sensorTrace (benchmark sampleLayouts sampleThrowingFrames sampleBenchCore).core.log
          = [Event.sensorsStart]
      ∧ (benchmark sampleLayouts sampleThrowingFrames sampleBenchCore).core.run_benchmark_ = false
      ∧ (benchmark sampleLayouts sampleThrowingFrames sampleBenchCore).threwException = false
      ∧ sensorTrace (benchmark sampleLayouts sampleQuietFrames sampleBenchCore).core.log
          = [Event.sensorsStart, Event.sensorsStop] := by
  refine ⟨sensorTrace_benchmark, rfl, rfl, ?_, rfl, rfl, ?_⟩
  · rw [sensorTrace_benchmark]
    rfl
  · rw [sensorTrace_benchmark]
    rfl

/-- C16, counterexample: while recording, the pointer moves from the framebuffer position
(640, 400) to the window position (480, 100), which gives the accumulator the old position
(0, 0) and the new position (1/2, 1/2). The next recording tick appends that entry and leaves
an accumulator whose old and new positions are both (0, 0), the old position of the appended
entry, and not (1/2, 1/2), its new position. -/
theorem C16_position_counterexample :
    sampleDragRecordingCore.recording_paths_ = true
      ∧ (mouseMoveEvent 480 100 false sampleDragRecordingCore).current_entry_
          = { mode := MouseControlMode.Left, oldX := 0, oldY := 0,
              newX := Double.finite (1 / 2), newY := Double.finite (1 / 2),
              xoffset := sampleDragRecordingCore.current_entry_.xoffset,
              yoffset := sampleDragRecordingCore.current_entry_.yoffset }
      ∧ (recordingTick (mouseMoveEvent 480 100 false sampleDragRecordingCore)).recorded_entries_
          = [(mouseMoveEvent 480 100 false sampleDragRecordingCore).current_entry_]
      ∧ (recordingTick (mouseMoveEvent 480 100 false sampleDragRecordingCore)).current_entry_.oldX
          = 0
      ∧ (recordingTick (mouseMoveEvent 480 100 false sampleDragRecordingCore)).current_entry_.oldY
          = 0
      ∧ (recordingTick (mouseMoveEvent 480 100 false sampleDragRecordingCore)).current_entry_.newX
          = 0
      ∧ (recordingTick (mouseMoveEvent 480 100 false sampleDragRecordingCore)).current_entry_.newY
          = 0
      ∧ (recordingTick (mouseMoveEvent 480 100 false sampleDragRecordingCore)).current_entry_.newX
          ≠ (mouseMoveEvent 480 100 false sampleDragRecordingCore).current_entry_.newX := by
  have he : (mouseMoveEvent 480 100 false sampleDragRecordingCore).current_entry_
      = { mode := MouseControlMode.Left, oldX := 0, oldY := 0,
          newX := Double.finite (1 / 2), newY := Double.finite (1 / 2),
          xoffset := sampleDragRecordingCore.current_entry_.xoffset,
          yoffset := sampleDragRecordingCore.current_entry_.yoffset } := by
    have ex : ∀ (q r : ℚ) (m e : ℤ), q = r → r = (m : ℚ) * 2 ^ e → |m| < 2 ^ 53 →
        -1074 ≤ e → e ≤ 971 → Double.round q = .finite r :=
      fun q r m e hq hr hm he he2 => Double.round_exact q r m e hq hr hm he he2
    have hoX : 2 * Double.finite 640 / Double.ofInt 1280 - 1 = Double.finite 0 :=
      ndcX_eval 1280 640 1280 1 0 (by decide)
        (ex _ _ 1280 0 (by norm_num) (by norm_num) (by norm_num) (by norm_num) (by norm_num))
        (ex _ _ 1 0 (by norm_num) (by norm_num) (by norm_num) (by norm_num) (by norm_num))
        (ex _ _ 0 0 (by norm_num) (by norm_num) (by norm_num) (by norm_num) (by norm_num))
    have hoY : 1 - 2 * Double.finite 400 / Double.ofInt 800 = Double.finite 0 :=
      ndcY_eval 800 400 800 1 0 (by decide)
        (ex _ _ 800 0 (by norm_num) (by norm_num) (by norm_num) (by norm_num) (by norm_num))
        (ex _ _ 1 0 (by norm_num) (by norm_num) (by norm_num) (by norm_num) (by norm_num))
        (ex _ _ 0 0 (by norm_num) (by norm_num) (by norm_num) (by norm_num) (by norm_num))
    have hsX : Double.finite 480 * (Double.ofInt 1280 / Double.ofInt 640) = Double.finite 960 :=
      scale_eval 640 1280 480 2 960 (by decide)
        (ex _ _ 2 0 (by norm_num) (by norm_num) (by norm_num) (by norm_num) (by norm_num))
        (ex _ _ 960 0 (by norm_num) (by norm_num) (by norm_num) (by norm_num) (by norm_num))
    have hsY : Double.finite 100 * (Double.ofInt 800 / Double.ofInt 400) = Double.finite 200 :=
      scale_eval 400 800 100 2 200 (by decide)
        (ex _ _ 2 0 (by norm_num) (by norm_num) (by norm_num) (by norm_num) (by norm_num))
        (ex _ _ 200 0 (by norm_num) (by norm_num) (by norm_num) (by norm_num) (by norm_num))
    have hnX : 2 * Double.finite 960 / Double.ofInt 1280 - 1 = Double.finite (1 / 2) :=
      ndcX_eval 1280 960 1920 (3 / 2) (1 / 2) (by decide)
        (ex _ _ 1920 0 (by norm_num) (by norm_num) (by norm_num) (by norm_num) (by norm_num))
        (ex _ _ 3 (-1) (by norm_num) (by norm_num) (by norm_num) (by norm_num) (by norm_num))
        (ex _ _ 1 (-1) (by norm_num) (by norm_num) (by norm_num) (by norm_num) (by norm_num))
    have hnY : 1 - 2 * Double.finite 200 / Double.ofInt 800 = Double.finite (1 / 2) :=
      ndcY_eval 800 200 400 (1 / 2) (1 / 2) (by decide)
        (ex _ _ 400 0 (by norm_num) (by norm_num) (by norm_num) (by norm_num) (by norm_num))
        (ex _ _ 1 (-1) (by norm_num) (by norm_num) (by norm_num) (by norm_num) (by norm_num))
        (ex _ _ 1 (-1) (by norm_num) (by norm_num) (by norm_num) (by norm_num) (by norm_num))
    have e0 : (mouseMoveEvent 480 100 false sampleDragRecordingCore).current_entry_
        = { mode := MouseControlMode.Left,
            oldX := 2 * Double.finite 640 / Double.ofInt 1280 - 1,
            oldY := 1 - 2 * Double.finite 400 / Double.ofInt 800,
            newX := 2 * (Double.finite 480 * (Double.ofInt 1280 / Double.ofInt 640))
              / Double.ofInt 1280 - 1,
            newY := 1 - 2 * (Double.finite 100 * (Double.ofInt 800 / Double.ofInt 400))
              / Double.ofInt 800,
            xoffset := sampleDragRecordingCore.current_entry_.xoffset,
            yoffset := sampleDragRecordingCore.current_entry_.yoffset } := by
      simp only [mouseMoveEvent, mouseMoveCamera, scaleWindowPosToFramebufferPos,
        sampleDragRecordingCore, sampleDragCore, Core.emit]
      simp [Double.ofNat_eq]
    rw [e0, hsX, hsY, hoX, hoY, hnX, hnY, Double.zero_eq]
  have hrec : (mouseMoveEvent 480 100 false sampleDragRecordingCore).recording_paths_ = true := rfl
  have hes : (mouseMoveEvent 480 100 false sampleDragRecordingCore).recorded_entries_ = [] := rfl
  have ht : (recordingTick (mouseMoveEvent 480 100 false sampleDragRecordingCore)).current_entry_
      = { (mouseMoveEvent 480 100 false sampleDragRecordingCore).current_entry_ with
          newX := (mouseMoveEvent 480 100 false sampleDragRecordingCore).current_entry_.oldX,
          newY := (mouseMoveEvent 480 100 false sampleDragRecordingCore).current_entry_.oldY,
          xoffset := 0, yoffset := 0 } := by
    unfold recordingTick
    rw [if_pos hrec]
  have hl : (recordingTick (mouseMoveEvent 480 100 false sampleDragRecordingCore)).recorded_entries_
      = (mouseMoveEvent 480 100 false sampleDragRecordingCore).recorded_entries_
        ++ [(mouseMoveEvent 480 100 false sampleDragRecordingCore).current_entry_] := by
    unfold recordingTick
    rw [if_pos hrec]
  refine ⟨rfl, he, ?_, ?_, ?_, ?_, ?_, ?_⟩
  · rw [hl, hes]
    rfl
  · rw [ht, he]
  · rw [ht, he]
  · rw [ht, he]
  · rw [ht, he]
  · rw [ht, he]
    simp only [Double.ofNat_eq, ne_eq, Double.finite.injEq]
    norm_num

/-- C16, amended. At a main-loop tick while recording is active, the accumulator entry is
appended to the camera trace and then reset: the camera mode and the old position stay, the new
position becomes the old position of the entry just appended, and the scroll offsets become
zero. When no pointer move or scroll arrives and Replay, Record and Recording are not clicked
during that pass of the main loop, the accumulator is still the reset one at the next tick,
which appends it: an entry with zero drag and zero scroll at that old position. -/
theorem C16_recording_tick (L : Layouts) (inputs : List FrameInput) (c : Core)
    (hrec : c.recording_paths_ = true)
    (hq : ∀ inp ∈ inputs, (inp.keepsTrace ∧ inp.keepsRecording) ∧ inp.noPointer) :
    (recordingTick c).recorded_entries_ = c.recorded_entries_ ++ [c.current_entry_]
      ∧ (recordingTick c).current_entry_
          = { mode := c.current_entry_.mode,
              oldX := c.current_entry_.oldX, oldY := c.current_entry_.oldY,
              newX := c.current_entry_.oldX, newY := c.current_entry_.oldY,
              xoffset := 0, yoffset := 0 }
      ∧ (mainLoopBody L inputs c).core.current_entry_ = (recordingTick c).current_entry_
      ∧ (recordingTick (mainLoopBody L inputs c).core).recorded_entries_
          = c.recorded_entries_ ++ [c.current_entry_, (recordingTick c).current_entry_] := by
  have h1 : (recordingTick c).recorded_entries_ = c.recorded_entries_ ++ [c.current_entry_] := by
    unfold recordingTick
    rw [if_pos hrec]
  have h2 : (recordingTick c).current_entry_
      = { mode := c.current_entry_.mode,
          oldX := c.current_entry_.oldX, oldY := c.current_entry_.oldY,
          newX := c.current_entry_.oldX, newY := c.current_entry_.oldY,
          xoffset := 0, yoffset := 0 } := by
    unfold recordingTick
    rw [if_pos hrec]
  have h3 : (mainLoopBody L inputs c).core.current_entry_ = (recordingTick c).current_entry_ :=
    mainLoopBody_keeps (fun x => x.current_entry_ = (recordingTick c).current_entry_)
      FrameInput.noPointer L
      (fun inp c2 hi hc => (accum_render_frame L inp c2 hi).trans hc)
      (fun i ce c2 hc => (accum_replayApply i ce c2).1.trans hc)
      (fun _ _ _ _ hc => hc) inputs c (fun inp hin => (hq inp hin).2) rfl
  obtain ⟨h4, h5⟩ := mainLoopBody_recording L inputs c (fun inp hin => (hq inp hin).1) hrec
  refine ⟨h1, h2, h3, ?_⟩
  have h6 : (recordingTick (mainLoopBody L inputs c).core).recorded_entries_
      = (mainLoopBody L inputs c).core.recorded_entries_
        ++ [(mainLoopBody L inputs c).core.current_entry_] := by
    unfold recordingTick
    rw [if_pos h4]
  rw [h6, h5, h3]
  simp

/-- C16, instance: the recording host after the pointer move to the window position
(480, 100), and one quiet pass of the main loop. -/
theorem C16_recording_tick_witness :
    (recordingTick
        (mainLoopBody sampleLayouts [{}]
          (mouseMoveEvent 480 100 false sampleDragRecordingCore)).core).recorded_entries_
      = (mouseMoveEvent 480 100 false sampleDragRecordingCore).recorded_entries_
        ++ [(mouseMoveEvent 480 100 false sampleDragRecordingCore).current_entry_,
          (recordingTick (mouseMoveEvent 480 100 false sampleDragRecordingCore)).current_entry_] :=
  (C16_recording_tick sampleLayouts [{}] (mouseMoveEvent 480 100 false sampleDragRecordingCore)
    rfl
    (fun inp hin => by
      rw [List.mem_singleton.mp hin]
      exact ⟨⟨keepsTrace_default, keepsRecording_default⟩, noPointer_default⟩)).2.2.2

/-- C18, counterexample: a window-size event 0 by 0 reaches the fresh host, so the cached
window size is 0 by 0 and the framebuffer is 1280 by 800. The position (5, 7) is then not
returned unchanged; both coordinates come out non-finite. -/
theorem C18_zero_window_counterexample :
    windowSizeEvent 0 0 sampleFreshCore = sampleZeroWindowCore
      ∧ sampleZeroWindowCore.windowWidth_ = 0 ∧ sampleZeroWindowCore.windowHeight_ = 0
      ∧ scaleWindowPosToFramebufferPos sampleZeroWindowCore 5 7
          = (Double.nonFinite, Double.nonFinite)
      ∧ scaleWindowPosToFramebufferPos sampleZeroWindowCore 5 7 ≠ (5, 7) := by
  have h : scaleWindowPosToFramebufferPos sampleZeroWindowCore 5 7
      = (Double.nonFinite, Double.nonFinite) := by
    simp only [scaleWindowPosToFramebufferPos, sampleZeroWindowCore, Double.ofInt, Int.cast_zero,
      Double.div_zero, Double.mul_nonFinite]
  refine ⟨rfl, rfl, rfl, h, ?_⟩
  rw [h]
  simp [Double.ofNat_eq]

/-- C18, amended. `scaleWindowPosToFramebufferPos` has no guard: when the cached window width
(respectively height) is 0 it divides by zero and the x (respectively y) coordinate comes out
non-finite, for every input position and framebuffer size; a finite coordinate is therefore
never returned unchanged. When the cached width (height) is not 0, a finite coordinate is
multiplied by framebuffer width over window width (height over height), the quotient and the
product each rounded to a double. -/
theorem C18_zero_window_scale (c : Core) (x y : Double)
    (h0 : c.windowWidth_ = 0 ∨ c.windowHeight_ = 0) :
    (c.windowWidth_ = 0 →
        (scaleWindowPosToFramebufferPos c x y).1 = Double.nonFinite)
      ∧ (c.windowHeight_ = 0 →
        (scaleWindowPosToFramebufferPos c x y).2 = Double.nonFinite)
      ∧ (∀ a b : ℚ, x = Double.finite a → y = Double.finite b →
        scaleWindowPosToFramebufferPos c x y ≠ (x, y))
      ∧ (∀ (c2 : Core) (a : ℚ), c2.windowWidth_ ≠ 0 →
        (scaleWindowPosToFramebufferPos c2 (Double.finite a) y).1
          = Double.finite a
            * Double.round ((c2.framebufferWidth_ : ℚ) / (c2.windowWidth_ : ℚ)))
      ∧ (∀ (c2 : Core) (b : ℚ), c2.windowHeight_ ≠ 0 →
        (scaleWindowPosToFramebufferPos c2 x (Double.finite b)).2
          = Double.finite b
            * Double.round ((c2.framebufferHeight_ : ℚ) / (c2.windowHeight_ : ℚ))) := by
  have hx : c.windowWidth_ = 0 →
      (scaleWindowPosToFramebufferPos c x y).1 = Double.nonFinite := by
    intro hw
    simp only [scaleWindowPosToFramebufferPos, hw, Double.ofInt, Int.cast_zero, Double.div_zero,
      Double.mul_nonFinite]
  have hy : c.windowHeight_ = 0 →
      (scaleWindowPosToFramebufferPos c x y).2 = Double.nonFinite := by
    intro hh
    simp only [scaleWindowPosToFramebufferPos, hh, Double.ofInt, Int.cast_zero, Double.div_zero,
      Double.mul_nonFinite]
  refine ⟨hx, hy, ?_, ?_, ?_⟩
  · intro a b ha hb heq
    rcases h0 with hw | hh
    · have h1 := hx hw
      rw [heq, ha] at h1
      exact Double.noConfusion h1
    · have h2 := hy hh
      rw [heq, hb] at h2
      exact Double.noConfusion h2
  · intro c2 a hw
    have hw2 : (c2.windowWidth_ : ℚ) ≠ 0 := Int.cast_ne_zero.mpr hw
    simp only [scaleWindowPosToFramebufferPos, Double.ofInt]
    rw [Double.finite_div _ _ hw2]
  · intro c2 b hh
    have hh2 : (c2.windowHeight_ : ℚ) ≠ 0 := Int.cast_ne_zero.mpr hh
    simp only [scaleWindowPosToFramebufferPos, Double.ofInt]
    rw [Double.finite_div _ _ hh2]

/-- C18, instance: the cached window size 0 by 0 and the position (5, 7). -/
theorem C18_zero_window_scale_witness :
    (scaleWindowPosToFramebufferPos sampleZeroWindowCore 5 7).1 = Double.nonFinite :=
  (C18_zero_window_scale sampleZeroWindowCore 5 7 (Or.inl rfl)).1 rfl

end OGL4Core2
